import Mathlib

/-! # hecl: BlenderConnection sessions, mesh records and skin banks

A shallow embedding of `blender/BlenderConnection.hpp`, of `SanitizePath`, `IsPathYAML`
and the resource locks of `lib/hecl.cpp`, and of `addTexCoordGen` of
`lib/Backend/GLSL.cpp`.

* The connection (`BlenderConnection`) keeps the `m_lock` flag, the loaded blend type and
  the two pipes.  The write pipe is the list of everything written so far, the read pipe
  is the list of bytes the peer will still deliver.
* A `logvisor::Fatal` report ends the running operation: an operation either returns
  (`Outcome.ok`) or stops at a fatal report (`Outcome.fatal`).  Both carry the connection
  state: the state at the return, or the state in which the report is made.
* Stream objects (`DataStream`, `PyOutStream`) hold the `m_parent` pointer; there is one
  connection, so the pointer is modelled by a flag (set: points at the connection,
  cleared: `nullptr`, a moved-from stream).
* Allocations succeed, with one exception: `retval.reserve(count)` of `getMeshList` asks
  for storage sized by a count the peer sends, so there the allocator of the host is a
  parameter and a refused request ends the member with `std::bad_alloc`.
-/

namespace hecl

/-! ## Connection state -/

/-- The blend types of `BlenderConnection::BlendType`. -/
inductive BlendType
  | None
  | Mesh
  | Actor
  | Area
  | World
  | MapArea
  | MapUniverse
  | Frame
  deriving DecidableEq, Repr

/-- One write on the pipe to the peer: a text line (`_writeLine`) or raw bytes
(`_writeBuf`). -/
inductive Written
  | line (text : String)
  | buf (bytes : List Nat)
  deriving DecidableEq, Repr

/-- The state of a `BlenderConnection`: the members `m_lock` and `m_loadedType`, the
write pipe (`written`, oldest first) and the read pipe (`incoming`, the bytes the peer
delivers, next byte first). -/
structure BlenderConnection where
  m_lock : Bool
  m_loadedType : BlendType
  written : List Written
  incoming : List Char
  /-- The absolute path of `m_loadedBlend`, used in messages only. -/
  m_loadedBlend : String := ""
  deriving DecidableEq, Repr

/-- A connection as its constructor leaves it: `m_lock = false`, nothing written yet. -/
def BlenderConnection.fresh (loadedType : BlendType) (incoming : List Char) :
    BlenderConnection :=
  { m_lock := false, m_loadedType := loadedType, written := [], incoming := incoming }

/-- The result of an operation on the connection.  `ok` is a normal return with the
returned value; `fatal` is a `BlenderLog.report(logvisor::Fatal, ...)` with its message,
after which the operation does not continue.  A transport error of the channel and an
exception that leaves the operation (`std::bad_alloc`) end it in the same way and are
given as `fatal` with a message that names them.  Both carry the connection state
reached. -/
inductive Outcome (α : Type)
  | ok (val : α) (conn : BlenderConnection)
  | fatal (msg : String) (conn : BlenderConnection)
  deriving DecidableEq, Repr

/-- The connection state an outcome ends in. -/
def Outcome.conn {α : Type} : Outcome α → BlenderConnection
  | .ok _ c => c
  | .fatal _ c => c

/-- Whether the operation returned normally. -/
def Outcome.succeeded {α : Type} : Outcome α → Bool
  | .ok _ _ => true
  | .fatal _ _ => false

/-! ## Channel primitives -/

/-- The terminator bytes of a text token: newline and NUL. -/
def isTerminator (c : Char) : Bool :=
  c == '\n' || c == Char.ofNat 0

/-- Modelled from the spec: the scan of `readLine(maxBytes)`, whose body
(`BlenderConnection::_readLine`) is not part of the header.  The spec: "`readLine` blocks
until a terminator byte or `maxBytes-1` bytes are consumed, then null-terminates".
`budget` is the number of bytes that may still be consumed, `acc` the text read so far
(newest first).  The result is the text and the bytes left in the pipe; `none` when the
pipe ends before either condition is met (the transport error of the spec). -/
def readLineScan : Nat → List Char → List Char → Option (List Char × List Char)
  | 0, acc, rest => some (acc.reverse, rest)
  | _ + 1, _, [] => none
  | n + 1, acc, c :: rest =>
    if isTerminator c then some (acc.reverse, rest) else readLineScan n (c :: acc) rest

/-- Modelled from the spec: `_readLine(buf, bufSz)`, the `readLine(maxBytes)` of the Channel.
Returns the text put in `buf`; a transport error is "fatal to the stream". -/
def BlenderConnection._readLine (c : BlenderConnection) (bufSz : Nat) : Outcome String :=
  match readLineScan (bufSz - 1) [] c.incoming with
  | some (text, rest) => .ok (String.mk text) { c with incoming := rest }
  | none => .fatal "transport error" c

/-- Modelled from the spec: `_writeLine(buf)`, the `writeLine(text)` of the Channel: the text
goes to the peer as one line. -/
def BlenderConnection._writeLine (c : BlenderConnection) (text : String) :
    BlenderConnection :=
  { c with written := c.written ++ [Written.line text] }

/-- The text the next `_readLine(buf, bufSz)` puts in `buf`: the line read back from the
peer; `none` when the pipe ends first. -/
def BlenderConnection.nextLine (c : BlenderConnection) (bufSz : Nat) : Option String :=
  (readLineScan (bufSz - 1) [] c.incoming).map (fun r => String.mk r.1)

/-! ## Streams -/

/-- The class `BlenderConnection::DataStream`: its only member is `m_parent`. -/
structure DataStream where
  /-- Set when `m_parent` points at the connection, cleared when it is `nullptr`. -/
  m_parent : Bool
  deriving DecidableEq, Repr

/-- The class `BlenderConnection::PyOutStream` with the line buffer of its `StreamBuf`. -/
structure PyOutStream where
  /-- Set when `m_parent` points at the connection, cleared when it is `nullptr`. -/
  m_parent : Bool
  m_deleteOnError : Bool
  m_lineBuf : String
  deriving DecidableEq, Repr

/-- The constructor `DataStream::DataStream(BlenderConnection* parent)`. -/
def DataStream.ctor (c : BlenderConnection) : Outcome DataStream :=
  let c1 := { c with m_lock := true }
  let c2 := c1._writeLine "DATABEGIN"
  match c2._readLine 16 with
  | .fatal msg c3 => .fatal msg c3
  | .ok readBuf c3 =>
    if readBuf ≠ "READY" then
      .fatal "unable to open DataStream with blender" c3
    else
      .ok { m_parent := true } c3

/-- The constructor `PyOutStream::PyOutStream(BlenderConnection* parent, bool
deleteOnError)`. -/
def PyOutStream.ctor (c : BlenderConnection) (deleteOnError : Bool) : Outcome PyOutStream :=
  let c1 := { c with m_lock := true }
  let c2 := c1._writeLine "PYBEGIN"
  match c2._readLine 16 with
  | .fatal msg c3 => .fatal msg c3
  | .ok readBuf c3 =>
    if readBuf ≠ "READY" then
      .fatal "unable to open PyOutStream with blender" c3
    else
      .ok { m_parent := true, m_deleteOnError := deleteOnError, m_lineBuf := "" } c3

/-- The member `BlenderConnection::beginData()`. -/
def BlenderConnection.beginData (c : BlenderConnection) : Outcome DataStream :=
  if c.m_lock then
    .fatal "lock already held for BlenderConnection::beginDataIn()" c
  else
    DataStream.ctor c

/-- The member `BlenderConnection::beginPythonOut(bool deleteOnError)`. -/
def BlenderConnection.beginPythonOut (c : BlenderConnection) (deleteOnError : Bool) :
    Outcome PyOutStream :=
  if c.m_lock then
    .fatal "lock already held for BlenderConnection::beginPythonOut()" c
  else
    PyOutStream.ctor c deleteOnError

/-- The member `DataStream::close()`. -/
def DataStream.close (s : DataStream) (c : BlenderConnection) : Outcome Unit :=
  if s.m_parent && c.m_lock then
    let c1 := c._writeLine "DATAEND"
    match c1._readLine 16 with
    | .fatal msg c2 => .fatal msg c2
    | .ok readBuf c2 =>
      if readBuf ≠ "DONE" then
        .fatal "unable to close DataStream with blender" c2
      else
        .ok () { c2 with m_lock := false }
  else
    .ok () c

/-- The member `PyOutStream::close()`. -/
def PyOutStream.close (s : PyOutStream) (c : BlenderConnection) : Outcome Unit :=
  if s.m_parent && c.m_lock then
    let c1 := c._writeLine "PYEND"
    match c1._readLine 16 with
    | .fatal msg c2 => .fatal msg c2
    | .ok readBuf c2 =>
      if readBuf ≠ "DONE" then
        .fatal "unable to close PyOutStream with blender" c2
      else
        .ok () { c2 with m_lock := false }
  else
    .ok () c

/-! ## A session: the connection with the stream objects living on it -/

/-- A stream object of either class. -/
inductive Stream
  | data (s : DataStream)
  | py (s : PyOutStream)
  deriving DecidableEq, Repr

/-- A live stream object with a history mark: `closeCalled` records whether `close()` has
been called on the object (the classes keep no such member). -/
structure StreamObj where
  stream : Stream
  closeCalled : Bool
  deriving DecidableEq, Repr

/-- Whether `close()` has not yet been called on the stream object. -/
def StreamObj.isOpen (o : StreamObj) : Bool := !o.closeCalled

/-- The connection and the stream objects created on it, oldest first. -/
structure Session where
  conn : BlenderConnection
  streams : List StreamObj
  deriving DecidableEq, Repr

/-- A new connection with no stream object. -/
def Session.fresh (loadedType : BlendType) (incoming : List Char) : Session :=
  { conn := BlenderConnection.fresh loadedType incoming, streams := [] }

/-- The calls a client makes: the two `begin` members and `close()` on the `i`-th stream
object. -/
inductive Call
  | beginData
  | beginPythonOut (deleteOnError : Bool)
  | close (i : Nat)
  deriving DecidableEq, Repr

/-- Whether the `m_parent` pointer of a stream object is set. -/
def Stream.hasParent : Stream → Bool
  | .data s => s.m_parent
  | .py s => s.m_parent

/-- The member `close()` of a stream object of either class. -/
def Stream.close : Stream → BlenderConnection → Outcome Unit
  | .data s, c => s.close c
  | .py s, c => s.close c

/-- One call on a session.  `none` when the call reports a fatal error (the program does
not go on) or names a stream object that does not exist. -/
def Session.call (s : Session) : Call → Option Session
  | .beginData =>
    match s.conn.beginData with
    | .ok d c => some { conn := c, streams := s.streams ++ [⟨Stream.data d, false⟩] }
    | .fatal _ _ => none
  | .beginPythonOut deleteOnError =>
    match s.conn.beginPythonOut deleteOnError with
    | .ok p c => some { conn := c, streams := s.streams ++ [⟨Stream.py p, false⟩] }
    | .fatal _ _ => none
  | .close i =>
    match s.streams[i]? with
    | none => none
    | some o =>
      match o.stream.close s.conn with
      | .ok _ c => some { conn := c, streams := s.streams.set i { o with closeCalled := true } }
      | .fatal _ _ => none

/-- A sequence of calls, each returning normally. -/
def Session.run (s : Session) : List Call → Option Session
  | [] => some s
  | k :: ks =>
    match s.call k with
    | none => none
    | some s1 => s1.run ks

/-- The number of stream objects of a session on which `close()` has not yet been
called. -/
def Session.openCount (s : Session) : Nat :=
  (s.streams.filter StreamObj.isOpen).length

/-- A call that closes again a stream already closed while the lock is held (by a stream
opened since). -/
def Call.staleClose (s : Session) : Call → Bool
  | .close i =>
    match s.streams[i]? with
    | some o => o.closeCalled && s.conn.m_lock
    | none => false
  | _ => false

/-- A sequence of calls, each returning normally and none of them a stale close. -/
def Session.runNoStale (s : Session) : List Call → Option Session
  | [] => some s
  | k :: ks =>
    if k.staleClose s then none
    else
      match s.call k with
      | none => none
      | some s1 => s1.runNoStale ks

/-- The object invariant of a session: every stream object points at the connection, at
most one of them is not yet closed, and the lock is set exactly when one is. -/
def Session.Inv (s : Session) : Prop :=
  (∀ o ∈ s.streams, o.stream.hasParent = true) ∧ s.openCount ≤ 1 ∧
    (s.conn.m_lock = true ↔ s.openCount = 1)

/-- Whether a write opens a streaming sub-protocol: the lines `DATABEGIN` and `PYBEGIN`
of the two constructors. -/
def Written.isBegin : Written → Bool
  | .line text => text == "DATABEGIN" || text == "PYBEGIN"
  | .buf _ => false

/-- Whether a write ends a streaming sub-protocol: the lines `DATAEND` and `PYEND` of the
two `close()` members. -/
def Written.isEnd : Written → Bool
  | .line text => text == "DATAEND" || text == "PYEND"
  | .buf _ => false

/-- The number of streams open on the wire: the begin lines written so far less the end
lines written so far. -/
def wireOpenCount (written : List Written) : Int :=
  (written.countP Written.isBegin : Int) - (written.countP Written.isEnd : Int)

/-- The wire balance of a session: the begin lines written are the end lines written,
plus one when the lock is set, and every stream object stands for one begin line. -/
def Session.WireBalance (s : Session) : Prop :=
  s.conn.written.countP Written.isBegin
      = s.conn.written.countP Written.isEnd + (if s.conn.m_lock then 1 else 0) ∧
    s.streams.length = s.conn.written.countP Written.isBegin

/-! ## Concrete sessions used as test inputs -/

/-- A connection with a data stream open whose peer answers the end token with
`ERROR`. -/
def lockedConnBadReply : BlenderConnection :=
  { m_lock := true, m_loadedType := BlendType.Mesh,
    written := [Written.line "DATABEGIN"], incoming := "ERROR\n".toList }

/-- A connection with a data stream open whose peer answers the end token with `DONE`
and a following request with `READY`. -/
def lockedConnGoodReply : BlenderConnection :=
  { m_lock := true, m_loadedType := BlendType.Mesh,
    written := [Written.line "DATABEGIN"], incoming := "DONE\nREADY\n".toList }

/-- A new connection whose peer answers the first request with `ERR bad state`. -/
def freshConnErrReply : BlenderConnection :=
  BlenderConnection.fresh BlendType.Mesh "ERR bad state\n".toList

/-- A new connection whose peer answers the first request with `READY`. -/
def freshConnReady : BlenderConnection :=
  BlenderConnection.fresh BlendType.Mesh "READY\n".toList

/-- A peer that accepts every request of `staleCloseCalls`. -/
def staleCloseReplies : List Char := "READY\nDONE\nREADY\nDONE\nREADY\n".toList

/-- Open and close a data stream, open a second one, call `close()` on the first object
again, then open a script stream. -/
def staleCloseCalls : List Call :=
  [Call.beginData, Call.close 0, Call.beginData, Call.close 0, Call.beginPythonOut false]

/-- The session `staleCloseCalls` ends in on a new MESH connection with the peer
`staleCloseReplies`. -/
def staleCloseEnd : Session :=
  { conn :=
      { m_lock := true, m_loadedType := BlendType.Mesh,
        written := [Written.line "DATABEGIN", Written.line "DATAEND",
          Written.line "DATABEGIN", Written.line "DATAEND", Written.line "PYBEGIN"],
        incoming := [] },
    streams :=
      [⟨Stream.data { m_parent := true }, true⟩,
       ⟨Stream.data { m_parent := true }, false⟩,
       ⟨Stream.py { m_parent := true, m_deleteOnError := false, m_lineBuf := "" }, false⟩] }


/-! ## Mesh records -/

/-- The struct `Mesh::Surface::Vert`: the attribute indices of one corner.  The members
are `uint32_t`, taken as naturals; `iColor` and `iUv` are the arrays of 4 and 8 slots. -/
structure Vert where
  iPos : Nat
  iNorm : Nat
  iColor : Fin 4 → Nat
  iUv : Fin 8 → Nat
  iSkin : Nat
  iBankSkin : Nat

/-- The member `Vert::operator==`: each comparison that finds a difference returns
false, the two loops run over the 4 colour slots and the 8 UV slots. -/
def Vert.operator_eq (a other : Vert) : Bool :=
  if a.iPos ≠ other.iPos then false
  else if a.iNorm ≠ other.iNorm then false
  else if (List.finRange 4).any (fun i => decide (a.iColor i ≠ other.iColor i)) then false
  else if (List.finRange 8).any (fun i => decide (a.iUv i ≠ other.iUv i)) then false
  else if a.iSkin ≠ other.iSkin then false
  else true

/-- The struct `Mesh::SkinBind`: a bone index and the 32 bits of its `float` weight. -/
structure SkinBind where
  boneIdx : Nat
  weight : Nat
  deriving DecidableEq, Repr

/-- The struct `Mesh::Surface`, reduced to its vertex list and bank index. -/
structure Surface where
  skinBankIdx : Nat
  verts : List Vert

/-- The struct `Mesh`, reduced to the skinning table `skins` (one list of binds per skin
set) and the surfaces. -/
structure Mesh where
  skins : List (List SkinBind)
  surfaces : List Surface

/-! ## Skin banks -/

/-- The struct `Mesh::SkinBanks::Bank`. -/
structure Bank where
  m_skinIdxs : List Nat
  m_boneIdxs : List Nat
  deriving DecidableEq, Repr

/-- A bank as `emplace_back()` creates it. -/
def Bank.empty : Bank := { m_skinIdxs := [], m_boneIdxs := [] }

/-- The body of the bind loop of `Bank::addSkins`: the scan of `m_boneIdxs` that sets
`found`, and the `push_back` when the bone was not found. -/
def Bank.pushBone (boneIdxs : List Nat) (boneIdx : Nat) : List Nat :=
  if boneIdxs.any (fun bidx => bidx == boneIdx) then boneIdxs else boneIdxs ++ [boneIdx]

/-- The member `Bank::addSkins(parent, skinIdxs)`.  `parent.skins[sidx]` with `sidx`
out of range is undefined behaviour: the result is `none`. -/
def Bank.addSkins (parent : Mesh) (bank : Bank) : List Nat → Option Bank
  | [] => some bank
  | sidx :: rest =>
    match parent.skins[sidx]? with
    | none => none
    | some binds =>
      Bank.addSkins parent
        { m_skinIdxs := bank.m_skinIdxs ++ [sidx],
          m_boneIdxs := binds.foldl (fun bones bind => Bank.pushBone bones bind.boneIdx)
            bank.m_boneIdxs }
        rest

/-- The width of `size_t` in bits (a 64-bit platform). -/
def size_t_bits : Nat := 64

/-- The value `size_t(-1)`. -/
def size_t_minus_one : Nat := 2 ^ size_t_bits - 1

/-- The loop of `Bank::lookupLocalBoneIdx`: `i` is the loop index, the list is
`m_boneIdxs` from position `i` on. -/
def Bank.lookupFrom : List Nat → Nat → Nat → Nat
  | [], _, _ => size_t_minus_one
  | bidx :: rest, boneIdx, i =>
    if bidx = boneIdx then i else Bank.lookupFrom rest boneIdx (i + 1)

/-- The member `Bank::lookupLocalBoneIdx(boneIdx)`. -/
def Bank.lookupLocalBoneIdx (bank : Bank) (boneIdx : Nat) : Nat :=
  Bank.lookupFrom bank.m_boneIdxs boneIdx 0

/-- The bone indices the skin sets `skinIdxs` of the mesh refer to, in the order the
binds are stored (with repetitions). -/
def Mesh.referencedBones (parent : Mesh) (skinIdxs : List Nat) : List Nat :=
  (skinIdxs.map (fun sidx => (parent.skins.getD sidx []).map SkinBind.boneIdx)).flatten

/-- A bank built from an empty bank by a sequence of `addSkins` calls. -/
def Bank.build (parent : Mesh) : Bank → List (List Nat) → Option Bank
  | bank, [] => some bank
  | bank, skinIdxs :: calls =>
    match Bank.addSkins parent bank skinIdxs with
    | none => none
    | some bank1 => Bank.build parent bank1 calls

/-- The struct `Mesh::SkinBanks`. -/
structure SkinBanks where
  banks : List Bank
  deriving DecidableEq, Repr

/-- The member `SkinBanks::addSkinBank(skinSlotCount)`: a new empty bank at the end (the
`reserve` does not change the contents). -/
def SkinBanks.addSkinBank (sb : SkinBanks) (_skinSlotCount : Int) : SkinBanks :=
  { banks := sb.banks ++ [Bank.empty] }

/-- The failures of `addSurface`. -/
inductive AddSurfaceError
  | SkinBankOverflow (boneCount : Nat)
  | skinIndexOutOfRange
  deriving DecidableEq, Repr

/-- Modelled from the spec: the skin-index set of a surface, used by `addSurface`: the
`iSkin` of its verts, each once, in order of first use. -/
def Surface.skinIdxs (surf : Surface) : List Nat :=
  (surf.verts.map Vert.iSkin).foldl
    (fun acc sidx => if acc.any (fun x => x == sidx) then acc else acc ++ [sidx]) []

/-- Modelled from the spec: the step of `addSurface` that adds skin sets to the current
(last) bank, done with `Bank::addSkins`. -/
def SkinBanks.addToCurrent (sb : SkinBanks) (mesh : Mesh) (skinIdxs : List Nat) :
    Option SkinBanks :=
  match sb.banks.getLast? with
  | none => none
  | some cur =>
    match Bank.addSkins mesh cur skinIdxs with
    | none => none
    | some cur1 => some { banks := sb.banks.dropLast ++ [cur1] }

/-- Modelled from the spec: the test of `addSurface` whether the surface starts a new
bank.  The spec, section 4.5: "compute the bone indices it would add (bones not already
in the current bank).  If |current bank bones| + |new bones| > skinSlotBudget, close the
current bank and start a new one".  `ownBones` are the distinct bones of the surface;
with no bank yet, the first one is started. -/
def SkinBanks.needsNewBank (sb : SkinBanks) (ownBones : List Nat) (skinSlotCount : Int) :
    Bool :=
  match sb.banks.getLast? with
  | none => true
  | some cur =>
    let newBones := ownBones.filter (fun b => !cur.m_boneIdxs.contains b)
    decide ((cur.m_boneIdxs.length : Int) + (newBones.length : Int) > skinSlotCount)

/-- Modelled from the spec: `SkinBanks::addSurface(mesh, surf, skinSlotCount)`, declared
in the header, its body not part of it.  The spec, section 4.5: "If |current bank bones|
+ |new bones| > skinSlotBudget, close the current bank and start a new one" with the skin
sets of this surface "as its first contents; otherwise add" them "to the current bank",
and "a single surface whose own distinct bone count exceeds skinSlotBudget is a
configuration error — fail with SkinBankOverflow", "no partial bank is committed".
Returns the index of the bank of the surface. -/
def SkinBanks.addSurface (sb : SkinBanks) (mesh : Mesh) (surf : Surface)
    (skinSlotCount : Int) : Except AddSurfaceError (Nat × SkinBanks) :=
  match Bank.addSkins mesh Bank.empty surf.skinIdxs with
  | none => .error AddSurfaceError.skinIndexOutOfRange
  | some own =>
    if (own.m_boneIdxs.length : Int) > skinSlotCount then
      .error (AddSurfaceError.SkinBankOverflow own.m_boneIdxs.length)
    else
      let sb1 :=
        if sb.needsNewBank own.m_boneIdxs skinSlotCount then sb.addSkinBank skinSlotCount
        else sb
      match sb1.addToCurrent mesh surf.skinIdxs with
      | none => .error AddSurfaceError.skinIndexOutOfRange
      | some sb2 => .ok (sb2.banks.length - 1, sb2)

/-- Modelled from the spec: the allocator run over the surfaces of a mesh, "process
surfaces in encounter order", with one budget; it stops at the first failure. -/
def SkinBanks.addSurfaces (mesh : Mesh) (skinSlotCount : Int) :
    SkinBanks → List Surface → Except AddSurfaceError SkinBanks
  | sb, [] => .ok sb
  | sb, surf :: rest =>
    match sb.addSurface mesh surf skinSlotCount with
    | .error e => .error e
    | .ok (_, sb1) => SkinBanks.addSurfaces mesh skinSlotCount sb1 rest

/-! ## Binary reads and text formatting -/

/-- Modelled from the spec: `_readBuf(buf, len)`, the `readExact(n)` of the Channel, whose
body is not part of the header: "`readExact`/`writeExact` transfer exactly `n` bytes or
fail".  Returns the `len` bytes read. -/
def BlenderConnection._readBuf (c : BlenderConnection) (len : Nat) : Outcome (List Char) :=
  if len ≤ c.incoming.length then
    .ok (c.incoming.take len) { c with incoming := c.incoming.drop len }
  else
    .fatal "transport error" c

/-- The unsigned value of up to 4 bytes read as little-endian, first byte lowest. -/
def readLE32 : List Nat → Nat
  | [] => 0
  | b :: rest => b % 256 + 256 * readLE32 rest

/-- The `uint32_t` that 4 bytes read into memory hold on the host, taken as
little-endian. -/
def hostU32 (bytes : List Char) : Nat :=
  readLE32 ((bytes.take 4).map Char.toNat)

/-- The text a `const char*` shows: the characters before the first NUL. -/
def c_str (s : String) : String :=
  String.mk (s.data.takeWhile (fun ch => ch != Char.ofNat 0))

/-- The text `snprintf(buf, size, ...)` leaves in `buf`: the first `size - 1` characters
of the formatted text. -/
def snprintf (size : Nat) (formatted : String) : String :=
  String.mk (formatted.data.take (size - 1))

/-- The text of the conversion `%d`: decimal digits, with a minus sign when negative. -/
def formatD : Int → String
  | Int.ofNat n => Nat.repr n
  | Int.negSucc n => "-" ++ Nat.repr (n + 1)

/-- Modelled from the spec: the enum `HMDLTopology` of `hecl/HMDLMeta.hpp`, not part of
the sources: the triangle and the tri-strip topology, in this order. -/
inductive HMDLTopology
  | Triangles
  | TriStrips
  deriving DecidableEq, Repr

/-- The function `DataStream::MeshOutputModeString`: the entry of `STRS` at the value of
the topology. -/
def MeshOutputModeString : HMDLTopology → String
  | .Triangles => "TRIANGLES"
  | .TriStrips => "TRISTRIPS"

/-- The default of the parameter `skinSlotCount` of the compile members. -/
def defaultSkinSlotCount : Int := 10

/-! ## Data stream requests -/

/-- The loop of `DataStream::getMeshList`: `count` more names are read, each with
`_readLine(name, 128)`, and pushed at the end of `retval`. -/
def DataStream.readNames : Nat → BlenderConnection → List String → Outcome (List String)
  | 0, c, retval => .ok retval c
  | count + 1, c, retval =>
    match c._readLine 128 with
    | .fatal msg c1 => .fatal msg c1
    | .ok name c1 => DataStream.readNames count c1 (retval ++ [name])

/-- The call `retval.reserve(count)` on the empty vector `retval`, whether it returns.
For `count = 0` no storage is requested.  Otherwise storage for `count` strings is
requested from the allocator; `granted count` tells whether the host grants it, and the
call throws `std::bad_alloc` when it does not.  A `uint32_t` count is below `max_size()`,
so `std::length_error` is not thrown. -/
def reserveReturns (granted : Nat → Bool) (count : Nat) : Bool :=
  count == 0 || granted count

/-- The member `DataStream::getMeshList()`.  `granted` is the allocator of the host as
`retval.reserve(count)` meets it; a `std::bad_alloc` thrown there leaves the member before
any name is read. -/
def DataStream.getMeshList (_s : DataStream) (granted : Nat → Bool)
    (c : BlenderConnection) : Outcome (List String) :=
  let c1 := c._writeLine "MESHLIST"
  match c1._readBuf 4 with
  | .fatal msg c2 => .fatal msg c2
  | .ok count c2 =>
    if reserveReturns granted (hostU32 count) then
      DataStream.readNames (hostU32 count) c2 []
    else
      .fatal "std::bad_alloc" c2

/-- The request line of `compileMesh(topology, skinSlotCount)`: the `snprintf` into
`req[128]`. -/
def DataStream.compileMeshRequest (topology : HMDLTopology) (skinSlotCount : Int) : String :=
  snprintf 128 ("MESHCOMPILE " ++ MeshOutputModeString topology ++ " " ++ formatD skinSlotCount)

/-- The request line of `compileMesh(name, topology, skinSlotCount)`. -/
def DataStream.compileMeshNameRequest (name : String) (topology : HMDLTopology)
    (skinSlotCount : Int) : String :=
  snprintf 128 ("MESHCOMPILENAME " ++ c_str name ++ " " ++ MeshOutputModeString topology
    ++ " " ++ formatD skinSlotCount)

/-- The request line of `compileAllMeshes`; `maxOctantText` is the text the conversion
`%f` gives for `maxOctantLength`. -/
def DataStream.compileAllMeshesRequest (topology : HMDLTopology) (skinSlotCount : Int)
    (maxOctantText : String) : String :=
  snprintf 128 ("MESHCOMPILEALL " ++ MeshOutputModeString topology ++ " "
    ++ formatD skinSlotCount ++ " " ++ maxOctantText)

/-- The member `DataStream::compileMesh(topology, skinSlotCount, surfProg)`.  `meshCtor`
is the constructor `Mesh(conn, topology, skinSlotCount, surfProg)`, which decodes the
record stream and whose body is not part of the header. -/
def DataStream.compileMesh (_s : DataStream)
    (meshCtor : BlenderConnection → HMDLTopology → Int → Outcome Mesh)
    (c : BlenderConnection) (topology : HMDLTopology) (skinSlotCount : Int) :
    Outcome Mesh :=
  if c.m_loadedType ≠ BlendType.Mesh then
    .fatal (c.m_loadedBlend ++ " is not a MESH blend") c
  else
    let c1 := c._writeLine (DataStream.compileMeshRequest topology skinSlotCount)
    match c1._readLine 256 with
    | .fatal msg c2 => .fatal msg c2
    | .ok readBuf c2 =>
      if readBuf ≠ "OK" then
        .fatal ("unable to cook mesh: " ++ readBuf) c2
      else
        meshCtor c2 topology skinSlotCount

/-- The member `DataStream::compileMesh(name, topology, skinSlotCount, surfProg)`. -/
def DataStream.compileMeshName (_s : DataStream)
    (meshCtor : BlenderConnection → HMDLTopology → Int → Outcome Mesh)
    (c : BlenderConnection) (name : String) (topology : HMDLTopology)
    (skinSlotCount : Int) : Outcome Mesh :=
  if c.m_loadedType ≠ BlendType.Area then
    .fatal (c.m_loadedBlend ++ " is not an AREA blend") c
  else
    let c1 := c._writeLine (DataStream.compileMeshNameRequest name topology skinSlotCount)
    match c1._readLine 256 with
    | .fatal msg c2 => .fatal msg c2
    | .ok readBuf c2 =>
      if readBuf ≠ "OK" then
        .fatal ("unable to cook mesh \x27" ++ c_str name ++ "\x27: " ++ readBuf) c2
      else
        meshCtor c2 topology skinSlotCount

/-- The member `DataStream::compileAllMeshes(topology, skinSlotCount, maxOctantLength,
surfProg)`. -/
def DataStream.compileAllMeshes (_s : DataStream)
    (meshCtor : BlenderConnection → HMDLTopology → Int → Outcome Mesh)
    (c : BlenderConnection) (topology : HMDLTopology) (skinSlotCount : Int)
    (maxOctantText : String) : Outcome Mesh :=
  if c.m_loadedType ≠ BlendType.Area then
    .fatal (c.m_loadedBlend ++ " is not an AREA blend") c
  else
    let c1 := c._writeLine
      (DataStream.compileAllMeshesRequest topology skinSlotCount maxOctantText)
    match c1._readLine 256 with
    | .fatal msg c2 => .fatal msg c2
    | .ok readBuf c2 =>
      if readBuf ≠ "OK" then
        .fatal ("unable to cook all meshes: " ++ readBuf) c2
      else
        meshCtor c2 topology skinSlotCount

/-- The member `DataStream::compileActor()`.  `actorCtor` is the constructor
`Actor(conn)`, whose body is not part of the header. -/
def DataStream.compileActor {Actor : Type} (_s : DataStream)
    (actorCtor : BlenderConnection → Outcome Actor) (c : BlenderConnection) :
    Outcome Actor :=
  if c.m_loadedType ≠ BlendType.Actor then
    .fatal (c.m_loadedBlend ++ " is not an ACTOR blend") c
  else
    let c1 := c._writeLine "ACTORCOMPILE"
    match c1._readLine 256 with
    | .fatal msg c2 => .fatal msg c2
    | .ok readBuf c2 =>
      if readBuf ≠ "OK" then
        .fatal ("unable to compile actor: " ++ readBuf) c2
      else
        actorCtor c2

/-! ## Fixed-layout records -/

/-- The 32-bit words that bytes read into memory hold on the host, 4 bytes each; a
`float` is kept as its 32 bits.  `n` is the number of words. -/
def hostWords : Nat → List Char → List Nat
  | 0, _ => []
  | n + 1, bytes => hostU32 bytes :: hostWords n (bytes.drop 4)

/-- The struct `DataStream::Vector2f`: `val` holds 2 floats. -/
structure Vector2f where
  val : List Nat
  deriving DecidableEq, Repr

/-- The struct `DataStream::Vector3f`: `val` holds 3 floats. -/
structure Vector3f where
  val : List Nat
  deriving DecidableEq, Repr

/-- The struct `DataStream::Vector4f`: `val` holds 4 floats. -/
structure Vector4f where
  val : List Nat
  deriving DecidableEq, Repr

/-- The struct `DataStream::Index`: one `uint32_t`. -/
structure Index where
  val : Nat
  deriving DecidableEq, Repr

/-- The member `Vector2f::read(conn)`: `conn._readBuf(&val, 8)`. -/
def Vector2f.read (c : BlenderConnection) : Outcome Vector2f :=
  match c._readBuf 8 with
  | .fatal msg c1 => .fatal msg c1
  | .ok bytes c1 => .ok { val := hostWords 2 bytes } c1

/-- The member `Vector3f::read(conn)`: `conn._readBuf(&val, 12)`. -/
def Vector3f.read (c : BlenderConnection) : Outcome Vector3f :=
  match c._readBuf 12 with
  | .fatal msg c1 => .fatal msg c1
  | .ok bytes c1 => .ok { val := hostWords 3 bytes } c1

/-- The member `Vector4f::read(conn)`: `conn._readBuf(&val, 16)`. -/
def Vector4f.read (c : BlenderConnection) : Outcome Vector4f :=
  match c._readBuf 16 with
  | .fatal msg c1 => .fatal msg c1
  | .ok bytes c1 => .ok { val := hostWords 4 bytes } c1

/-- The member `Index::read(conn)`: `conn._readBuf(&val, 4)`. -/
def Index.read (c : BlenderConnection) : Outcome Index :=
  match c._readBuf 4 with
  | .fatal msg c1 => .fatal msg c1
  | .ok bytes c1 => .ok { val := hostU32 bytes } c1

/-- The constructor `SkinBind::SkinBind(conn)`: `conn._readBuf(&boneIdx, 8)`.  The 8
bytes fill the object from the address of `boneIdx` on: `boneIdx` takes the first 4, the
member declared next, `weight`, the 4 that follow. -/
def SkinBind.ctor (c : BlenderConnection) : Outcome SkinBind :=
  match c._readBuf 8 with
  | .fatal msg c1 => .fatal msg c1
  | .ok bytes c1 => .ok { boneIdx := hostU32 bytes, weight := hostU32 (bytes.drop 4) } c1

/-! ## Packed buffers -/

/-- The 4 bytes of a 32-bit value in little-endian order. -/
def packLE32 (v : Nat) : List Nat :=
  [v % 256, v / 256 % 256, v / 65536 % 256, v / 16777216 % 256]

/-- Modelled from the spec: `athena::io::MemoryWriter::enumerateLittle(iboData)`, not
part of the sources.  The spec, section 4.6: "a contiguous little-endian 32-bit index
buffer", "Byte order for the index buffer is always little-endian regardless of host
platform".  The bytes written, index after index. -/
def enumerateLittle (iboData : List Nat) : List Nat :=
  (iboData.map packLE32).flatten

/-- The class `HMDLBuffers`, reduced to the sizes and the index bytes (the bytes of
`m_vboData` are not set by the constructor). -/
structure HMDLBuffers where
  m_vboSz : Nat
  m_iboSz : Nat
  m_iboData : List Nat
  deriving DecidableEq, Repr

/-- The constructor `HMDLBuffers::HMDLBuffers(meta, vboSz, iboData, surfaces, skinBanks)`:
`m_iboSz(iboData.size()*4)` in `size_t`, and the index bytes written by the
`MemoryWriter` over the `m_iboSz` bytes of `m_iboData`. -/
def HMDLBuffers.ctor (vboSz : Nat) (iboData : List Nat) : HMDLBuffers :=
  let m_iboSz := (iboData.length * 4) % 2 ^ size_t_bits
  { m_vboSz := vboSz, m_iboSz := m_iboSz,
    m_iboData := (enumerateLittle iboData).take m_iboSz }

/-- The little-endian unsigned 32-bit value at the bytes `4i .. 4i+3` of a buffer. -/
def readIndexLE (buf : List Nat) (i : Nat) : Nat :=
  readLE32 ((buf.drop (4 * i)).take 4)

/-! ## Vertex deduplication of a surface -/

/-- Modelled from the spec: one step of the surface assembly of section 4.4, done by the
constructor `Surface(conn, parent, skinSlotCount)`, whose body is not part of the header.
The spec: "comparing it against previously appended Verts in the same surface using
full-field equality.  If an equal Vert already exists, its existing position is reused as
a shared index; otherwise the new Vert is appended and its new position recorded".
Returns the table and the index of the corner; the comparison is `Vert::operator==`. -/
def Surface.addVert (verts : List Vert) (v : Vert) : List Vert × Nat :=
  let i := verts.findIdx (fun w => w.operator_eq v)
  if i < verts.length then (verts, i) else (verts ++ [v], verts.length)

/-- Modelled from the spec: the surface assembly of section 4.4 over the stream of
per-corner Verts, starting from the table `verts`: "output is a deduplicated Vert table
plus an implicit corner→Vert-table mapping". -/
def Surface.dedupFrom (verts : List Vert) : List Vert → List Vert × List Nat
  | [] => (verts, [])
  | v :: rest =>
    let r := Surface.dedupFrom (Surface.addVert verts v).1 rest
    (r.1, (Surface.addVert verts v).2 :: r.2)

/-- Modelled from the spec: the deduplication of the corners of one surface, from an
empty table. -/
def Surface.dedup (corners : List Vert) : List Vert × List Nat :=
  Surface.dedupFrom [] corners

/-! ## Script stream output -/

/-- Modelled from the spec: `_writeBuf(buf, len)`, the `writeExact(bytes)` of the
Channel, whose body is not part of the header: the bytes go to the peer as they are. -/
def BlenderConnection._writeBuf (c : BlenderConnection) (bytes : List Nat) :
    BlenderConnection :=
  { c with written := c.written ++ [Written.buf bytes] }

/-- The member `PyOutStream::StreamBuf::overflow(ch)`; `ch` is `none` for
`traits_type::eof()`.  `deleteBlend` is the member `BlenderConnection::deleteBlend()`,
whose body is not part of the header.  Returns the stream with its line buffer. -/
def PyOutStream.overflow (deleteBlend : BlenderConnection → BlenderConnection)
    (s : PyOutStream) (c : BlenderConnection) (ch : Option Char) : Outcome PyOutStream :=
  if !s.m_parent || !c.m_lock then
    .fatal "lock not held for PyOutStream writing" c
  else
    let flush : Outcome PyOutStream :=
      let c1 := c._writeLine (c_str s.m_lineBuf)
      match c1._readLine 16 with
      | .fatal msg c2 => .fatal msg c2
      | .ok readBuf c2 =>
        if readBuf ≠ "OK" then
          .fatal ("error sending \x27" ++ c_str s.m_lineBuf ++ "\x27 to blender")
            (if s.m_deleteOnError then deleteBlend c2 else c2)
        else
          .ok { s with m_lineBuf := "" } c2
    match ch with
    | none => flush
    | some a =>
      if a ≠ '\n' ∧ a ≠ Char.ofNat 0 then
        .ok { s with m_lineBuf := s.m_lineBuf.push a } c
      else
        flush

/-- A character sequence written to the stream: `overflow` is called for each character
in turn (the buffer has no put area). -/
def PyOutStream.write (deleteBlend : BlenderConnection → BlenderConnection) :
    PyOutStream → BlenderConnection → List (Option Char) → Outcome PyOutStream
  | s, c, [] => .ok s c
  | s, c, ch :: rest =>
    match s.overflow deleteBlend c ch with
    | .fatal msg c1 => .fatal msg c1
    | .ok s1 c1 => PyOutStream.write deleteBlend s1 c1 rest

/-- Whether a written character is a line terminator: `\n`, NUL or the end-of-file
marker. -/
def isFlushChar : Option Char → Bool
  | none => true
  | some a => isTerminator a

/-- The lines of a character sequence, as the claim words them: one line per
terminator, holding the characters since the previous terminator (terminator excluded).
`pending` are the characters already waiting. -/
def completedLines : List Char → List (Option Char) → List String
  | _, [] => []
  | pending, none :: rest => String.mk pending :: completedLines [] rest
  | pending, some a :: rest =>
    if isTerminator a then String.mk pending :: completedLines [] rest
    else completedLines (pending ++ [a]) rest

/-- The characters of a sequence that no terminator follows yet. -/
def pendingChars : List Char → List (Option Char) → List Char
  | pending, [] => pending
  | _, none :: rest => pendingChars [] rest
  | pending, some a :: rest =>
    if isTerminator a then pendingChars [] rest else pendingChars (pending ++ [a]) rest

/-- The answers of a peer that accepts `n` lines. -/
def okReplies : Nat → List Char
  | 0 => []
  | n + 1 => "OK\n".toList ++ okReplies n

/-! ## Animation stream -/

/-- The enum `BlenderConnection::ANIMCurveType`. -/
inductive ANIMCurveType
  | Rotate
  | Translate
  | Scale
  deriving DecidableEq, Repr

/-- The value `char(type)` of a curve type. -/
def ANIMCurveType.toByte : ANIMCurveType → Nat
  | .Rotate => 0
  | .Translate => 1
  | .Scale => 2

/-- The class `PyOutStream::ANIMOutStream`; the counters are `unsigned` (32 bits). -/
structure ANIMOutStream where
  m_curCount : Nat
  m_totalCount : Nat
  m_inCurve : Bool
  deriving DecidableEq, Repr

/-- The state the member initializers give: both counters 0, no curve. -/
def ANIMOutStream.initial : ANIMOutStream :=
  { m_curCount := 0, m_totalCount := 0, m_inCurve := false }

/-- The constructor `ANIMOutStream::ANIMOutStream(parent)`. -/
def ANIMOutStream.ctor (c : BlenderConnection) : Outcome ANIMOutStream :=
  let c1 := c._writeLine "PYANIM"
  match c1._readLine 16 with
  | .fatal msg c2 => .fatal msg c2
  | .ok readBuf c2 =>
    if readBuf ≠ "ANIMREADY" then .fatal "unable to open ANIMOutStream" c2
    else .ok ANIMOutStream.initial c2

/-- The member `ANIMOutStream::changeCurve(type, crvIdx, keyCount)`; the 8 bytes of
`info` are the two `uint32_t` in host order. -/
def ANIMOutStream.changeCurve (a : ANIMOutStream) (c : BlenderConnection)
    (type : ANIMCurveType) (crvIdx keyCount : Nat) : Outcome ANIMOutStream :=
  if a.m_curCount ≠ a.m_totalCount then
    .fatal "incomplete ANIMOutStream for change" c
  else
    let c1 := c._writeBuf [type.toByte]
    let c2 := c1._writeBuf (packLE32 (crvIdx % 2 ^ 32) ++ packLE32 (keyCount % 2 ^ 32))
    .ok { m_curCount := 0, m_totalCount := keyCount % 2 ^ 32, m_inCurve := true } c2

/-- The member `ANIMOutStream::write(frame, val)`; `val` is the 32 bits of the float. -/
def ANIMOutStream.write (a : ANIMOutStream) (c : BlenderConnection) (frame val : Nat) :
    Outcome ANIMOutStream :=
  if !a.m_inCurve then
    .fatal "changeCurve not called before write" c
  else if a.m_curCount < a.m_totalCount then
    let c1 := c._writeBuf (packLE32 (frame % 2 ^ 32) ++ packLE32 (val % 2 ^ 32))
    .ok { a with m_curCount := (a.m_curCount + 1) % 2 ^ 32 } c1
  else
    .fatal "ANIMOutStream keyCount overflow" c

/-- The calls a client makes on an animation stream. -/
inductive ANIMCall
  | changeCurve (type : ANIMCurveType) (crvIdx keyCount : Nat)
  | write (frame val : Nat)
  deriving DecidableEq, Repr

/-- One call on an animation stream. -/
def ANIMOutStream.call (a : ANIMOutStream) (c : BlenderConnection) :
    ANIMCall → Outcome ANIMOutStream
  | .changeCurve type crvIdx keyCount => a.changeCurve c type crvIdx keyCount
  | .write frame val => a.write c frame val

/-- A sequence of calls on an animation stream; it stops at the first fatal report. -/
def ANIMOutStream.run : ANIMOutStream → BlenderConnection → List ANIMCall →
    Outcome ANIMOutStream
  | a, c, [] => .ok a c
  | a, c, k :: ks =>
    match a.call c k with
    | .fatal msg c1 => .fatal msg c1
    | .ok a1 c1 => ANIMOutStream.run a1 c1 ks

/-- The number of `write` calls since the last `changeCurve` of a call sequence (`acc`
counts those seen so far). -/
def keysSinceChange : Nat → List ANIMCall → Nat
  | acc, [] => acc
  | _, .changeCurve _ _ _ :: ks => keysSinceChange 0 ks
  | acc, .write _ _ :: ks => keysSinceChange (acc + 1) ks

/-- The `keyCount` declared by the last `changeCurve` of a call sequence, as an
`unsigned` (`acc` is the one declared before). -/
def declaredKeyCount : Nat → List ANIMCall → Nat
  | acc, [] => acc
  | _, .changeCurve _ _ keyCount :: ks => declaredKeyCount (keyCount % 2 ^ 32) ks
  | acc, .write _ _ :: ks => declaredKeyCount acc ks

/-- The buffers a call sequence sends when no call fails: a type byte and 8 bytes for
a `changeCurve`, one 8-byte key record for a `write`. -/
def sentRecords : List ANIMCall → List Written
  | [] => []
  | .changeCurve type crvIdx keyCount :: ks =>
    Written.buf [type.toByte]
      :: Written.buf (packLE32 (crvIdx % 2 ^ 32) ++ packLE32 (keyCount % 2 ^ 32))
      :: sentRecords ks
  | .write frame val :: ks =>
    Written.buf (packLE32 (frame % 2 ^ 32) ++ packLE32 (val % 2 ^ 32)) :: sentRecords ks

/-! ## Path utilities of hecl.cpp -/

/-- What `IsPathYAML` reads of a `ProjectPath`: the results of `getLastComponent()` and
`getLastComponentExt()`, members of a class that is not part of the sources. -/
structure ProjectPathView where
  lastComponent : String
  lastComponentExt : String
  deriving DecidableEq, Repr

/-- The function `hecl::IsPathYAML(path)`. -/
def IsPathYAML (path : ProjectPathView) : Bool :=
  let lastComp := path.lastComponent
  if lastComp = "!catalog.yaml" ∨ lastComp = "!memoryid.yaml"
      ∨ lastComp = "!memoryrelays.yaml" then
    false
  else
    let lastCompExt := path.lastComponentExt
    if lastCompExt.data.isEmpty then false
    else decide (lastCompExt = "yaml") || decide (lastCompExt = "yml")

/-- The constant `Illegals`, the characters `<`, `>`, `?` and the double quote. -/
def Illegals : List Char := ['<', '>', '?', '"']

/-- The lambda of the `std::transform` of `SanitizePath`, applied front to back: `ic` is
the captured flag, the list is the path from the current character on, so that its
second element is `*p1`. -/
def sanitizeTransform : Bool → List Char → List Char
  | _, [] => []
  | ic, a :: rest =>
    if Illegals.contains a then '_' :: sanitizeTransform false rest
    else if ic then a :: sanitizeTransform false rest
    else if a = '\\' ∧ (rest.isEmpty ∨ rest.head? ≠ some '\\') then
      '/' :: sanitizeTransform true rest
    else a :: sanitizeTransform false rest

/-- The loop `while (path.back() == '/') path.pop_back();` on the path given last
character first.  `none` when `path.back()` is evaluated on the empty string, which is
undefined behaviour. -/
def stripLoop : List Char → Option (List Char)
  | [] => none
  | c :: rest => if c = '/' then stripLoop rest else some (c :: rest)

/-- The path after the two `erase(remove(...))` calls and the `transform`. -/
def sanitizeChars (path : List Char) : List Char :=
  sanitizeTransform false ((path.filter (fun ch => ch != '\n')).filter (fun ch => ch != '\r'))

/-- The function `hecl::SanitizePath(std::string& path)`: the string left in `path`, or
`none` when the call runs into undefined behaviour. -/
def SanitizePath (path : String) : Option String :=
  if path.data.isEmpty then some path
  else (stripLoop (sanitizeChars path.data).reverse).map (fun r => String.mk r.reverse)

/-- The characters the result of `SanitizePath` is to be free of. -/
def forbiddenChars : List Char := ['\n', '\r', '<', '>', '?', '"']

/-- The loop `while (path.back() == '/') path.pop_back();` as a build without library
assertions runs it, on the path given last character first: when the string has become
empty, `back()` reads the byte in front of the character buffer, which is not `/`, and
the loop ends with the empty string. -/
def stripLoopLeft : List Char → List Char
  | [] => []
  | c :: rest => if c = '/' then stripLoopLeft rest else c :: rest

/-- The string `SanitizePath` leaves in `path`, on every input: the steps of
`SanitizePath` with the loop run as `stripLoopLeft`. -/
def SanitizePathLeft (path : String) : String :=
  if path.data.isEmpty then path
  else String.mk (stripLoopLeft (sanitizeChars path.data).reverse).reverse

/-! ## Resource locks of hecl.cpp -/

/-- The outcome of a call that may report a fatal error instead of returning. -/
inductive Reported (α : Type)
  | fatal (msg : String)
  | returned (val : α)
  deriving DecidableEq, Repr

/-- The table `PathsInProgress`: the entries of the map from thread id to path, each
thread id at most once.  Thread ids are naturals; `Path` is the type `ProjectPath`
with its comparison. -/
abbrev PathsTable (Path : Type) : Type := List (Nat × Path)

/-- The test `std::any_of(..., entry.second == path)` of `InProgress` and
`SetThreadRes`. -/
def ResourceLock.InProgress {Path : Type} [DecidableEq Path] (table : PathsTable Path)
    (path : Path) : Bool :=
  table.any (fun entry => decide (entry.2 = path))

/-- The call `PathsInProgress.insert_or_assign(thread, path)`. -/
def PathsTable.insert_or_assign {Path : Type} (table : PathsTable Path) (thread : Nat)
    (path : Path) : PathsTable Path :=
  if table.any (fun entry => entry.1 == thread) then
    table.map (fun entry => if entry.1 == thread then (thread, path) else entry)
  else
    table ++ [(thread, path)]

/-- The function `ResourceLock::SetThreadRes(path)` called on the thread `thread`, under
the mutex: the value returned and the table left. -/
def ResourceLock.SetThreadRes {Path : Type} [DecidableEq Path] (table : PathsTable Path)
    (thread : Nat) (path : Path) : Reported (Bool × PathsTable Path) :=
  if table.any (fun entry => entry.1 == thread) then
    .fatal "multiple resource locks on thread"
  else
    let isInProgress := table.any (fun entry => decide (entry.2 = path))
    if isInProgress then .returned (false, table)
    else .returned (true, table.insert_or_assign thread path)

/-- The function `ResourceLock::ClearThreadRes()` called on the thread `thread`. -/
def ResourceLock.ClearThreadRes {Path : Type} (table : PathsTable Path) (thread : Nat) :
    PathsTable Path :=
  table.filter (fun entry => entry.1 != thread)

/-- The calls on the resource-lock table, each with the calling thread. -/
inductive LockCall (Path : Type)
  | SetThreadRes (thread : Nat) (path : Path)
  | ClearThreadRes (thread : Nat)
  deriving DecidableEq, Repr

/-- A sequence of calls on the table, none of which reports a fatal error; `none` when
one does. -/
def ResourceLock.run {Path : Type} [DecidableEq Path] :
    PathsTable Path → List (LockCall Path) → Option (PathsTable Path)
  | table, [] => some table
  | table, .SetThreadRes thread path :: ks =>
    match ResourceLock.SetThreadRes table thread path with
    | .fatal _ => none
    | .returned (_, table1) => ResourceLock.run table1 ks
  | table, .ClearThreadRes thread :: ks =>
    ResourceLock.run (ResourceLock.ClearThreadRes table thread) ks

/-! ## Texture coordinate generators of GLSL.cpp -/

/-- The enum `TexGenSrc`, declared outside the sources; the enumerators are those
`GLSL.cpp` uses. -/
inductive TexGenSrc
  | TG_POS
  | TG_NRM
  | TG_UV
  deriving DecidableEq, Repr

/-- The struct `GLSL::TexCoordGen`, with the members `GLSL.cpp` uses; a vector of
`m_gameArgs` is kept as its 4 words. -/
structure TexCoordGen where
  m_src : TexGenSrc
  m_uvIdx : Int
  m_mtx : Int
  m_gameFunction : String
  m_gameArgs : List (List Nat)
  deriving DecidableEq, Repr

/-- The test of the loop of `addTexCoordGen`. -/
def TexCoordGen.hasTriple (tcg : TexCoordGen) (src : TexGenSrc) (uvIdx mtx : Int) : Bool :=
  decide (tcg.m_src = src) && decide (tcg.m_uvIdx = uvIdx) && decide (tcg.m_mtx = mtx)

/-- The member `GLSL::addTexCoordGen(diag, loc, src, uvIdx, mtx)` on the list `m_tcgs`:
the `unsigned` returned and the list left.  The loop returns the first index whose entry
has the triple; otherwise an entry is appended and `m_tcgs.size() - 1` is returned as an
`unsigned`. -/
def GLSL.addTexCoordGen (m_tcgs : List TexCoordGen) (src : TexGenSrc) (uvIdx mtx : Int) :
    Nat × List TexCoordGen :=
  let i := m_tcgs.findIdx (fun tcg => tcg.hasTriple src uvIdx mtx)
  if i < m_tcgs.length then (i, m_tcgs)
  else
    let newTcgs := m_tcgs ++
      [{ m_src := src, m_uvIdx := uvIdx, m_mtx := mtx, m_gameFunction := "",
         m_gameArgs := [] }]
    ((newTcgs.length - 1) % 2 ^ 32, newTcgs)

/-! ## Concrete meshes used as test inputs -/

/-- A mesh with three skin sets: bones 3 and 5, bones 5 and 1, bones 3, 7 and 7. -/
def sampleMesh : Mesh :=
  { skins := [[⟨3, 0⟩, ⟨5, 0⟩], [⟨5, 0⟩, ⟨1, 0⟩], [⟨3, 0⟩, ⟨7, 0⟩, ⟨7, 0⟩]],
    surfaces := [] }

/-- A bank that holds the skin set 9 and the bone 5. -/
def sampleBank : Bank := { m_skinIdxs := [9], m_boneIdxs := [5] }

/-- A corner that uses the skin set `iSkin`, all other indices 0. -/
def sampleVert (iSkin : Nat) : Vert :=
  { iPos := 0, iNorm := 0, iColor := fun _ => 0, iUv := fun _ => 0, iSkin := iSkin,
    iBankSkin := 0 }

/-- Three surfaces, using the skin sets 0, 1 and 2 of `sampleMesh`. -/
def sampleSurfaces : List Surface :=
  [⟨0, [sampleVert 0, sampleVert 0]⟩, ⟨0, [sampleVert 1]⟩, ⟨0, [sampleVert 2]⟩]

/-! ## Concrete connections and corners used as test inputs -/

/-- A connection whose pipe holds the bytes 7 1 0 0, 0 0 128 63 and the byte `x`. -/
def sampleRecordConn : BlenderConnection :=
  { m_lock := true, m_loadedType := BlendType.Mesh, written := [],
    incoming := [Char.ofNat 7, Char.ofNat 1, Char.ofNat 0, Char.ofNat 0, Char.ofNat 0,
      Char.ofNat 0, Char.ofNat 128, Char.ofNat 63, 'x'] }

/-- A mesh decoder that reads nothing and returns an empty mesh, standing for the
constructor `Mesh(conn, ...)` in test inputs. -/
def emptyMeshCtor (c : BlenderConnection) (_topology : HMDLTopology) (_skinSlotCount : Int) :
    Outcome Mesh :=
  Outcome.ok { skins := [], surfaces := [] } c

/-- A connection with a MESH blend loaded and a data stream open, whose peer answers
the next request with `no object`. -/
def meshConnRefused : BlenderConnection :=
  { m_lock := true, m_loadedType := BlendType.Mesh, written := [Written.line "DATABEGIN"],
    incoming := "no object\n".toList }

/-- A connection with an AREA blend loaded and a data stream open, whose peer answers
the next request with `OK`. -/
def areaConnAccepted : BlenderConnection :=
  { m_lock := true, m_loadedType := BlendType.Area, written := [Written.line "DATABEGIN"],
    incoming := "OK\n".toList }

/-- A mesh name of 120 characters. -/
def longMeshName : String := String.mk (List.replicate 120 'a')

/-- An allocator that grants storage for up to 16777216 strings (512 MiB at 32 bytes a
string) and refuses more. -/
def grantsUpTo16M (count : Nat) : Bool := decide (count ≤ 16777216)

/-- A connection with a data stream open whose peer declares 2 names and sends `Cube`
and `Sphere`, followed by the byte `x`. -/
def twoNamesConn : BlenderConnection :=
  { m_lock := true, m_loadedType := BlendType.Area, written := [],
    incoming := [Char.ofNat 2, Char.ofNat 0, Char.ofNat 0, Char.ofNat 0]
      ++ "Cube\nSphere\nx".toList }

/-- Five corners: the third differs from the first only in `iBankSkin`, the fifth equals
the second. -/
def sampleCorners : List Vert :=
  [sampleVert 1, sampleVert 2, { sampleVert 1 with iBankSkin := 9 }, sampleVert 3,
    sampleVert 2]

/-! ## Concrete streams, calls and generators used as test inputs -/

/-- An open script stream with an empty line buffer. -/
def openPyStream : PyOutStream :=
  { m_parent := true, m_deleteOnError := false, m_lineBuf := "" }

/-- A connection with a script stream open whose peer answers `OK` twice. -/
def pyConnTwoOk : BlenderConnection :=
  { m_lock := true, m_loadedType := BlendType.Mesh, written := [Written.line "PYBEGIN"],
    incoming := "OK\nOK\nrest".toList }

/-- The characters `ab`, a line feed, `c`, the end-of-file marker and `d`. -/
def sampleChars : List (Option Char) :=
  [some 'a', some 'b', some '\n', some 'c', none, some 'd']

/-- A connection with a script stream open and nothing to read. -/
def animConn : BlenderConnection :=
  { m_lock := true, m_loadedType := BlendType.Actor, written := [], incoming := [] }

/-- A curve of 2 keys is declared and both keys are written. -/
def sampleAnimCalls : List ANIMCall :=
  [ANIMCall.changeCurve ANIMCurveType.Scale 1 2, ANIMCall.write 0 5, ANIMCall.write 1 6]

/-- Two generators: UV layer 0 and the position, both with matrix 1; the second carries
a game function. -/
def sampleTcgs : List TexCoordGen :=
  [{ m_src := TexGenSrc.TG_UV, m_uvIdx := 0, m_mtx := 1, m_gameFunction := "", m_gameArgs := [] },
   { m_src := TexGenSrc.TG_POS, m_uvIdx := 0, m_mtx := 1, m_gameFunction := "f",
     m_gameArgs := [] }]

/-! # Theorems -/

/-! ## Handshake lemmas -/

theorem beginData_ok {c c1 : BlenderConnection} {d : DataStream}
    (h : c.beginData = Outcome.ok d c1) :
    c.m_lock = false ∧ c1.m_lock = true ∧ d.m_parent = true := by
  unfold BlenderConnection.beginData DataStream.ctor BlenderConnection._readLine
    BlenderConnection._writeLine at h
  cases hl : c.m_lock with
  | true => simp [hl] at h
  | false =>
    simp only [hl] at h
    cases hs : readLineScan (16 - 1) [] c.incoming with
    | none => simp [hs] at h
    | some r =>
      obtain ⟨text, rest⟩ := r
      simp only [hs] at h
      by_cases hr : String.mk text = "READY"
      · simp [hr] at h
        obtain ⟨h1, h2⟩ := h
        subst h1 h2
        simp
      · simp [hr] at h

theorem beginPythonOut_ok {c c1 : BlenderConnection} {b : Bool} {p : PyOutStream}
    (h : c.beginPythonOut b = Outcome.ok p c1) :
    c.m_lock = false ∧ c1.m_lock = true ∧ p.m_parent = true := by
  unfold BlenderConnection.beginPythonOut PyOutStream.ctor BlenderConnection._readLine
    BlenderConnection._writeLine at h
  cases hl : c.m_lock with
  | true => simp [hl] at h
  | false =>
    simp only [hl] at h
    cases hs : readLineScan (16 - 1) [] c.incoming with
    | none => simp [hs] at h
    | some r =>
      obtain ⟨text, rest⟩ := r
      simp only [hs] at h
      by_cases hr : String.mk text = "READY"
      · simp [hr] at h
        obtain ⟨h1, h2⟩ := h
        subst h1 h2
        simp
      · simp [hr] at h

theorem Stream.close_unlocked (st : Stream) (c : BlenderConnection) (h : c.m_lock = false) :
    st.close c = Outcome.ok () c := by
  cases st <;> simp [Stream.close, DataStream.close, PyOutStream.close, h]

theorem Stream.close_ok_locked {st : Stream} {c c1 : BlenderConnection}
    (hp : st.hasParent = true) (hl : c.m_lock = true)
    (h : st.close c = Outcome.ok () c1) : c1.m_lock = false := by
  cases st with
  | data s =>
    simp only [Stream.hasParent] at hp
    simp only [Stream.close, DataStream.close, hp, hl, Bool.and_self, if_true,
      BlenderConnection._readLine, BlenderConnection._writeLine] at h
    cases hs : readLineScan (16 - 1) [] c.incoming with
    | none => simp [hs] at h
    | some r =>
      obtain ⟨text, rest⟩ := r
      simp only [hs] at h
      by_cases hr : String.mk text = "DONE"
      · simp [hr] at h
        subst h
        rfl
      · simp [hr] at h
  | py s =>
    simp only [Stream.hasParent] at hp
    simp only [Stream.close, PyOutStream.close, hp, hl, Bool.and_self, if_true,
      BlenderConnection._readLine, BlenderConnection._writeLine] at h
    cases hs : readLineScan (16 - 1) [] c.incoming with
    | none => simp [hs] at h
    | some r =>
      obtain ⟨text, rest⟩ := r
      simp only [hs] at h
      by_cases hr : String.mk text = "DONE"
      · simp [hr] at h
        subst h
        rfl
      · simp [hr] at h

theorem openCount_set_closed (l : List StreamObj) (i : Nat) (o : StreamObj)
    (h : l[i]? = some o) :
    ((l.set i { o with closeCalled := true }).filter StreamObj.isOpen).length
        + (if o.isOpen then 1 else 0)
      = (l.filter StreamObj.isOpen).length := by
  induction l generalizing i with
  | nil => simp at h
  | cons x xs ih =>
    cases i with
    | zero =>
      simp only [List.getElem?_cons_zero, Option.some.injEq] at h
      subst h
      cases hx : x.closeCalled <;> simp [List.filter_cons, StreamObj.isOpen, hx]
    | succ j =>
      simp only [List.getElem?_cons_succ] at h
      have := ih j h
      simp only [List.set_cons_succ, List.filter_cons]
      cases hx : x.isOpen
      · simpa using this
      · simp only [if_true, List.length_cons]
        omega

theorem Session.Inv_fresh (ty : BlendType) (incoming : List Char) :
    (Session.fresh ty incoming).Inv := by
  simp [Session.Inv, Session.fresh, Session.openCount, BlenderConnection.fresh]

theorem Session.Inv_call {s s1 : Session} {k : Call} (hi : s.Inv)
    (hk : k.staleClose s = false) (h : s.call k = some s1) : s1.Inv := by
  obtain ⟨hpar, hle, hiff⟩ := hi
  cases k with
  | beginData =>
    simp only [Session.call] at h
    cases hb : s.conn.beginData with
    | fatal m c => simp [hb] at h
    | ok d c =>
      simp only [hb, Option.some.injEq] at h
      subst h
      obtain ⟨h1, h2, h3⟩ := beginData_ok hb
      have h0 : s.openCount = 0 := by
        have : ¬ s.openCount = 1 := fun e => by simp [hiff.mpr e] at h1
        omega
      refine ⟨?_, ?_, ?_⟩
      · intro o ho
        simp only [List.mem_append, List.mem_singleton] at ho
        rcases ho with ho | ho
        · exact hpar o ho
        · subst ho; simpa [Stream.hasParent] using h3
      · simp only [Session.openCount] at h0 ⊢
        simp [List.filter_append, h0, StreamObj.isOpen]
      · simp only [Session.openCount] at h0 ⊢
        simp [List.filter_append, h0, StreamObj.isOpen, h2]
  | beginPythonOut b =>
    simp only [Session.call] at h
    cases hb : s.conn.beginPythonOut b with
    | fatal m c => simp [hb] at h
    | ok d c =>
      simp only [hb, Option.some.injEq] at h
      subst h
      obtain ⟨h1, h2, h3⟩ := beginPythonOut_ok hb
      have h0 : s.openCount = 0 := by
        have : ¬ s.openCount = 1 := fun e => by simp [hiff.mpr e] at h1
        omega
      refine ⟨?_, ?_, ?_⟩
      · intro o ho
        simp only [List.mem_append, List.mem_singleton] at ho
        rcases ho with ho | ho
        · exact hpar o ho
        · subst ho; simpa [Stream.hasParent] using h3
      · simp only [Session.openCount] at h0 ⊢
        simp [List.filter_append, h0, StreamObj.isOpen]
      · simp only [Session.openCount] at h0 ⊢
        simp [List.filter_append, h0, StreamObj.isOpen, h2]
  | close i =>
    simp only [Session.call] at h
    cases ho : s.streams[i]? with
    | none => simp [ho] at h
    | some o =>
      simp only [ho] at h
      simp only [Call.staleClose, ho, Bool.and_eq_false_imp] at hk
      have hmem : o ∈ s.streams := List.getElem?_mem ho
      have hcnt := openCount_set_closed s.streams i o ho
      cases hc : o.stream.close s.conn with
      | fatal m c => simp [hc] at h
      | ok u c =>
        simp only [hc, Option.some.injEq] at h
        subst h
        have hpar1 : ∀ o1 ∈ s.streams.set i { o with closeCalled := true },
            o1.stream.hasParent = true := by
          intro o1 ho1
          rcases List.mem_or_eq_of_mem_set ho1 with h1 | h1
          · exact hpar o1 h1
          · subst h1; exact hpar o hmem
        cases hl : s.conn.m_lock with
        | false =>
          rw [Stream.close_unlocked _ _ hl] at hc
          simp only [Outcome.ok.injEq, true_and] at hc
          subst hc
          have h0 : s.openCount = 0 := by
            have : ¬ s.openCount = 1 := fun e => by simp [hiff.mpr e] at hl
            omega
          simp only [Session.openCount] at h0
          refine ⟨hpar1, ?_, ?_⟩
          · simp only [Session.openCount]; omega
          · simp only [Session.openCount, hl]
            constructor
            · intro hf; simp at hf
            · intro hf; omega
        | true =>
          have h1 : s.openCount = 1 := hiff.mp hl
          have hcl : o.closeCalled = false := by
            cases hcc : o.closeCalled with
            | false => rfl
            | true => have := hk hcc; simp [hl] at this
          have hlk := Stream.close_ok_locked (hpar o hmem) hl hc
          simp only [Session.openCount] at h1
          simp only [StreamObj.isOpen, hcl, Bool.not_false, if_true] at hcnt
          refine ⟨hpar1, ?_, ?_⟩
          · simp only [Session.openCount]; omega
          · simp only [Session.openCount, hlk]
            constructor
            · intro hf; simp at hf
            · intro hf; omega

theorem Session.Inv_runNoStale (calls : List Call) :
    ∀ (s s1 : Session), s.Inv → s.runNoStale calls = some s1 → s1.Inv := by
  induction calls with
  | nil =>
    intro s s1 hi h
    simp only [Session.runNoStale, Option.some.injEq] at h
    subst h; exact hi
  | cons k ks ih =>
    intro s s1 hi h
    simp only [Session.runNoStale] at h
    cases hk : k.staleClose s with
    | true => simp [hk] at h
    | false =>
      simp only [hk] at h
      cases hc : s.call k with
      | none => simp [hc] at h
      | some s2 =>
        simp only [hc] at h
        exact ih s2 s1 (Session.Inv_call hi hk hc) h

/-! ## The session claims -/

/-- C1: opening a stream performs the handshake.  The `DataStream` constructor appends
exactly the line `DATABEGIN` to what was written, the `PyOutStream` constructor exactly
`PYBEGIN`; each succeeds if and only if the line read back is exactly `READY`; and on a
connection whose lock is free `beginData` and `beginPythonOut` are these constructors. -/
theorem open_performs_handshake (c : BlenderConnection) (deleteOnError : Bool) :
    (DataStream.ctor c).conn.written = c.written ++ [Written.line "DATABEGIN"] ∧
    (PyOutStream.ctor c deleteOnError).conn.written
      = c.written ++ [Written.line "PYBEGIN"] ∧
    ((DataStream.ctor c).succeeded = true ↔ c.nextLine 16 = some "READY") ∧
    ((PyOutStream.ctor c deleteOnError).succeeded = true
      ↔ c.nextLine 16 = some "READY") ∧
    (c.m_lock = false →
      c.beginData = DataStream.ctor c ∧
      c.beginPythonOut deleteOnError = PyOutStream.ctor c deleteOnError) := by
  refine ⟨?_, ?_, ?_, ?_, ?_⟩
  · unfold DataStream.ctor BlenderConnection._readLine BlenderConnection._writeLine
    cases h : readLineScan (16 - 1) [] c.incoming with
    | none => simp [Outcome.conn, h]
    | some r =>
      obtain ⟨text, rest⟩ := r
      simp only [h]
      by_cases hr : String.mk text = "READY" <;> simp [Outcome.conn, hr]
  · unfold PyOutStream.ctor BlenderConnection._readLine BlenderConnection._writeLine
    cases h : readLineScan (16 - 1) [] c.incoming with
    | none => simp [Outcome.conn, h]
    | some r =>
      obtain ⟨text, rest⟩ := r
      simp only [h]
      by_cases hr : String.mk text = "READY" <;> simp [Outcome.conn, hr]
  · unfold DataStream.ctor BlenderConnection._readLine BlenderConnection._writeLine
      BlenderConnection.nextLine
    cases h : readLineScan (16 - 1) [] c.incoming with
    | none => simp [Outcome.succeeded, h]
    | some r =>
      obtain ⟨text, rest⟩ := r
      simp only [h]
      by_cases hr : String.mk text = "READY" <;> simp [Outcome.succeeded, hr]
  · unfold PyOutStream.ctor BlenderConnection._readLine BlenderConnection._writeLine
      BlenderConnection.nextLine
    cases h : readLineScan (16 - 1) [] c.incoming with
    | none => simp [Outcome.succeeded, h]
    | some r =>
      obtain ⟨text, rest⟩ := r
      simp only [h]
      by_cases hr : String.mk text = "READY" <;> simp [Outcome.succeeded, hr]
  · intro hl
    simp [BlenderConnection.beginData, BlenderConnection.beginPythonOut, hl]

/-- C1 at a new connection whose peer answers `READY`. -/
theorem open_performs_handshake_witness :
    freshConnReady.m_lock = false ∧
    (freshConnReady.beginData = DataStream.ctor freshConnReady ∧
      freshConnReady.beginPythonOut false = PyOutStream.ctor freshConnReady false) ∧
    (DataStream.ctor freshConnReady).succeeded = true ∧
    (DataStream.ctor freshConnReady).conn.written = [Written.line "DATABEGIN"] :=
  ⟨rfl, (open_performs_handshake freshConnReady false).2.2.2.2 rfl,
    (open_performs_handshake freshConnReady false).2.2.1.mpr (by decide),
    (open_performs_handshake freshConnReady false).1⟩

/-- C2: on a connection whose lock flag is set, `beginData` and `beginPythonOut` stop at
the "lock already held" fatal report with the connection unchanged: nothing is written
to the peer and no stream object is returned. -/
theorem begin_rejected_when_locked (c : BlenderConnection) (deleteOnError : Bool)
    (h : c.m_lock = true) :
    c.beginData
      = Outcome.fatal "lock already held for BlenderConnection::beginDataIn()" c ∧
    c.beginPythonOut deleteOnError
      = Outcome.fatal "lock already held for BlenderConnection::beginPythonOut()" c := by
  simp [BlenderConnection.beginData, BlenderConnection.beginPythonOut, h]

/-- C2 at a connection with a data stream open. -/
theorem begin_rejected_when_locked_witness :
    lockedConnGoodReply.m_lock = true ∧
    lockedConnGoodReply.beginData
      = Outcome.fatal "lock already held for BlenderConnection::beginDataIn()"
          lockedConnGoodReply ∧
    lockedConnGoodReply.beginPythonOut true
      = Outcome.fatal "lock already held for BlenderConnection::beginPythonOut()"
          lockedConnGoodReply :=
  ⟨rfl, begin_rejected_when_locked lockedConnGoodReply true rfl⟩

/-- C3 as stated fails: with a data stream open and the peer answering `DATAEND` with
`ERROR`, `close()` sends the token, reads the reply and stops at the fatal report; it
does not return and the lock flag is still set. -/
theorem close_bad_reply_keeps_lock :
    (lockedConnBadReply._writeLine "DATAEND").nextLine 16 = some "ERROR" ∧
    DataStream.close { m_parent := true } lockedConnBadReply
      = Outcome.fatal "unable to close DataStream with blender"
          { m_lock := true, m_loadedType := BlendType.Mesh,
            written := [Written.line "DATABEGIN", Written.line "DATAEND"],
            incoming := [] } ∧
    (DataStream.close { m_parent := true } lockedConnBadReply).succeeded = false ∧
    (DataStream.close { m_parent := true } lockedConnBadReply).conn.m_lock = true := by
  decide

/-- C3 amended: for an open stream of either class, `close()` sends the end token; when
the peer answers exactly `DONE` it returns with the lock flag cleared and a following
`beginData` passes the lock check (it is the `DataStream` constructor); for every other
answer it stops at the "unable to close" fatal report with the lock flag still set. -/
theorem close_clears_lock_on_done (c c2 : BlenderConnection) (d : DataStream)
    (p : PyOutStream) (reply : String) (hd : d.m_parent = true) (hp : p.m_parent = true)
    (hc : c.m_lock = true) :
    ((c._writeLine "DATAEND")._readLine 16 = Outcome.ok reply c2 →
      c2.written = c.written ++ [Written.line "DATAEND"] ∧
      (reply = "DONE" →
        d.close c = Outcome.ok () { c2 with m_lock := false } ∧
        ({ c2 with m_lock := false } : BlenderConnection).beginData
          = DataStream.ctor { c2 with m_lock := false }) ∧
      (reply ≠ "DONE" →
        d.close c = Outcome.fatal "unable to close DataStream with blender" c2 ∧
        c2.m_lock = true)) ∧
    ((c._writeLine "PYEND")._readLine 16 = Outcome.ok reply c2 →
      c2.written = c.written ++ [Written.line "PYEND"] ∧
      (reply = "DONE" →
        p.close c = Outcome.ok () { c2 with m_lock := false } ∧
        ({ c2 with m_lock := false } : BlenderConnection).beginData
          = DataStream.ctor { c2 with m_lock := false }) ∧
      (reply ≠ "DONE" →
        p.close c = Outcome.fatal "unable to close PyOutStream with blender" c2 ∧
        c2.m_lock = true)) := by
  have hstate : ∀ (t : String) (r : String) (c3 : BlenderConnection),
      (c._writeLine t)._readLine 16 = Outcome.ok r c3 →
        c3.m_lock = true ∧ c3.written = c.written ++ [Written.line t] := by
    intro t r c3 h
    unfold BlenderConnection._readLine BlenderConnection._writeLine at h
    cases hs : readLineScan (16 - 1) [] c.incoming with
    | none => simp [hs] at h
    | some x =>
      simp only [hs, Outcome.ok.injEq] at h
      rw [← h.2]
      exact ⟨hc, rfl⟩
  constructor
  · intro hr
    refine ⟨(hstate _ _ _ hr).2, fun hdone => ⟨?_, ?_⟩, fun hne => ⟨?_, (hstate _ _ _ hr).1⟩⟩
    · simp [DataStream.close, hd, hc, hr, hdone]
    · simp [BlenderConnection.beginData]
    · simp [DataStream.close, hd, hc, hr, hne]
  · intro hr
    refine ⟨(hstate _ _ _ hr).2, fun hdone => ⟨?_, ?_⟩, fun hne => ⟨?_, (hstate _ _ _ hr).1⟩⟩
    · simp [PyOutStream.close, hp, hc, hr, hdone]
    · simp [BlenderConnection.beginData]
    · simp [PyOutStream.close, hp, hc, hr, hne]

/-- C3 amended, at a connection with a data stream open whose peer answers `DONE`. -/
theorem close_clears_lock_on_done_witness :
    DataStream.close { m_parent := true } lockedConnGoodReply
      = Outcome.ok ()
          { m_lock := false, m_loadedType := BlendType.Mesh,
            written := [Written.line "DATABEGIN", Written.line "DATAEND"],
            incoming := "READY\n".toList } :=
  ((close_clears_lock_on_done lockedConnGoodReply
      { m_lock := true, m_loadedType := BlendType.Mesh,
        written := [Written.line "DATABEGIN", Written.line "DATAEND"],
        incoming := "READY\n".toList }
      { m_parent := true }
      { m_parent := true, m_deleteOnError := false, m_lineBuf := "" }
      "DONE" rfl rfl rfl).1 (by decide)).2.1 rfl |>.1

/-- C4 as stated fails: on a new connection (lock flag clear) whose peer answers
`DATABEGIN` with `ERR bad state`, the failed open leaves the lock flag set. -/
theorem failed_open_leaves_lock_set :
    freshConnErrReply.m_lock = false ∧
    freshConnErrReply.beginData
      = Outcome.fatal "unable to open DataStream with blender"
          { m_lock := true, m_loadedType := BlendType.Mesh,
            written := [Written.line "DATABEGIN"], incoming := [] } ∧
    freshConnErrReply.beginData.conn.m_lock = true := by
  decide

/-- C4 amended: for every reply other than `READY` to the `DATABEGIN` request, the open
stops at the "unable to open" fatal report and the lock flag, set by the constructor
before the request is sent, is set. -/
theorem failed_open_has_lock_set (c c3 : BlenderConnection) (reply : String)
    (hl : c.m_lock = false)
    (hr : (({ c with m_lock := true } : BlenderConnection)._writeLine "DATABEGIN")._readLine 16
      = Outcome.ok reply c3)
    (hne : reply ≠ "READY") :
    c.beginData = Outcome.fatal "unable to open DataStream with blender" c3 ∧
    c3.m_lock = true := by
  constructor
  · simp [BlenderConnection.beginData, DataStream.ctor, hl, hr, hne]
  · unfold BlenderConnection._readLine BlenderConnection._writeLine at hr
    cases hs : readLineScan (16 - 1) [] c.incoming with
    | none => simp [hs] at hr
    | some x =>
      simp only [hs, Outcome.ok.injEq] at hr
      rw [← hr.2]

/-- C4 amended, at a new connection whose peer answers `ERR bad state`. -/
theorem failed_open_has_lock_set_witness :
    freshConnErrReply.beginData
      = Outcome.fatal "unable to open DataStream with blender"
          { m_lock := true, m_loadedType := BlendType.Mesh,
            written := [Written.line "DATABEGIN"], incoming := [] } ∧
    ({ m_lock := true, m_loadedType := BlendType.Mesh,
       written := [Written.line "DATABEGIN"], incoming := [] } : BlenderConnection).m_lock
      = true :=
  failed_open_has_lock_set freshConnErrReply
    { m_lock := true, m_loadedType := BlendType.Mesh,
      written := [Written.line "DATABEGIN"], incoming := [] }
    "ERR bad state" rfl (by decide) (by decide)

/-- Stream objects: in a run in which `close()` is never called on an already closed
object while the lock is held, at most one object is not yet closed and the lock flag is
set whenever one is. -/
theorem one_open_stream_without_stale_close (loadedType : BlendType)
    (incoming : List Char) (calls : List Call) (s : Session)
    (h : (Session.fresh loadedType incoming).runNoStale calls = some s) :
    s.openCount ≤ 1 ∧ (0 < s.openCount → s.conn.m_lock = true) := by
  obtain ⟨_, hle, hiff⟩ :=
    Session.Inv_runNoStale calls _ s (Session.Inv_fresh loadedType incoming) h
  exact ⟨hle, fun hpos => hiff.mpr (by omega)⟩

theorem beginData_ok_written {c c1 : BlenderConnection} {d : DataStream}
    (h : c.beginData = Outcome.ok d c1) :
    c1.written = c.written ++ [Written.line "DATABEGIN"] := by
  unfold BlenderConnection.beginData DataStream.ctor BlenderConnection._readLine
    BlenderConnection._writeLine at h
  cases hl : c.m_lock with
  | true => simp [hl] at h
  | false =>
    simp only [hl] at h
    cases hs : readLineScan (16 - 1) [] c.incoming with
    | none => simp [hs] at h
    | some r =>
      obtain ⟨text, rest⟩ := r
      simp only [hs] at h
      by_cases hr : String.mk text = "READY"
      · simp [hr] at h
        obtain ⟨h1, h2⟩ := h
        subst h1 h2
        rfl
      · simp [hr] at h

theorem beginPythonOut_ok_written {c c1 : BlenderConnection} {b : Bool} {p : PyOutStream}
    (h : c.beginPythonOut b = Outcome.ok p c1) :
    c1.written = c.written ++ [Written.line "PYBEGIN"] := by
  unfold BlenderConnection.beginPythonOut PyOutStream.ctor BlenderConnection._readLine
    BlenderConnection._writeLine at h
  cases hl : c.m_lock with
  | true => simp [hl] at h
  | false =>
    simp only [hl] at h
    cases hs : readLineScan (16 - 1) [] c.incoming with
    | none => simp [hs] at h
    | some r =>
      obtain ⟨text, rest⟩ := r
      simp only [hs] at h
      by_cases hr : String.mk text = "READY"
      · simp [hr] at h
        obtain ⟨h1, h2⟩ := h
        subst h1 h2
        rfl
      · simp [hr] at h

theorem Stream.close_ok_cases {st : Stream} {c c1 : BlenderConnection}
    (h : st.close c = Outcome.ok () c1) :
    c1 = c ∨
    (c.m_lock = true ∧ c1.m_lock = false ∧
      (c1.written = c.written ++ [Written.line "DATAEND"]
        ∨ c1.written = c.written ++ [Written.line "PYEND"])) := by
  cases st with
  | data s =>
    simp only [Stream.close, DataStream.close] at h
    by_cases hg : (s.m_parent && c.m_lock) = true
    · simp only [hg, if_true, BlenderConnection._readLine, BlenderConnection._writeLine] at h
      have hl : c.m_lock = true := by
        simp only [Bool.and_eq_true] at hg; exact hg.2
      cases hs : readLineScan (16 - 1) [] c.incoming with
      | none => simp [hs] at h
      | some r =>
        obtain ⟨text, rest⟩ := r
        simp only [hs] at h
        by_cases hr : String.mk text = "DONE"
        · simp [hr] at h
          subst h
          exact Or.inr ⟨hl, rfl, Or.inl rfl⟩
        · simp [hr] at h
    · simp only [hg, Bool.false_eq_true, if_false, Outcome.ok.injEq, true_and] at h
      exact Or.inl h.symm
  | py s =>
    simp only [Stream.close, PyOutStream.close] at h
    by_cases hg : (s.m_parent && c.m_lock) = true
    · simp only [hg, if_true, BlenderConnection._readLine, BlenderConnection._writeLine] at h
      have hl : c.m_lock = true := by
        simp only [Bool.and_eq_true] at hg; exact hg.2
      cases hs : readLineScan (16 - 1) [] c.incoming with
      | none => simp [hs] at h
      | some r =>
        obtain ⟨text, rest⟩ := r
        simp only [hs] at h
        by_cases hr : String.mk text = "DONE"
        · simp [hr] at h
          subst h
          exact Or.inr ⟨hl, rfl, Or.inr rfl⟩
        · simp [hr] at h
    · simp only [hg, Bool.false_eq_true, if_false, Outcome.ok.injEq, true_and] at h
      exact Or.inl h.symm

theorem Session.WireBalance_call {s s1 : Session} {k : Call} (hi : s.WireBalance)
    (h : s.call k = some s1) : s1.WireBalance := by
  obtain ⟨hi, hn⟩ := hi
  unfold Session.WireBalance
  cases k with
  | beginData =>
    simp only [Session.call] at h
    cases hb : s.conn.beginData with
    | fatal m c => simp [hb] at h
    | ok d c =>
      simp only [hb, Option.some.injEq] at h
      subst h
      obtain ⟨h1, h2, _⟩ := beginData_ok hb
      have hw := beginData_ok_written hb
      simp only [h1, Bool.false_eq_true, if_false] at hi
      simp only [hw, h2, if_true, List.countP_append, List.countP_cons, List.countP_nil,
        List.length_append, List.length_singleton]
      have e1 : Written.isBegin (Written.line "DATABEGIN") = true := by decide
      have e2 : Written.isEnd (Written.line "DATABEGIN") = false := by decide
      simp only [e1, e2, if_true, Bool.false_eq_true, if_false]
      omega
  | beginPythonOut b =>
    simp only [Session.call] at h
    cases hb : s.conn.beginPythonOut b with
    | fatal m c => simp [hb] at h
    | ok d c =>
      simp only [hb, Option.some.injEq] at h
      subst h
      obtain ⟨h1, h2, _⟩ := beginPythonOut_ok hb
      have hw := beginPythonOut_ok_written hb
      simp only [h1, Bool.false_eq_true, if_false] at hi
      simp only [hw, h2, if_true, List.countP_append, List.countP_cons, List.countP_nil,
        List.length_append, List.length_singleton]
      have e1 : Written.isBegin (Written.line "PYBEGIN") = true := by decide
      have e2 : Written.isEnd (Written.line "PYBEGIN") = false := by decide
      simp only [e1, e2, if_true, Bool.false_eq_true, if_false]
      omega
  | close i =>
    simp only [Session.call] at h
    cases ho : s.streams[i]? with
    | none => simp [ho] at h
    | some o =>
      simp only [ho] at h
      cases hc : o.stream.close s.conn with
      | fatal m c => simp [hc] at h
      | ok u c =>
        simp only [hc, Option.some.injEq] at h
        subst h
        rcases Stream.close_ok_cases hc with e | ⟨hl, hl1, hw | hw⟩
        · simp only [e, List.length_set]; exact ⟨hi, hn⟩
        · simp only [hl, if_true] at hi
          simp only [hw, hl1, Bool.false_eq_true, if_false, List.countP_append,
            List.countP_cons, List.countP_nil, List.length_set]
          have e1 : Written.isBegin (Written.line "DATAEND") = false := by decide
          have e2 : Written.isEnd (Written.line "DATAEND") = true := by decide
          simp only [e1, e2, if_true, Bool.false_eq_true, if_false]
          omega
        · simp only [hl, if_true] at hi
          simp only [hw, hl1, Bool.false_eq_true, if_false, List.countP_append,
            List.countP_cons, List.countP_nil, List.length_set]
          have e1 : Written.isBegin (Written.line "PYEND") = false := by decide
          have e2 : Written.isEnd (Written.line "PYEND") = true := by decide
          simp only [e1, e2, if_true, Bool.false_eq_true, if_false]
          omega

theorem Session.WireBalance_run (calls : List Call) :
    ∀ (s s1 : Session), s.WireBalance → s.run calls = some s1 → s1.WireBalance := by
  induction calls with
  | nil =>
    intro s s1 hi h
    simp only [Session.run, Option.some.injEq] at h
    subst h; exact hi
  | cons k ks ih =>
    intro s s1 hi h
    simp only [Session.run] at h
    cases hc : s.call k with
    | none => simp [hc] at h
    | some s2 =>
      simp only [hc] at h
      exact ih s2 s1 (Session.WireBalance_call hi hc) h

/-- C5: in every state reached from a new connection by `beginData`, `beginPythonOut` and
`close()` calls that return, a repeated `close()` on an already closed stream object
included, at most one stream is open on the wire (a begin line sent and not yet answered
by an end line), the lock flag is set exactly when one is open, and every stream object
handed out stands for one begin line. -/
theorem one_stream_open_on_the_wire (loadedType : BlendType) (incoming : List Char)
    (calls : List Call) (s : Session)
    (h : (Session.fresh loadedType incoming).run calls = some s) :
    (wireOpenCount s.conn.written = 0 ∨ wireOpenCount s.conn.written = 1) ∧
    (wireOpenCount s.conn.written = 1 ↔ s.conn.m_lock = true) ∧
    s.streams.length = s.conn.written.countP Written.isBegin := by
  obtain ⟨hb, hn⟩ := Session.WireBalance_run calls (Session.fresh loadedType incoming) s (by
    simp [Session.WireBalance, Session.fresh, BlenderConnection.fresh]) h
  refine ⟨?_, ?_, hn⟩
  · unfold wireOpenCount
    cases hl : s.conn.m_lock with
    | false =>
      simp only [hl, Bool.false_eq_true, if_false, Nat.add_zero] at hb
      rw [hb]; simp
    | true =>
      simp only [hl, if_true] at hb
      rw [hb]; simp
  · unfold wireOpenCount
    cases hl : s.conn.m_lock with
    | false =>
      simp only [hl, Bool.false_eq_true, if_false, Nat.add_zero] at hb
      rw [hb]; simp
    | true =>
      simp only [hl, if_true] at hb
      rw [hb]; simp

/-- C5 at a run with a repeated close: a data stream is opened and closed, a second one
opened, `close()` called on the first object again, and a script stream opened. -/
theorem one_stream_open_on_the_wire_witness :
    (Session.fresh BlendType.Mesh staleCloseReplies).run staleCloseCalls = some staleCloseEnd ∧
    wireOpenCount staleCloseEnd.conn.written = 1 ∧
    staleCloseEnd.conn.m_lock = true :=
  ⟨by decide,
   (one_stream_open_on_the_wire BlendType.Mesh staleCloseReplies staleCloseCalls
      staleCloseEnd (by decide)).2.1.mpr rfl,
   rfl⟩

/-! ## Vertex equality -/

/-- What `Vert::operator==` compares: all index members except `iBankSkin`. -/
theorem Vert.operator_eq_fields (a b : Vert) :
    a.operator_eq b = true ↔
      a.iPos = b.iPos ∧ a.iNorm = b.iNorm ∧ (∀ i, a.iColor i = b.iColor i) ∧
        (∀ i, a.iUv i = b.iUv i) ∧ a.iSkin = b.iSkin := by
  unfold Vert.operator_eq
  by_cases h1 : a.iPos = b.iPos
  · by_cases h2 : a.iNorm = b.iNorm
    · by_cases h3 : ∀ i, a.iColor i = b.iColor i
      · by_cases h4 : ∀ i, a.iUv i = b.iUv i
        · by_cases h5 : a.iSkin = b.iSkin
          · simp [h1, h2, h3, h4, h5]
          · simp [h1, h2, h3, h4, h5]
        · have h4e := h4
          push_neg at h4e
          obtain ⟨i, hi⟩ := h4e
          have : ∃ x, ¬ a.iUv x = b.iUv x := ⟨i, hi⟩
          simp [h1, h2, h3, h4, this]
      · have h3e := h3
        push_neg at h3e
        obtain ⟨i, hi⟩ := h3e
        have : ∃ x, ¬ a.iColor x = b.iColor x := ⟨i, hi⟩
        simp [h1, h2, h3, this]
    · simp [h1, h2]
  · simp [h1]

theorem Vert.operator_eq_refl (a : Vert) : a.operator_eq a = true :=
  (Vert.operator_eq_fields a a).mpr ⟨rfl, rfl, fun _ => rfl, fun _ => rfl, rfl⟩

/-- Two Verts that compare equal compare alike with every third Vert. -/
theorem Vert.operator_eq_congr {a b : Vert} (h : a.operator_eq b = true) (w : Vert) :
    w.operator_eq a = w.operator_eq b := by
  obtain ⟨h1, h2, h3, h4, h5⟩ := (Vert.operator_eq_fields a b).mp h
  have hiff : w.operator_eq a = true ↔ w.operator_eq b = true := by
    rw [Vert.operator_eq_fields, Vert.operator_eq_fields, h1, h2, h5]
    constructor
    · rintro ⟨e1, e2, e3, e4, e5⟩
      exact ⟨e1, e2, fun i => (e3 i).trans (h3 i), fun i => (e4 i).trans (h4 i), e5⟩
    · rintro ⟨e1, e2, e3, e4, e5⟩
      exact ⟨e1, e2, fun i => (e3 i).trans (h3 i).symm, fun i => (e4 i).trans (h4 i).symm, e5⟩
  cases hx : w.operator_eq a <;> cases hy : w.operator_eq b <;> simp_all

/-- C6: two Verts compare equal exactly when `iPos`, `iNorm`, the 4 `iColor` slots, the
8 `iUv` slots and `iSkin` agree; `iBankSkin` takes no part, so two Verts that differ
only in `iBankSkin` compare equal. -/
theorem vert_operator_eq_iff (a b : Vert) :
    (a.operator_eq b = true ↔
      a.iPos = b.iPos ∧ a.iNorm = b.iNorm ∧ (∀ i, a.iColor i = b.iColor i) ∧
        (∀ i, a.iUv i = b.iUv i) ∧ a.iSkin = b.iSkin) ∧
    (∀ x : Nat, a.operator_eq { a with iBankSkin := x } = true) := by
  refine ⟨Vert.operator_eq_fields a b, fun x => ?_⟩
  simp [Vert.operator_eq]

/-! ## Skin banks: the bone list -/

theorem Bank.pushBone_eq (bones : List Nat) (b : Nat) :
    Bank.pushBone bones b = if b ∈ bones then bones else bones ++ [b] := by
  unfold Bank.pushBone
  by_cases h : b ∈ bones
  · have : ∃ x, x ∈ bones ∧ x = b := ⟨b, h, rfl⟩
    simp [h]
  · simp [h]

/-- Pushing a list of bone references one by one appends the new bones, each once, in
order of first occurrence. -/
theorem Bank.foldl_pushBone (refs : List Nat) : ∀ bones : List Nat,
    ∃ added, refs.foldl Bank.pushBone bones = bones ++ added ∧
      (∀ b, b ∈ added ↔ b ∈ refs ∧ b ∉ bones) ∧
      added.Pairwise (fun x y => refs.indexOf x < refs.indexOf y) := by
  induction refs with
  | nil =>
    intro bones
    exact ⟨[], by simp, by simp, List.Pairwise.nil⟩
  | cons r rs ih =>
    intro bones
    simp only [List.foldl_cons, Bank.pushBone_eq]
    by_cases hr : r ∈ bones
    · obtain ⟨added, h1, h2, h3⟩ := ih bones
      refine ⟨added, by simpa [hr] using h1, ?_, ?_⟩
      · intro b
        rw [h2 b]
        constructor
        · rintro ⟨hb1, hb2⟩
          exact ⟨List.mem_cons_of_mem _ hb1, hb2⟩
        · rintro ⟨hb1, hb2⟩
          rcases List.mem_cons.mp hb1 with e | e
          · subst e; exact absurd hr hb2
          · exact ⟨e, hb2⟩
      · refine List.Pairwise.imp_of_mem ?_ h3
        intro x y hx hy hxy
        have hxr : r ≠ x := fun e => ((h2 x).mp hx).2 (e ▸ hr)
        have hyr : r ≠ y := fun e => ((h2 y).mp hy).2 (e ▸ hr)
        rw [List.indexOf_cons_ne _ hxr, List.indexOf_cons_ne _ hyr]
        omega
    · obtain ⟨added, h1, h2, h3⟩ := ih (bones ++ [r])
      refine ⟨r :: added, by simpa [hr] using h1, ?_, ?_⟩
      · intro b
        have hb := h2 b
        simp only [List.mem_append, List.mem_singleton, not_or] at hb
        simp only [List.mem_cons, hb]
        constructor
        · rintro (e | ⟨hb1, hb2, _⟩)
          · subst e; exact ⟨Or.inl rfl, hr⟩
          · exact ⟨Or.inr hb1, hb2⟩
        · rintro ⟨hb1 | hb1, hb2⟩
          · exact Or.inl hb1
          · by_cases e : b = r
            · exact Or.inl e
            · exact Or.inr ⟨hb1, hb2, e⟩
      · refine List.Pairwise.cons ?_ ?_
        · intro y hy
          have hyr : r ≠ y := fun e => by
            have := ((h2 y).mp hy).2
            simp [e] at this
          rw [List.indexOf_cons_self, List.indexOf_cons_ne _ hyr]
          omega
        · refine List.Pairwise.imp_of_mem ?_ h3
          intro x y hx hy hxy
          have hxr : r ≠ x := fun e => by
            have := ((h2 x).mp hx).2
            simp [e] at this
          have hyr : r ≠ y := fun e => by
            have := ((h2 y).mp hy).2
            simp [e] at this
          rw [List.indexOf_cons_ne _ hxr, List.indexOf_cons_ne _ hyr]
          omega

theorem Mesh.referencedBones_cons (parent : Mesh) (sidx : Nat) (rest : List Nat) :
    parent.referencedBones (sidx :: rest)
      = (parent.skins.getD sidx []).map SkinBind.boneIdx ++ parent.referencedBones rest := by
  simp [Mesh.referencedBones]

/-- What `addSkins` returns: the skin indices appended, the bones pushed one by one; it
returns a bank exactly when every skin index is in range. -/
theorem Bank.addSkins_some (parent : Mesh) (skinIdxs : List Nat) : ∀ (bank bank1 : Bank),
    Bank.addSkins parent bank skinIdxs = some bank1 →
      bank1.m_skinIdxs = bank.m_skinIdxs ++ skinIdxs ∧
      bank1.m_boneIdxs = (parent.referencedBones skinIdxs).foldl Bank.pushBone bank.m_boneIdxs ∧
      ∀ s ∈ skinIdxs, s < parent.skins.length := by
  induction skinIdxs with
  | nil =>
    intro bank bank1 h
    simp only [Bank.addSkins, Option.some.injEq] at h
    subst h
    simp [Mesh.referencedBones]
  | cons sidx rest ih =>
    intro bank bank1 h
    simp only [Bank.addSkins] at h
    cases hs : parent.skins[sidx]? with
    | none => simp [hs] at h
    | some binds =>
      simp only [hs] at h
      obtain ⟨h1, h2, h3⟩ := ih _ _ h
      obtain ⟨hlt, hget⟩ := List.getElem?_eq_some.mp hs
      have hD : parent.skins.getD sidx [] = binds := by
        simp [List.getD, hs]
      refine ⟨by simpa using h1, ?_, ?_⟩
      · rw [h2, Mesh.referencedBones_cons, List.foldl_append, hD, List.foldl_map]
      · intro s hsm
        rcases List.mem_cons.mp hsm with e | e
        · subst e; exact hlt
        · exact h3 s e

theorem Bank.addSkins_isSome (parent : Mesh) (skinIdxs : List Nat) : ∀ (bank : Bank),
    (∀ s ∈ skinIdxs, s < parent.skins.length) →
      ∃ bank1, Bank.addSkins parent bank skinIdxs = some bank1 := by
  induction skinIdxs with
  | nil => intro bank _; exact ⟨bank, rfl⟩
  | cons sidx rest ih =>
    intro bank hv
    have hlt : sidx < parent.skins.length := hv sidx (List.mem_cons_self _ _)
    have hs : parent.skins[sidx]? = some (parent.skins[sidx]) := List.getElem?_eq_getElem hlt
    simp only [Bank.addSkins, hs]
    exact ih _ (fun s hsm => hv s (List.mem_cons_of_mem _ hsm))

/-- The bones added by `addSkins`. -/
theorem Bank.addSkins_added (parent : Mesh) (skinIdxs : List Nat) (bank bank1 : Bank)
    (h : Bank.addSkins parent bank skinIdxs = some bank1) :
    ∃ added, bank1.m_boneIdxs = bank.m_boneIdxs ++ added ∧
      (∀ b, b ∈ added ↔ b ∈ parent.referencedBones skinIdxs ∧ b ∉ bank.m_boneIdxs) ∧
      added.Pairwise (fun x y =>
        (parent.referencedBones skinIdxs).indexOf x
          < (parent.referencedBones skinIdxs).indexOf y) ∧
      added.Nodup := by
  obtain ⟨_, h2, _⟩ := Bank.addSkins_some parent skinIdxs bank bank1 h
  obtain ⟨added, a1, a2, a3⟩ := Bank.foldl_pushBone (parent.referencedBones skinIdxs)
    bank.m_boneIdxs
  refine ⟨added, by rw [h2, a1], a2, a3, ?_⟩
  exact a3.imp (fun hxy e => by subst e; omega)

theorem Mesh.mem_referencedBones (parent : Mesh) (skinIdxs : List Nat) (b : Nat) :
    b ∈ parent.referencedBones skinIdxs ↔
      ∃ sidx ∈ skinIdxs, ∃ bind ∈ parent.skins.getD sidx [], bind.boneIdx = b := by
  simp only [Mesh.referencedBones, List.mem_flatten]
  constructor
  · rintro ⟨l, hl, hb⟩
    obtain ⟨sidx, hs, rfl⟩ := List.mem_map.mp hl
    obtain ⟨bind, hbind, rfl⟩ := List.mem_map.mp hb
    exact ⟨sidx, hs, bind, hbind, rfl⟩
  · rintro ⟨sidx, hs, bind, hb, rfl⟩
    exact ⟨_, List.mem_map.mpr ⟨sidx, hs, rfl⟩, List.mem_map.mpr ⟨bind, hb, rfl⟩⟩

/-- One `addSkins` call keeps the bones of the recorded skin sets in the bone list. -/
theorem Bank.addSkins_covers (parent : Mesh) (skinIdxs : List Nat) (bank bank1 : Bank)
    (hcov : ∀ sidx ∈ bank.m_skinIdxs, ∃ binds, parent.skins[sidx]? = some binds ∧
      ∀ bind ∈ binds, bind.boneIdx ∈ bank.m_boneIdxs)
    (h : Bank.addSkins parent bank skinIdxs = some bank1) :
    ∀ sidx ∈ bank1.m_skinIdxs, ∃ binds, parent.skins[sidx]? = some binds ∧
      ∀ bind ∈ binds, bind.boneIdx ∈ bank1.m_boneIdxs := by
  obtain ⟨h1, _, h3⟩ := Bank.addSkins_some parent skinIdxs bank bank1 h
  obtain ⟨added, a1, a2, _, _⟩ := Bank.addSkins_added parent skinIdxs bank bank1 h
  intro sidx hs
  rw [h1, List.mem_append] at hs
  rcases hs with hs | hs
  · obtain ⟨binds, hb1, hb2⟩ := hcov sidx hs
    refine ⟨binds, hb1, fun bind hbind => ?_⟩
    rw [a1]
    exact List.mem_append_left _ (hb2 bind hbind)
  · have hlt := h3 sidx hs
    refine ⟨parent.skins[sidx], List.getElem?_eq_getElem hlt, fun bind hbind => ?_⟩
    rw [a1, List.mem_append]
    by_cases hin : bind.boneIdx ∈ bank.m_boneIdxs
    · exact Or.inl hin
    · refine Or.inr ((a2 _).mpr ⟨?_, hin⟩)
      refine (Mesh.mem_referencedBones parent skinIdxs _).mpr ⟨sidx, hs, bind, ?_, rfl⟩
      simpa [List.getD, List.getElem?_eq_getElem hlt] using hbind

theorem Bank.build_covers (parent : Mesh) (calls : List (List Nat)) : ∀ (bank bank1 : Bank),
    (∀ sidx ∈ bank.m_skinIdxs, ∃ binds, parent.skins[sidx]? = some binds ∧
      ∀ bind ∈ binds, bind.boneIdx ∈ bank.m_boneIdxs) →
    Bank.build parent bank calls = some bank1 →
    ∀ sidx ∈ bank1.m_skinIdxs, ∃ binds, parent.skins[sidx]? = some binds ∧
      ∀ bind ∈ binds, bind.boneIdx ∈ bank1.m_boneIdxs := by
  induction calls with
  | nil =>
    intro bank bank1 hcov h
    simp only [Bank.build, Option.some.injEq] at h
    subst h; exact hcov
  | cons skinIdxs rest ih =>
    intro bank bank1 hcov h
    simp only [Bank.build] at h
    cases ha : Bank.addSkins parent bank skinIdxs with
    | none => simp [ha] at h
    | some bank2 =>
      simp only [ha] at h
      exact ih bank2 bank1 (Bank.addSkins_covers parent skinIdxs bank bank2 hcov ha) h

/-- The number of bones `addSkins` adds to a bank is the number of the distinct bones of
the skin sets that the bank does not hold yet. -/
theorem Bank.addSkins_length (parent : Mesh) (skinIdxs : List Nat) (cur cur1 own : Bank)
    (hown : Bank.addSkins parent Bank.empty skinIdxs = some own)
    (hcur : Bank.addSkins parent cur skinIdxs = some cur1) :
    cur1.m_boneIdxs.length = cur.m_boneIdxs.length
      + (own.m_boneIdxs.filter (fun b => !cur.m_boneIdxs.contains b)).length := by
  obtain ⟨a0, o1, o2, _, o4⟩ := Bank.addSkins_added parent skinIdxs Bank.empty own hown
  obtain ⟨a, c1, c2, _, c4⟩ := Bank.addSkins_added parent skinIdxs cur cur1 hcur
  simp only [Bank.empty, List.nil_append, List.not_mem_nil, not_false_eq_true, and_true]
    at o1 o2
  have hperm : List.Perm a (own.m_boneIdxs.filter (fun b => !cur.m_boneIdxs.contains b)) := by
    rw [List.perm_ext_iff_of_nodup c4 ((o1 ▸ o4).filter _)]
    intro b
    rw [c2 b, List.mem_filter, o1, o2 b]
    simp
  rw [c1, List.length_append, hperm.length_eq]

/-- One `addSurface` call keeps every bank within the budget. -/
theorem SkinBanks.addSurface_within (mesh : Mesh) (surf : Surface) (skinSlotCount : Int)
    (sb sb1 : SkinBanks) (idx : Nat)
    (hin : ∀ bank ∈ sb.banks, (bank.m_boneIdxs.length : Int) ≤ skinSlotCount)
    (h : sb.addSurface mesh surf skinSlotCount = .ok (idx, sb1)) :
    ∀ bank ∈ sb1.banks, (bank.m_boneIdxs.length : Int) ≤ skinSlotCount := by
  unfold SkinBanks.addSurface at h
  cases hown : Bank.addSkins mesh Bank.empty surf.skinIdxs with
  | none => simp [hown] at h
  | some own =>
    simp only [hown] at h
    by_cases hov : (own.m_boneIdxs.length : Int) > skinSlotCount
    · rw [if_pos hov] at h
      simp at h
    · rw [if_neg hov] at h
      cases hneed : sb.needsNewBank own.m_boneIdxs skinSlotCount with
      | true =>
        simp only [hneed, if_true, SkinBanks.addSkinBank, SkinBanks.addToCurrent,
          List.getLast?_concat, hown, List.dropLast_concat] at h
        simp only [Except.ok.injEq, Prod.mk.injEq] at h
        obtain ⟨_, h2⟩ := h
        subst h2
        intro bank hb
        rcases List.mem_append.mp hb with hb | hb
        · exact hin bank hb
        · simp only [List.mem_singleton] at hb
          subst hb
          omega
      | false =>
        simp only [hneed, Bool.false_eq_true, if_false, SkinBanks.addToCurrent] at h
        cases hlast : sb.banks.getLast? with
        | none => simp [SkinBanks.needsNewBank, hlast] at hneed
        | some cur =>
          simp only [SkinBanks.needsNewBank, hlast, decide_eq_false_iff_not] at hneed
          simp only [hlast] at h
          cases hcur : Bank.addSkins mesh cur surf.skinIdxs with
          | none => simp [hcur] at h
          | some cur1 =>
            simp only [hcur, Except.ok.injEq, Prod.mk.injEq] at h
            obtain ⟨_, h2⟩ := h
            subst h2
            have hlen := Bank.addSkins_length mesh surf.skinIdxs cur cur1 own hown hcur
            intro bank hb
            rcases List.mem_append.mp hb with hb | hb
            · exact hin bank (List.mem_of_mem_dropLast hb)
            · simp only [List.mem_singleton] at hb
              subst hb
              rw [hlen]
              push_cast
              omega

theorem SkinBanks.addSurfaces_within (mesh : Mesh) (skinSlotCount : Int)
    (surfaces : List Surface) : ∀ (sb sb1 : SkinBanks),
    (∀ bank ∈ sb.banks, (bank.m_boneIdxs.length : Int) ≤ skinSlotCount) →
    SkinBanks.addSurfaces mesh skinSlotCount sb surfaces = .ok sb1 →
    ∀ bank ∈ sb1.banks, (bank.m_boneIdxs.length : Int) ≤ skinSlotCount := by
  induction surfaces with
  | nil =>
    intro sb sb1 hin h
    simp only [SkinBanks.addSurfaces, Except.ok.injEq] at h
    subst h; exact hin
  | cons surf rest ih =>
    intro sb sb1 hin h
    simp only [SkinBanks.addSurfaces] at h
    cases hs : sb.addSurface mesh surf skinSlotCount with
    | error e => simp [hs] at h
    | ok r =>
      obtain ⟨idx, sb2⟩ := r
      simp only [hs] at h
      exact ih sb2 sb1 (SkinBanks.addSurface_within mesh surf skinSlotCount sb sb2 idx hin hs) h

/-! ## The skin bank claims -/

/-- C7: for a bank with a duplicate-free bone list and skin indices in range, `addSkins`
returns a bank whose bone list is the previous one followed by `added`, where `added`
holds exactly the bones referenced by the added skin sets that were not in the bank,
each once (`Nodup`), in order of first occurrence among the references; the new list is
duplicate-free and the bones already in the bank keep their positions. -/
theorem addSkins_appends_first_seen_bones (parent : Mesh) (bank : Bank)
    (skinIdxs : List Nat) (hnodup : bank.m_boneIdxs.Nodup)
    (hvalid : ∀ s ∈ skinIdxs, s < parent.skins.length) :
    ∃ bank1 added, Bank.addSkins parent bank skinIdxs = some bank1 ∧
      bank1.m_boneIdxs = bank.m_boneIdxs ++ added ∧
      (∀ b, b ∈ added ↔ b ∈ parent.referencedBones skinIdxs ∧ b ∉ bank.m_boneIdxs) ∧
      added.Nodup ∧
      added.Pairwise (fun x y =>
        (parent.referencedBones skinIdxs).indexOf x
          < (parent.referencedBones skinIdxs).indexOf y) ∧
      bank1.m_boneIdxs.Nodup ∧
      (∀ i, i < bank.m_boneIdxs.length → bank1.m_boneIdxs[i]? = bank.m_boneIdxs[i]?) := by
  obtain ⟨bank1, h⟩ := Bank.addSkins_isSome parent skinIdxs bank hvalid
  obtain ⟨added, a1, a2, a3, a4⟩ := Bank.addSkins_added parent skinIdxs bank bank1 h
  refine ⟨bank1, added, h, a1, a2, a4, a3, ?_, ?_⟩
  · rw [a1]
    refine List.Nodup.append hnodup a4 ?_
    intro b hb1 hb2
    exact ((a2 b).mp hb2).2 hb1
  · intro i hi
    rw [a1, List.getElem?_append_left hi]

/-- C7 at `sampleBank` and the skin sets 0, 1, 2, 1 of `sampleMesh`: the bones 3, 1 and 7
are appended to the bone 5. -/
theorem addSkins_appends_first_seen_bones_witness :
    sampleBank.m_boneIdxs.Nodup ∧
    Bank.addSkins sampleMesh sampleBank [0, 1, 2, 1]
      = some { m_skinIdxs := [9, 0, 1, 2, 1], m_boneIdxs := [5, 3, 1, 7] } ∧
    (Bank.addSkins sampleMesh sampleBank [0, 1, 2, 1]).isSome = true :=
  ⟨by decide, by decide,
   match addSkins_appends_first_seen_bones sampleMesh sampleBank [0, 1, 2, 1]
      (by decide) (by decide) with
   | ⟨_, _, h, _⟩ => by rw [h]; rfl⟩

/-- C8: in a bank built from the empty bank by `addSkins` calls, every recorded skin-set
index is in range of the parent mesh and every bone bound by that skin set is in the
bone list of the bank. -/
theorem built_bank_holds_bound_bones (parent : Mesh) (calls : List (List Nat))
    (bank : Bank) (h : Bank.build parent Bank.empty calls = some bank) :
    ∀ sidx ∈ bank.m_skinIdxs, ∃ binds, parent.skins[sidx]? = some binds ∧
      ∀ bind ∈ binds, bind.boneIdx ∈ bank.m_boneIdxs := by
  refine Bank.build_covers parent calls Bank.empty bank ?_ h
  intro sidx hs
  simp [Bank.empty] at hs

/-- C8 at the bank built on `sampleMesh` by adding the skin sets 2 and 0, then 1: the
binds of skin set 1, recorded last, are in the bone list. -/
theorem built_bank_holds_bound_bones_witness :
    Bank.build sampleMesh Bank.empty [[2, 0], [1]]
      = some { m_skinIdxs := [2, 0, 1], m_boneIdxs := [3, 7, 5, 1] } ∧
    ∃ binds, sampleMesh.skins[1]? = some binds ∧
      ∀ bind ∈ binds, bind.boneIdx ∈ [3, 7, 5, 1] :=
  ⟨by decide,
   built_bank_holds_bound_bones sampleMesh [[2, 0], [1]]
     { m_skinIdxs := [2, 0, 1], m_boneIdxs := [3, 7, 5, 1] } (by decide) 1 (by decide)⟩

/-- C9: when the allocator, started with no bank, has taken the surfaces of a mesh one
by one with the budget `skinSlotCount`, every bank holds at most `skinSlotCount` bone
indices. -/
theorem allocator_banks_within_budget (mesh : Mesh) (skinSlotCount : Int)
    (surfaces : List Surface) (sb : SkinBanks)
    (h : SkinBanks.addSurfaces mesh skinSlotCount { banks := [] } surfaces = .ok sb) :
    ∀ bank ∈ sb.banks, (bank.m_boneIdxs.length : Int) ≤ skinSlotCount := by
  refine SkinBanks.addSurfaces_within mesh skinSlotCount surfaces { banks := [] } sb ?_ h
  intro bank hb
  simp at hb

/-- C9 at `sampleSurfaces` with the budget 3: two banks, of 3 and 2 bones. -/
theorem allocator_banks_within_budget_witness :
    SkinBanks.addSurfaces sampleMesh 3 { banks := [] } sampleSurfaces
      = .ok { banks := [{ m_skinIdxs := [0, 1], m_boneIdxs := [3, 5, 1] },
                        { m_skinIdxs := [2], m_boneIdxs := [3, 7] }] } ∧
    ((Bank.mk [0, 1] [3, 5, 1]).m_boneIdxs.length : Int) ≤ 3 :=
  ⟨by rfl,
   allocator_banks_within_budget sampleMesh 3 sampleSurfaces
     { banks := [{ m_skinIdxs := [0, 1], m_boneIdxs := [3, 5, 1] },
                 { m_skinIdxs := [2], m_boneIdxs := [3, 7] }] }
     (by rfl) { m_skinIdxs := [0, 1], m_boneIdxs := [3, 5, 1] } (by decide)⟩

/-! ## Bone lookup -/

theorem Bank.lookupFrom_absent (l : List Nat) (b i : Nat) (h : b ∉ l) :
    Bank.lookupFrom l b i = size_t_minus_one := by
  induction l generalizing i with
  | nil => rfl
  | cons x xs ih =>
    simp only [List.mem_cons, not_or] at h
    have hx : ¬ x = b := fun e => h.1 e.symm
    simp only [Bank.lookupFrom, hx, if_false]
    exact ih (i + 1) h.2

theorem Bank.lookupFrom_present (l : List Nat) (b i : Nat) (h : b ∈ l) :
    ∃ k, Bank.lookupFrom l b i = i + k ∧ l[k]? = some b ∧ ∀ j, j < k → l[j]? ≠ some b := by
  induction l generalizing i with
  | nil => simp at h
  | cons x xs ih =>
    by_cases hx : x = b
    · refine ⟨0, ?_, ?_, ?_⟩
      · simp [Bank.lookupFrom, hx]
      · simp [hx]
      · intro j hj; omega
    · have hmem : b ∈ xs := by
        rcases List.mem_cons.mp h with e | e
        · exact absurd e.symm hx
        · exact e
      obtain ⟨k, hk1, hk2, hk3⟩ := ih (i + 1) hmem
      refine ⟨k + 1, ?_, ?_, ?_⟩
      · simp only [Bank.lookupFrom, hx, if_false, hk1]; omega
      · simpa using hk2
      · intro j hj
        cases j with
        | zero => simpa using hx
        | succ j => simpa using hk3 j (by omega)

/-- C10: `lookupLocalBoneIdx(b)` returns the least position holding `b` when `b` is in
the bone list, and returns `size_t(-1)` exactly when `b` is absent; `size_t(-1)` is not a
position of the list (a vector has at most `size_t(-1)` elements). -/
theorem lookupLocalBoneIdx_least_or_sentinel (bank : Bank) (b : Nat)
    (hsize : bank.m_boneIdxs.length ≤ size_t_minus_one) :
    (b ∈ bank.m_boneIdxs →
      bank.lookupLocalBoneIdx b < bank.m_boneIdxs.length ∧
      bank.m_boneIdxs[bank.lookupLocalBoneIdx b]? = some b ∧
      ∀ j, j < bank.lookupLocalBoneIdx b → bank.m_boneIdxs[j]? ≠ some b) ∧
    (bank.lookupLocalBoneIdx b = size_t_minus_one ↔ b ∉ bank.m_boneIdxs) ∧
    ¬ size_t_minus_one < bank.m_boneIdxs.length := by
  have hpres : b ∈ bank.m_boneIdxs →
      bank.lookupLocalBoneIdx b < bank.m_boneIdxs.length ∧
      bank.m_boneIdxs[bank.lookupLocalBoneIdx b]? = some b ∧
      ∀ j, j < bank.lookupLocalBoneIdx b → bank.m_boneIdxs[j]? ≠ some b := by
    intro hmem
    obtain ⟨k, hk1, hk2, hk3⟩ := Bank.lookupFrom_present bank.m_boneIdxs b 0 hmem
    have hk : bank.lookupLocalBoneIdx b = k := by
      simp [Bank.lookupLocalBoneIdx, hk1]
    rw [hk]
    refine ⟨?_, hk2, hk3⟩
    obtain ⟨hlt, _⟩ := List.getElem?_eq_some.mp hk2
    exact hlt
  refine ⟨hpres, ⟨fun heq hmem => ?_, fun habs => ?_⟩, by omega⟩
  · have := (hpres hmem).1
    omega
  · exact Bank.lookupFrom_absent _ _ _ habs

/-- C10 at the bank with bones 4, 5, 6, 5 and the bone 5. -/
theorem lookupLocalBoneIdx_least_or_sentinel_witness :
    (Bank.mk [] [4, 5, 6, 5]).m_boneIdxs.length ≤ size_t_minus_one ∧
    (Bank.mk [] [4, 5, 6, 5]).lookupLocalBoneIdx 5 < 4 ∧
    (Bank.mk [] [4, 5, 6, 5]).lookupLocalBoneIdx 5 = 1 :=
  ⟨by decide,
   ((lookupLocalBoneIdx_least_or_sentinel (Bank.mk [] [4, 5, 6, 5]) 5 (by decide)).1
      (by decide)).1,
   by decide⟩

/-! ## Skin banks: the skin index list -/

/-- C11: for skin indices in range, `addSkins` returns a bank whose `m_skinIdxs` is the
previous list followed by the given skin indices in the given order, nothing dropped,
reordered or deduplicated. -/
theorem addSkins_appends_skinIdxs (parent : Mesh) (bank : Bank) (skinIdxs : List Nat)
    (hvalid : ∀ s ∈ skinIdxs, s < parent.skins.length) :
    ∃ bank1, Bank.addSkins parent bank skinIdxs = some bank1 ∧
      bank1.m_skinIdxs = bank.m_skinIdxs ++ skinIdxs := by
  obtain ⟨bank1, h⟩ := Bank.addSkins_isSome parent skinIdxs bank hvalid
  exact ⟨bank1, h, (Bank.addSkins_some parent skinIdxs bank bank1 h).1⟩

/-- C11 at `sampleBank` and the skin sets 1, 0, 1 of `sampleMesh`: the repeated index
is recorded twice. -/
theorem addSkins_appends_skinIdxs_witness :
    (Bank.addSkins sampleMesh sampleBank [1, 0, 1]).map Bank.m_skinIdxs
      = some ([9] ++ [1, 0, 1]) :=
  match addSkins_appends_skinIdxs sampleMesh sampleBank [1, 0, 1] (by decide) with
  | ⟨_, h, h2⟩ => by rw [h]; exact congrArg some h2

/-! ## Packed index buffer -/

theorem readLE32_packLE32 (v : Nat) (h : v < 2 ^ 32) : readLE32 (packLE32 v) = v := by
  simp only [packLE32, readLE32]
  omega

theorem enumerateLittle_length (l : List Nat) : (enumerateLittle l).length = 4 * l.length := by
  induction l with
  | nil => rfl
  | cons v rest ih =>
    simp only [enumerateLittle, List.map_cons, List.flatten_cons, List.length_append,
      List.length_cons] at ih ⊢
    simp only [packLE32, List.length_cons, List.length_nil]
    omega

theorem enumerateLittle_cons (v : Nat) (rest : List Nat) :
    enumerateLittle (v :: rest) = packLE32 v ++ enumerateLittle rest := by
  simp [enumerateLittle]

theorem readIndexLE_enumerateLittle (l : List Nat) (h32 : ∀ v ∈ l, v < 2 ^ 32) :
    ∀ i, i < l.length → some (readIndexLE (enumerateLittle l) i) = l[i]? := by
  induction l with
  | nil => intro i hi; simp at hi
  | cons v rest ih =>
    intro i hi
    cases i with
    | zero =>
      have hv := readLE32_packLE32 v (h32 v (List.mem_cons_self _ _))
      simp only [readIndexLE, enumerateLittle_cons, Nat.mul_zero, List.drop_zero,
        List.getElem?_cons_zero, Option.some.injEq]
      have : (packLE32 v ++ enumerateLittle rest).take 4 = packLE32 v := by
        simp [packLE32]
      rw [this, hv]
    | succ j =>
      have hj : j < rest.length := by simpa using hi
      have := ih (fun w hw => h32 w (List.mem_cons_of_mem _ hw)) j hj
      simp only [List.getElem?_cons_succ]
      rw [← this]
      simp only [readIndexLE, enumerateLittle_cons, Option.some.injEq]
      have hd : (packLE32 v ++ enumerateLittle rest).drop (4 * (j + 1))
          = (enumerateLittle rest).drop (4 * j) := by
        have h4 : 4 * (j + 1) = (packLE32 v).length + 4 * j := by
          simp [packLE32]; omega
        rw [h4, List.drop_append]
      rw [hd]

/-- C12: for 32-bit indices, the constructor sets `m_iboSz = 4 * count`, the index buffer
is that many bytes long, and the little-endian value of the bytes `4i .. 4i+3` is the
`i`-th index, for every `i`. -/
theorem index_buffer_little_endian_roundtrip (vboSz : Nat) (iboData : List Nat)
    (h32 : ∀ v ∈ iboData, v < 2 ^ 32)
    (hsize : iboData.length * 4 < 2 ^ size_t_bits) :
    (HMDLBuffers.ctor vboSz iboData).m_iboSz = 4 * iboData.length ∧
    (HMDLBuffers.ctor vboSz iboData).m_iboData.length = 4 * iboData.length ∧
    ∀ i, i < iboData.length →
      some (readIndexLE (HMDLBuffers.ctor vboSz iboData).m_iboData i) = iboData[i]? := by
  have hsz : (iboData.length * 4) % 2 ^ size_t_bits = 4 * iboData.length := by
    rw [Nat.mod_eq_of_lt hsize]; omega
  have hdata : (HMDLBuffers.ctor vboSz iboData).m_iboData = enumerateLittle iboData := by
    simp only [HMDLBuffers.ctor, hsz]
    rw [← enumerateLittle_length iboData, List.take_length]
  refine ⟨by simp only [HMDLBuffers.ctor, hsz], ?_, ?_⟩
  · rw [hdata, enumerateLittle_length]
  · rw [hdata]
    exact readIndexLE_enumerateLittle iboData h32

/-- C12 at the indices 1, 258, 4294967295: 12 bytes, and the second value read back is
258. -/
theorem index_buffer_little_endian_roundtrip_witness :
    (HMDLBuffers.ctor 0 [1, 258, 4294967295]).m_iboSz = 12 ∧
    (HMDLBuffers.ctor 0 [1, 258, 4294967295]).m_iboData
      = [1, 0, 0, 0, 2, 1, 0, 0, 255, 255, 255, 255] ∧
    some (readIndexLE (HMDLBuffers.ctor 0 [1, 258, 4294967295]).m_iboData 1)
      = [1, 258, 4294967295][1]? :=
  ⟨(index_buffer_little_endian_roundtrip 0 [1, 258, 4294967295] (by decide) (by decide)).1,
   by decide,
   (index_buffer_little_endian_roundtrip 0 [1, 258, 4294967295] (by decide) (by decide)).2.2
     1 (by decide)⟩

/-! ## Fixed-layout records -/

theorem BlenderConnection._readBuf_enough (c : BlenderConnection) (len : Nat)
    (h : len ≤ c.incoming.length) :
    c._readBuf len
      = Outcome.ok (c.incoming.take len) { c with incoming := c.incoming.drop len } := by
  simp [BlenderConnection._readBuf, h]

theorem BlenderConnection._readBuf_short (c : BlenderConnection) (len : Nat)
    (h : c.incoming.length < len) :
    c._readBuf len = Outcome.fatal "transport error" c := by
  have : ¬ len ≤ c.incoming.length := by omega
  simp [BlenderConnection._readBuf, this]

theorem hostU32_take (bytes : List Char) (n : Nat) (h : 4 ≤ n) :
    hostU32 (bytes.take n) = hostU32 bytes := by
  simp [hostU32, List.take_take, h]

/-- C13: each fixed-layout decode takes exactly its width from the channel, or fails at
the transport when fewer bytes are left: `Vector2f` 8 bytes, `Vector3f` 12, `Vector4f`
16, `Index` 4 (its value the `uint32_t` of these bytes), `SkinBind` 8, of which bytes
0 to 3 are `boneIdx` and bytes 4 to 7 are `weight`. -/
theorem record_decoders_consume_declared_width (c : BlenderConnection) :
    (8 ≤ c.incoming.length →
      Vector2f.read c = Outcome.ok { val := hostWords 2 (c.incoming.take 8) }
        { c with incoming := c.incoming.drop 8 }) ∧
    (c.incoming.length < 8 → Vector2f.read c = Outcome.fatal "transport error" c) ∧
    (12 ≤ c.incoming.length →
      Vector3f.read c = Outcome.ok { val := hostWords 3 (c.incoming.take 12) }
        { c with incoming := c.incoming.drop 12 }) ∧
    (c.incoming.length < 12 → Vector3f.read c = Outcome.fatal "transport error" c) ∧
    (16 ≤ c.incoming.length →
      Vector4f.read c = Outcome.ok { val := hostWords 4 (c.incoming.take 16) }
        { c with incoming := c.incoming.drop 16 }) ∧
    (c.incoming.length < 16 → Vector4f.read c = Outcome.fatal "transport error" c) ∧
    (4 ≤ c.incoming.length →
      Index.read c = Outcome.ok { val := hostU32 c.incoming }
        { c with incoming := c.incoming.drop 4 }) ∧
    (c.incoming.length < 4 → Index.read c = Outcome.fatal "transport error" c) ∧
    (8 ≤ c.incoming.length →
      SkinBind.ctor c
        = Outcome.ok { boneIdx := hostU32 c.incoming, weight := hostU32 (c.incoming.drop 4) }
            { c with incoming := c.incoming.drop 8 }) ∧
    (c.incoming.length < 8 → SkinBind.ctor c = Outcome.fatal "transport error" c) := by
  refine ⟨fun h => ?_, fun h => ?_, fun h => ?_, fun h => ?_, fun h => ?_, fun h => ?_,
    fun h => ?_, fun h => ?_, fun h => ?_, fun h => ?_⟩
  · simp only [Vector2f.read, BlenderConnection._readBuf_enough c 8 h]
  · simp only [Vector2f.read, BlenderConnection._readBuf_short c 8 h]
  · simp only [Vector3f.read, BlenderConnection._readBuf_enough c 12 h]
  · simp only [Vector3f.read, BlenderConnection._readBuf_short c 12 h]
  · simp only [Vector4f.read, BlenderConnection._readBuf_enough c 16 h]
  · simp only [Vector4f.read, BlenderConnection._readBuf_short c 16 h]
  · simp only [Index.read, BlenderConnection._readBuf_enough c 4 h,
      hostU32_take c.incoming 4 (Nat.le_refl 4)]
  · simp only [Index.read, BlenderConnection._readBuf_short c 4 h]
  · have hw : hostU32 ((c.incoming.take 8).drop 4) = hostU32 (c.incoming.drop 4) := by
      simp only [hostU32]
      congr 1
      rw [List.drop_take, List.take_take]
      rfl
    simp only [SkinBind.ctor, BlenderConnection._readBuf_enough c 8 h,
      hostU32_take c.incoming 8 (by omega), hw]
  · simp only [SkinBind.ctor, BlenderConnection._readBuf_short c 8 h]

/-- C13 at a pipe holding the bytes 7 1 0 0, 0 0 128 63 and one more byte: the bind
is bone 263 with the weight bits of 1.0, and the last byte is left in the pipe. -/
theorem record_decoders_consume_declared_width_witness :
    SkinBind.ctor sampleRecordConn
      = Outcome.ok { boneIdx := 263, weight := 1065353216 }
          { sampleRecordConn with incoming := ['x'] } ∧
    Vector3f.read sampleRecordConn = Outcome.fatal "transport error" sampleRecordConn :=
  ⟨((record_decoders_consume_declared_width sampleRecordConn).2.2.2.2.2.2.2.2.1
      (by decide)).trans (by decide),
   (record_decoders_consume_declared_width sampleRecordConn).2.2.2.1 (by decide)⟩

/-! ## Request lines -/

theorem snprintf_of_short (size : Nat) (formatted : String)
    (h : formatted.length ≤ size - 1) : snprintf size formatted = formatted := by
  cases formatted with
  | mk data =>
    simp only [String.length] at h
    simp only [snprintf, List.take_of_length_le h]

theorem formatD_length (k : Int) (hlo : -2 ^ 31 ≤ k) (hhi : k < 2 ^ 31) :
    (formatD k).length ≤ 11 := by
  cases k with
  | ofNat n =>
    have hn : n < 10 ^ 10 := by
      have : (n : Int) < 2 ^ 31 := hhi
      omega
    have := Nat.repr_length n 10 (by decide) hn
    simp only [formatD]
    omega
  | negSucc n =>
    have hn : n + 1 < 10 ^ 10 := by
      have h1 : -2 ^ 31 ≤ Int.negSucc n := hlo
      rw [Int.negSucc_eq] at h1
      omega
    have := Nat.repr_length (n + 1) 10 (by decide) hn
    simp only [formatD, String.length_append]
    have h1 : "-".length = 1 := rfl
    omega

theorem MeshOutputModeString_length (topology : HMDLTopology) :
    (MeshOutputModeString topology).length = 9 := by
  cases topology <;> rfl

theorem c_str_of_no_nul (s : String) (h : ∀ ch ∈ s.data, ch ≠ Char.ofNat 0) :
    c_str s = s := by
  cases s with
  | mk data =>
    simp only [c_str]
    congr 1
    induction data with
    | nil => rfl
    | cons x xs ih =>
      have hx : x ≠ Char.ofNat 0 := h x (List.mem_cons_self _ _)
      simp only [List.takeWhile_cons, bne_iff_ne, ne_eq, hx, not_false_eq_true, if_true]
      congr 1
      exact ih (fun ch hch => h ch (List.mem_cons_of_mem _ hch))

theorem BlenderConnection._readLine_ok_written {c c2 : BlenderConnection} {bufSz : Nat}
    {text : String} (h : c._readLine bufSz = Outcome.ok text c2) :
    c2.written = c.written := by
  unfold BlenderConnection._readLine at h
  cases hs : readLineScan (bufSz - 1) [] c.incoming with
  | none => simp [hs] at h
  | some r =>
    simp only [hs, Outcome.ok.injEq] at h
    rw [← h.2]

theorem BlenderConnection._readLine_fatal {c c2 : BlenderConnection} {bufSz : Nat}
    {msg : String} (h : c._readLine bufSz = Outcome.fatal msg c2) :
    c2 = c ∧ msg = "transport error" := by
  unfold BlenderConnection._readLine at h
  cases hs : readLineScan (bufSz - 1) [] c.incoming with
  | none =>
    simp only [hs, Outcome.fatal.injEq] at h
    exact ⟨h.2.symm, h.1.symm⟩
  | some r => simp [hs] at h

/-! ## The compile request claims -/

/-- C14: for each compile request made with the blend type it requires, once the peer
has answered the request line: when the answer is exactly `OK` the result is that of the
record decoder run on the connection, and for every other answer the request stops at a
fatal report whose message ends with the answer of the peer. -/
theorem compile_decodes_iff_reply_is_OK {Actor : Type} (s : DataStream)
    (meshCtor : BlenderConnection → HMDLTopology → Int → Outcome Mesh)
    (actorCtor : BlenderConnection → Outcome Actor) (c c2 : BlenderConnection)
    (reply name maxOctantText : String) (topology : HMDLTopology) (skinSlotCount : Int) :
    (c.m_loadedType = BlendType.Mesh →
      (c._writeLine (DataStream.compileMeshRequest topology skinSlotCount))._readLine 256
        = Outcome.ok reply c2 →
      (reply = "OK" →
        s.compileMesh meshCtor c topology skinSlotCount
          = meshCtor c2 topology skinSlotCount) ∧
      (reply ≠ "OK" →
        s.compileMesh meshCtor c topology skinSlotCount
          = Outcome.fatal ("unable to cook mesh: " ++ reply) c2)) ∧
    (c.m_loadedType = BlendType.Area →
      (c._writeLine (DataStream.compileMeshNameRequest name topology skinSlotCount))._readLine
          256 = Outcome.ok reply c2 →
      (reply = "OK" →
        s.compileMeshName meshCtor c name topology skinSlotCount
          = meshCtor c2 topology skinSlotCount) ∧
      (reply ≠ "OK" →
        s.compileMeshName meshCtor c name topology skinSlotCount
          = Outcome.fatal ("unable to cook mesh \x27" ++ c_str name ++ "\x27: " ++ reply)
              c2)) ∧
    (c.m_loadedType = BlendType.Area →
      (c._writeLine
          (DataStream.compileAllMeshesRequest topology skinSlotCount maxOctantText))._readLine
          256 = Outcome.ok reply c2 →
      (reply = "OK" →
        s.compileAllMeshes meshCtor c topology skinSlotCount maxOctantText
          = meshCtor c2 topology skinSlotCount) ∧
      (reply ≠ "OK" →
        s.compileAllMeshes meshCtor c topology skinSlotCount maxOctantText
          = Outcome.fatal ("unable to cook all meshes: " ++ reply) c2)) ∧
    (c.m_loadedType = BlendType.Actor →
      (c._writeLine "ACTORCOMPILE")._readLine 256 = Outcome.ok reply c2 →
      (reply = "OK" → s.compileActor actorCtor c = actorCtor c2) ∧
      (reply ≠ "OK" →
        s.compileActor actorCtor c
          = Outcome.fatal ("unable to compile actor: " ++ reply) c2)) := by
  refine ⟨fun hty hr => ⟨fun hok => ?_, fun hne => ?_⟩,
    fun hty hr => ⟨fun hok => ?_, fun hne => ?_⟩,
    fun hty hr => ⟨fun hok => ?_, fun hne => ?_⟩,
    fun hty hr => ⟨fun hok => ?_, fun hne => ?_⟩⟩
  · simp [DataStream.compileMesh, hty, hr, hok]
  · simp [DataStream.compileMesh, hty, hr, hne]
  · simp [DataStream.compileMeshName, hty, hr, hok]
  · simp [DataStream.compileMeshName, hty, hr, hne]
  · simp [DataStream.compileAllMeshes, hty, hr, hok]
  · simp [DataStream.compileAllMeshes, hty, hr, hne]
  · simp [DataStream.compileActor, hty, hr, hok]
  · simp [DataStream.compileActor, hty, hr, hne]

/-- C14 at a MESH blend whose peer answers `no object`: the message carries the
answer. -/
theorem compile_decodes_iff_reply_is_OK_witness :
    DataStream.compileMesh { m_parent := true } emptyMeshCtor meshConnRefused
        HMDLTopology.Triangles 10
      = Outcome.fatal "unable to cook mesh: no object"
          { m_lock := true, m_loadedType := BlendType.Mesh,
            written := [Written.line "DATABEGIN", Written.line "MESHCOMPILE TRIANGLES 10"],
            incoming := [] } :=
  ((compile_decodes_iff_reply_is_OK { m_parent := true } emptyMeshCtor
      (fun c => Outcome.ok () c) meshConnRefused
      { m_lock := true, m_loadedType := BlendType.Mesh,
        written := [Written.line "DATABEGIN", Written.line "MESHCOMPILE TRIANGLES 10"],
        incoming := [] }
      "no object" "" "" HMDLTopology.Triangles 10).1 rfl (by decide)).2 (by decide)

/-- C15: for every topology and every `int` value of `skinSlotCount`, the request line
of `compileMesh` is `MESHCOMPILE`, the mode (`TRIANGLES` or `TRISTRIPS`) and the budget
in decimal, separated by one blank; with the defaults it is `MESHCOMPILE TRIANGLES 10`;
and on a MESH blend `compileMesh` sends exactly this line before it decodes or fails. -/
theorem compileMesh_sends_request_line (s : DataStream)
    (meshCtor : BlenderConnection → HMDLTopology → Int → Outcome Mesh)
    (c : BlenderConnection) (topology : HMDLTopology) (skinSlotCount : Int)
    (hlo : -2 ^ 31 ≤ skinSlotCount) (hhi : skinSlotCount < 2 ^ 31)
    (hty : c.m_loadedType = BlendType.Mesh) :
    DataStream.compileMeshRequest topology skinSlotCount
      = "MESHCOMPILE " ++ MeshOutputModeString topology ++ " " ++ formatD skinSlotCount ∧
    MeshOutputModeString HMDLTopology.Triangles = "TRIANGLES" ∧
    MeshOutputModeString HMDLTopology.TriStrips = "TRISTRIPS" ∧
    DataStream.compileMeshRequest HMDLTopology.Triangles defaultSkinSlotCount
      = "MESHCOMPILE TRIANGLES 10" ∧
    ∃ c2, c2.written = c.written ++ [Written.line
        ("MESHCOMPILE " ++ MeshOutputModeString topology ++ " " ++ formatD skinSlotCount)] ∧
      (s.compileMesh meshCtor c topology skinSlotCount = meshCtor c2 topology skinSlotCount ∨
        ∃ msg, s.compileMesh meshCtor c topology skinSlotCount = Outcome.fatal msg c2) := by
  have hreq : DataStream.compileMeshRequest topology skinSlotCount
      = "MESHCOMPILE " ++ MeshOutputModeString topology ++ " " ++ formatD skinSlotCount := by
    apply snprintf_of_short
    have h1 := formatD_length skinSlotCount hlo hhi
    have h2 := MeshOutputModeString_length topology
    have h3 : "MESHCOMPILE ".length = 12 := rfl
    have h4 : " ".length = 1 := rfl
    simp only [String.length_append, h2, h3, h4]
    omega
  refine ⟨hreq, rfl, rfl, by decide, ?_⟩
  rw [← hreq]
  have hty1 : ¬ c.m_loadedType ≠ BlendType.Mesh := by simp [hty]
  simp only [DataStream.compileMesh, if_neg hty1]
  cases hr : (c._writeLine (DataStream.compileMeshRequest topology skinSlotCount))._readLine
      256 with
  | fatal msg c2 =>
    obtain ⟨h1, _⟩ := BlenderConnection._readLine_fatal hr
    exact ⟨c2, by rw [h1]; rfl, Or.inr ⟨msg, rfl⟩⟩
  | ok reply c2 =>
    have hw := BlenderConnection._readLine_ok_written hr
    refine ⟨c2, by rw [hw]; rfl, ?_⟩
    by_cases hok : reply = "OK"
    · left; simp [hok]
    · right; exact ⟨"unable to cook mesh: " ++ reply, by simp [hok]⟩

/-- C15 at the tri-strip topology and the budget 4. -/
theorem compileMesh_sends_request_line_witness :
    DataStream.compileMeshRequest HMDLTopology.TriStrips 4 = "MESHCOMPILE TRISTRIPS 4" ∧
    DataStream.compileMeshRequest HMDLTopology.Triangles defaultSkinSlotCount
      = "MESHCOMPILE TRIANGLES 10" :=
  ⟨(compileMesh_sends_request_line { m_parent := true } emptyMeshCtor meshConnRefused
      HMDLTopology.TriStrips 4 (by decide) (by decide) rfl).1.trans (by decide),
   (compileMesh_sends_request_line { m_parent := true } emptyMeshCtor meshConnRefused
      HMDLTopology.TriStrips 4 (by decide) (by decide) rfl).2.2.2.1⟩

/-- C16 as stated fails: for a mesh name of 120 characters the line sent is cut after
127 characters; it holds `MESHCOMPILENAME` and the first 111 characters of the name,
neither the complete name nor the mode nor the budget. -/
theorem long_name_request_is_cut :
    DataStream.compileMeshNameRequest longMeshName HMDLTopology.Triangles 10
      = String.mk ("MESHCOMPILENAME ".data ++ List.replicate 111 'a') ∧
    DataStream.compileMeshNameRequest longMeshName HMDLTopology.Triangles 10
      ≠ "MESHCOMPILENAME " ++ longMeshName ++ " TRIANGLES 10" ∧
    (DataStream.compileMeshName { m_parent := true } emptyMeshCtor areaConnAccepted
        longMeshName HMDLTopology.Triangles 10).conn.written
      = [Written.line "DATABEGIN",
         Written.line (String.mk ("MESHCOMPILENAME ".data ++ List.replicate 111 'a'))] := by
  decide

/-- C16 amended: for every name without NUL, every topology and budget, the request line
of `compileMesh(name, ...)` is the first 127 characters of the text made of
`MESHCOMPILENAME`, the name, the mode and the budget in decimal, separated by one blank,
and on an AREA blend exactly this line is sent before the stream is decoded or the
request fails; when the text has at most 127 characters the line is the complete text,
which is the case for every `int` budget and every name of at most 89 characters. -/
theorem compileMeshName_sends_request_line (s : DataStream)
    (meshCtor : BlenderConnection → HMDLTopology → Int → Outcome Mesh)
    (c : BlenderConnection) (name : String) (topology : HMDLTopology) (skinSlotCount : Int)
    (hnul : ∀ ch ∈ name.data, ch ≠ Char.ofNat 0)
    (hty : c.m_loadedType = BlendType.Area) :
    DataStream.compileMeshNameRequest name topology skinSlotCount
      = String.mk (("MESHCOMPILENAME " ++ name ++ " " ++ MeshOutputModeString topology ++ " "
          ++ formatD skinSlotCount).data.take 127) ∧
    (("MESHCOMPILENAME " ++ name ++ " " ++ MeshOutputModeString topology ++ " "
        ++ formatD skinSlotCount).length ≤ 127 →
      DataStream.compileMeshNameRequest name topology skinSlotCount
        = "MESHCOMPILENAME " ++ name ++ " " ++ MeshOutputModeString topology ++ " "
            ++ formatD skinSlotCount) ∧
    (name.length ≤ 89 → -2 ^ 31 ≤ skinSlotCount → skinSlotCount < 2 ^ 31 →
      DataStream.compileMeshNameRequest name topology skinSlotCount
        = "MESHCOMPILENAME " ++ name ++ " " ++ MeshOutputModeString topology ++ " "
            ++ formatD skinSlotCount) ∧
    ∃ c2, c2.written = c.written ++ [Written.line
        (String.mk (("MESHCOMPILENAME " ++ name ++ " " ++ MeshOutputModeString topology
          ++ " " ++ formatD skinSlotCount).data.take 127))] ∧
      (s.compileMeshName meshCtor c name topology skinSlotCount
          = meshCtor c2 topology skinSlotCount ∨
        ∃ msg, s.compileMeshName meshCtor c name topology skinSlotCount
          = Outcome.fatal msg c2) := by
  have hreq : DataStream.compileMeshNameRequest name topology skinSlotCount
      = String.mk (("MESHCOMPILENAME " ++ name ++ " " ++ MeshOutputModeString topology ++ " "
          ++ formatD skinSlotCount).data.take 127) := by
    simp only [DataStream.compileMeshNameRequest, c_str_of_no_nul name hnul]
    rfl
  have hfull : ("MESHCOMPILENAME " ++ name ++ " " ++ MeshOutputModeString topology ++ " "
        ++ formatD skinSlotCount).length ≤ 127 →
      DataStream.compileMeshNameRequest name topology skinSlotCount
        = "MESHCOMPILENAME " ++ name ++ " " ++ MeshOutputModeString topology ++ " "
            ++ formatD skinSlotCount := by
    intro hlen
    simp only [DataStream.compileMeshNameRequest, c_str_of_no_nul name hnul]
    exact snprintf_of_short 128 _ hlen
  refine ⟨hreq, hfull, ?_, ?_⟩
  · intro hname hlo hhi
    apply hfull
    have h1 := formatD_length skinSlotCount hlo hhi
    have h2 := MeshOutputModeString_length topology
    have h3 : "MESHCOMPILENAME ".length = 16 := rfl
    have h4 : " ".length = 1 := rfl
    simp only [String.length_append, h2, h3, h4]
    omega
  · rw [← hreq]
    have hty1 : ¬ c.m_loadedType ≠ BlendType.Area := by simp [hty]
    simp only [DataStream.compileMeshName, if_neg hty1]
    cases hr : (c._writeLine
        (DataStream.compileMeshNameRequest name topology skinSlotCount))._readLine 256 with
    | fatal msg c2 =>
      obtain ⟨h1, _⟩ := BlenderConnection._readLine_fatal hr
      exact ⟨c2, by rw [h1]; rfl, Or.inr ⟨msg, rfl⟩⟩
    | ok reply c2 =>
      have hw := BlenderConnection._readLine_ok_written hr
      refine ⟨c2, by rw [hw]; rfl, ?_⟩
      by_cases hok : reply = "OK"
      · left; simp [hok]
      · right
        exact ⟨"unable to cook mesh \x27" ++ c_str name ++ "\x27: " ++ reply, by simp [hok]⟩

/-- C16 amended, at the name `Cube`, whose line is complete, and at a name of 120
characters, whose line is cut. -/
theorem compileMeshName_sends_request_line_witness :
    DataStream.compileMeshNameRequest "Cube" HMDLTopology.TriStrips 10
      = "MESHCOMPILENAME Cube TRISTRIPS 10" ∧
    DataStream.compileMeshNameRequest longMeshName HMDLTopology.Triangles 10
      = String.mk ("MESHCOMPILENAME ".data ++ List.replicate 111 'a') :=
  ⟨((compileMeshName_sends_request_line { m_parent := true } emptyMeshCtor areaConnAccepted
      "Cube" HMDLTopology.TriStrips 10 (by decide) rfl).2.1 (by decide)).trans (by decide),
   (compileMeshName_sends_request_line { m_parent := true } emptyMeshCtor areaConnAccepted
      longMeshName HMDLTopology.Triangles 10 (by decide) rfl).1.trans (by decide)⟩

/-! ## Mesh list -/

theorem readLineScan_line (text : List Char) (hterm : ∀ ch ∈ text, isTerminator ch = false) :
    ∀ (budget : Nat) (acc rest : List Char), text.length < budget →
      readLineScan budget acc (text ++ '\n' :: rest) = some (acc.reverse ++ text, rest) := by
  induction text with
  | nil =>
    intro budget acc rest hb
    cases budget with
    | zero => omega
    | succ n => simp [readLineScan, isTerminator]
  | cons x xs ih =>
    intro budget acc rest hb
    cases budget with
    | zero => omega
    | succ n =>
      have hx : isTerminator x = false := hterm x (List.mem_cons_self _ _)
      have hlen : xs.length < n := by simpa using hb
      have := ih (fun ch hch => hterm ch (List.mem_cons_of_mem _ hch)) n (x :: acc) rest hlen
      simp only [List.cons_append, readLineScan, hx, Bool.false_eq_true, if_false]
      simpa using this

theorem BlenderConnection._readLine_line (c : BlenderConnection) (name : String)
    (rest : List Char) (bufSz : Nat) (hlen : name.length + 1 < bufSz)
    (hterm : ∀ ch ∈ name.data, isTerminator ch = false)
    (hin : c.incoming = name.data ++ '\n' :: rest) :
    c._readLine bufSz = Outcome.ok name { c with incoming := rest } := by
  have hb : name.data.length < bufSz - 1 := by
    have : name.length = name.data.length := rfl
    omega
  simp only [BlenderConnection._readLine, hin,
    readLineScan_line name.data hterm (bufSz - 1) [] rest hb, List.reverse_nil,
    List.nil_append]

theorem DataStream.readNames_lines (names : List String)
    (hnames : ∀ nm ∈ names, nm.length ≤ 126 ∧ ∀ ch ∈ nm.data, isTerminator ch = false) :
    ∀ (c : BlenderConnection) (retval : List String) (rest : List Char),
      c.incoming = (names.map (fun nm => nm.data ++ ['\n'])).flatten ++ rest →
      DataStream.readNames names.length c retval
        = Outcome.ok (retval ++ names) { c with incoming := rest } := by
  induction names with
  | nil =>
    intro c retval rest hin
    simp only [List.map_nil, List.flatten_nil, List.nil_append] at hin
    simp only [List.length_nil, DataStream.readNames, List.append_nil]
    rw [← hin]
  | cons nm rest1 ih =>
    intro c retval rest hin
    obtain ⟨hlen, hterm⟩ := hnames nm (List.mem_cons_self _ _)
    have hin1 : c.incoming
        = nm.data ++ '\n' :: ((rest1.map (fun nm => nm.data ++ ['\n'])).flatten ++ rest) := by
      rw [hin]; simp
    have hread := BlenderConnection._readLine_line c nm _ 128 (by omega) hterm hin1
    simp only [List.length_cons, DataStream.readNames, hread]
    rw [ih (fun n hn => hnames n (List.mem_cons_of_mem _ hn)) _ (retval ++ [nm]) rest rfl]
    simp

theorem DataStream.readNames_ok (count : Nat) :
    ∀ (c c1 : BlenderConnection) (retval names : List String),
      DataStream.readNames count c retval = Outcome.ok names c1 →
      names.length = retval.length + count ∧ c1.written = c.written := by
  induction count with
  | zero =>
    intro c c1 retval names h
    simp only [DataStream.readNames, Outcome.ok.injEq] at h
    rw [← h.1, ← h.2]; simp
  | succ n ih =>
    intro c c1 retval names h
    simp only [DataStream.readNames] at h
    cases hr : c._readLine 128 with
    | fatal msg c2 => simp [hr] at h
    | ok name c2 =>
      simp only [hr] at h
      obtain ⟨h1, h2⟩ := ih c2 c1 _ names h
      rw [h1, h2, BlenderConnection._readLine_ok_written hr]
      simp only [List.length_append, List.length_singleton]
      exact ⟨by omega, trivial⟩

/-- C17: `getMeshList` sends the line `MESHLIST` and reads the 32-bit count; every list
it returns has exactly that many names; and when the peer sends the 4 count bytes and
then that many newline-terminated names (without terminator bytes inside, at most 126
bytes long so that a read of 128 takes the whole line) and `reserve` returns, it returns
these names in the order received and leaves what follows in the pipe. -/
theorem getMeshList_returns_names_in_order (s : DataStream) (granted : Nat → Bool)
    (c : BlenderConnection) :
    (∀ names c1, s.getMeshList granted c = Outcome.ok names c1 →
      names.length = hostU32 c.incoming ∧
      c1.written = c.written ++ [Written.line "MESHLIST"]) ∧
    (∀ (count : List Char) (names : List String) (rest : List Char),
      count.length = 4 → hostU32 count = names.length →
      (∀ nm ∈ names, nm.length ≤ 126 ∧ ∀ ch ∈ nm.data, isTerminator ch = false) →
      c.incoming = count ++ (names.map (fun nm => nm.data ++ ['\n'])).flatten ++ rest →
      reserveReturns granted names.length = true →
      s.getMeshList granted c
        = Outcome.ok names
            { c with written := c.written ++ [Written.line "MESHLIST"], incoming := rest }) := by
  constructor
  · intro names c1 h
    simp only [DataStream.getMeshList, BlenderConnection._writeLine] at h
    by_cases h4 : 4 ≤ c.incoming.length
    · simp only [BlenderConnection._readBuf, h4, if_true] at h
      by_cases hres : reserveReturns granted (hostU32 (List.take 4 c.incoming)) = true
      · rw [if_pos hres] at h
        obtain ⟨h1, h2⟩ := DataStream.readNames_ok _ _ _ _ _ h
        rw [h1, h2, hostU32_take c.incoming 4 (Nat.le_refl 4)]
        simp
      · rw [if_neg hres] at h
        simp at h
    · simp [BlenderConnection._readBuf, h4] at h
  · intro count names rest hc hn hnames hin hres
    have h4 : 4 ≤ c.incoming.length := by rw [hin]; simp [hc]
    have htake : c.incoming.take 4 = count := by
      rw [hin, List.append_assoc, List.take_append_of_le_length (by omega)]
      exact List.take_of_length_le (by omega)
    have hdrop : c.incoming.drop 4
        = (names.map (fun nm => nm.data ++ ['\n'])).flatten ++ rest := by
      rw [hin, List.append_assoc, ← hc, List.drop_left]
    simp only [DataStream.getMeshList, BlenderConnection._writeLine,
      BlenderConnection._readBuf, h4, if_true, htake, hn, hres]
    rw [DataStream.readNames_lines names hnames _ [] rest hdrop]
    simp

/-- C17 at a peer that declares 2 names and sends `Cube` and `Sphere`. -/
theorem getMeshList_returns_names_in_order_witness :
    DataStream.getMeshList { m_parent := true } grantsUpTo16M twoNamesConn
      = Outcome.ok ["Cube", "Sphere"]
          { twoNamesConn with written := twoNamesConn.written ++ [Written.line "MESHLIST"],
                              incoming := ['x'] } :=
  (getMeshList_returns_names_in_order { m_parent := true } grantsUpTo16M twoNamesConn).2
    [Char.ofNat 2, Char.ofNat 0, Char.ofNat 0, Char.ofNat 0] ["Cube", "Sphere"] ['x']
    rfl (by decide) (by decide) (by decide) (by decide)

/-- C19 as stated fails: the peer answers `DATABEGIN` with `ERR bad state`, and the
failed open reports `unable to open DataStream with blender`, which does not contain
the answer of the peer. -/
theorem failed_open_message_omits_reply :
    freshConnErrReply.nextLine 16 = some "ERR bad state" ∧
    DataStream.ctor freshConnErrReply
      = Outcome.fatal "unable to open DataStream with blender"
          { m_lock := true, m_loadedType := BlendType.Mesh,
            written := [Written.line "DATABEGIN"], incoming := [] } ∧
    ¬ ("ERR bad state".data <:+: "unable to open DataStream with blender".data) := by
  decide

/-- C19 amended: when the peer answers the `DATABEGIN` request with a line other than
`READY`, the failed open reports the fixed message `unable to open DataStream with
blender`, whatever the peer sent; the answer is read and not reported. -/
theorem failed_open_message_is_fixed (c c3 : BlenderConnection) (reply : String)
    (hr : (({ c with m_lock := true } : BlenderConnection)._writeLine "DATABEGIN")._readLine 16
      = Outcome.ok reply c3)
    (hne : reply ≠ "READY") :
    DataStream.ctor c = Outcome.fatal "unable to open DataStream with blender" c3 ∧
    c3.written = c.written ++ [Written.line "DATABEGIN"] := by
  constructor
  · simp [DataStream.ctor, hr, hne]
  · rw [BlenderConnection._readLine_ok_written hr]
    rfl

/-- C19 amended, at a peer that answers `ERR bad state`. -/
theorem failed_open_message_is_fixed_witness :
    DataStream.ctor freshConnErrReply
      = Outcome.fatal "unable to open DataStream with blender"
          { m_lock := true, m_loadedType := BlendType.Mesh,
            written := [Written.line "DATABEGIN"], incoming := [] } :=
  (failed_open_message_is_fixed freshConnErrReply
    { m_lock := true, m_loadedType := BlendType.Mesh,
      written := [Written.line "DATABEGIN"], incoming := [] }
    "ERR bad state" (by decide) (by decide)).1

/-! ## Vertex deduplication -/

theorem Surface.addVert_spec (verts : List Vert) (v : Vert) :
    (∃ ext, (Surface.addVert verts v).1 = verts ++ ext) ∧
    (∃ w ∈ (Surface.addVert verts v).1, w.operator_eq v = true) ∧
    (Surface.addVert verts v).2
      = (Surface.addVert verts v).1.findIdx (fun w => w.operator_eq v) ∧
    (verts.Pairwise (fun x y => x.operator_eq y = false) →
      (Surface.addVert verts v).1.Pairwise (fun x y => x.operator_eq y = false)) := by
  unfold Surface.addVert
  by_cases h : verts.findIdx (fun w => w.operator_eq v) < verts.length
  · simp only [h, if_true]
    exact ⟨⟨[], by simp⟩, List.findIdx_lt_length.mp h, trivial, fun hp => hp⟩
  · simp only [h, if_false]
    have hnone : ∀ w ∈ verts, w.operator_eq v = false := by
      intro w hw
      cases hwv : w.operator_eq v with
      | false => rfl
      | true => exact absurd (List.findIdx_lt_length.mpr ⟨w, hw, hwv⟩) h
    refine ⟨⟨[v], rfl⟩, ⟨v, by simp, Vert.operator_eq_refl v⟩, ?_, fun hp => ?_⟩
    · rw [List.findIdx_append, if_neg h]
      simp [List.findIdx_cons, Vert.operator_eq_refl]
    · rw [List.pairwise_append]
      refine ⟨hp, List.pairwise_singleton _ _, ?_⟩
      intro x hx y hy
      simp only [List.mem_singleton] at hy
      subst hy
      exact hnone x hx

theorem Surface.dedupFrom_spec (corners : List Vert) : ∀ verts : List Vert,
    (∃ ext, (Surface.dedupFrom verts corners).1 = verts ++ ext) ∧
    (Surface.dedupFrom verts corners).2
      = corners.map (fun v =>
          (Surface.dedupFrom verts corners).1.findIdx (fun w => w.operator_eq v)) ∧
    (∀ v ∈ corners, ∃ w ∈ (Surface.dedupFrom verts corners).1, w.operator_eq v = true) ∧
    (verts.Pairwise (fun x y => x.operator_eq y = false) →
      (Surface.dedupFrom verts corners).1.Pairwise (fun x y => x.operator_eq y = false)) := by
  induction corners with
  | nil =>
    intro verts
    exact ⟨⟨[], by simp [Surface.dedupFrom]⟩, rfl, by simp, fun hp => hp⟩
  | cons v rest ih =>
    intro verts
    obtain ⟨⟨e1, he1⟩, ⟨w, hw, hwv⟩, hidx, hpw⟩ := Surface.addVert_spec verts v
    obtain ⟨⟨e2, he2⟩, hmap, hrep, hpw2⟩ := ih (Surface.addVert verts v).1
    simp only [Surface.dedupFrom]
    have hfind : (Surface.dedupFrom (Surface.addVert verts v).1 rest).1.findIdx
        (fun w => w.operator_eq v) = (Surface.addVert verts v).2 := by
      rw [he2, List.findIdx_append,
        if_pos (List.findIdx_lt_length.mpr ⟨w, hw, hwv⟩), ← hidx]
    refine ⟨⟨e1 ++ e2, by rw [he2, he1, List.append_assoc]⟩, ?_, ?_, fun hp => hpw2 (hpw hp)⟩
    · rw [List.map_cons, hfind, ← hmap]
    · intro u hu
      rcases List.mem_cons.mp hu with e | e
      · subst e
        exact ⟨w, by rw [he2]; exact List.mem_append_left _ hw, hwv⟩
      · exact hrep u e

/-- C20: the deduplication of the corners of a surface gives every corner an index; each
index is smaller than the number of Verts of the table, the Vert at that index compares
equal to the corner, the table holds no two Verts that compare equal, and two corners
that compare equal under `Vert::operator==` get the same index. -/
theorem dedup_indices_valid_and_shared (corners : List Vert) :
    (Surface.dedup corners).2.length = corners.length ∧
    (∀ i ∈ (Surface.dedup corners).2, i < (Surface.dedup corners).1.length) ∧
    (∀ (m : Nat) (a : Vert), corners[m]? = some a →
      ∃ i w, (Surface.dedup corners).2[m]? = some i ∧
        (Surface.dedup corners).1[i]? = some w ∧ w.operator_eq a = true) ∧
    (Surface.dedup corners).1.Pairwise (fun x y => x.operator_eq y = false) ∧
    (∀ (m n : Nat) (a b : Vert), corners[m]? = some a → corners[n]? = some b →
      a.operator_eq b = true →
      (Surface.dedup corners).2[m]? = (Surface.dedup corners).2[n]?) := by
  obtain ⟨_, hmap, hrep, hpw⟩ := Surface.dedupFrom_spec corners []
  have hmap1 : (Surface.dedup corners).2
      = corners.map (fun v => (Surface.dedup corners).1.findIdx (fun w => w.operator_eq v)) :=
    hmap
  refine ⟨by rw [hmap1, List.length_map], ?_, ?_, hpw List.Pairwise.nil, ?_⟩
  · intro i hi
    rw [hmap1] at hi
    obtain ⟨v, hv, rfl⟩ := List.mem_map.mp hi
    exact List.findIdx_lt_length.mpr (hrep v hv)
  · intro m a hm
    have hlt := List.findIdx_lt_length.mpr (hrep a (List.getElem?_mem hm))
    refine ⟨_, _, by rw [hmap1, List.getElem?_map, hm]; rfl,
      List.getElem?_eq_getElem hlt, ?_⟩
    exact List.findIdx_getElem (p := fun (w : Vert) => w.operator_eq a)
  · intro m n a b hm hn hab
    rw [hmap1, List.getElem?_map, List.getElem?_map, hm, hn]
    simp only [Option.map, Option.some.injEq]
    congr 1
    funext w
    exact Vert.operator_eq_congr hab w

/-- C20 at `sampleCorners`: 3 Verts in the table, the third corner shares the index of
the first, the fifth that of the second. -/
theorem dedup_indices_valid_and_shared_witness :
    (Surface.dedup sampleCorners).2 = [0, 1, 0, 2, 1] ∧
    (Surface.dedup sampleCorners).1.length = 3 ∧
    (Surface.dedup sampleCorners).2[0]? = (Surface.dedup sampleCorners).2[2]? :=
  ⟨by decide, by decide,
   (dedup_indices_valid_and_shared sampleCorners).2.2.2.2 0 2 (sampleVert 1)
     { sampleVert 1 with iBankSkin := 9 } rfl rfl (by decide)⟩

/-! ## Blend type checks and repeated close -/

/-- C21: each compile request made with another blend type loaded than the one it
requires (MESH for `compileMesh(topology)`, AREA for `compileMesh(name, ...)` and
`compileAllMeshes`, ACTOR for `compileActor`) stops at the fatal report naming the
required type, with the connection unchanged: no request line is sent. -/
theorem compile_rejects_other_blend_type {Actor : Type} (s : DataStream)
    (meshCtor : BlenderConnection → HMDLTopology → Int → Outcome Mesh)
    (actorCtor : BlenderConnection → Outcome Actor) (c : BlenderConnection)
    (name maxOctantText : String) (topology : HMDLTopology) (skinSlotCount : Int) :
    (c.m_loadedType ≠ BlendType.Mesh →
      s.compileMesh meshCtor c topology skinSlotCount
        = Outcome.fatal (c.m_loadedBlend ++ " is not a MESH blend") c) ∧
    (c.m_loadedType ≠ BlendType.Area →
      s.compileMeshName meshCtor c name topology skinSlotCount
        = Outcome.fatal (c.m_loadedBlend ++ " is not an AREA blend") c) ∧
    (c.m_loadedType ≠ BlendType.Area →
      s.compileAllMeshes meshCtor c topology skinSlotCount maxOctantText
        = Outcome.fatal (c.m_loadedBlend ++ " is not an AREA blend") c) ∧
    (c.m_loadedType ≠ BlendType.Actor →
      s.compileActor actorCtor c
        = Outcome.fatal (c.m_loadedBlend ++ " is not an ACTOR blend") c) := by
  refine ⟨fun h => ?_, fun h => ?_, fun h => ?_, fun h => ?_⟩
  · simp [DataStream.compileMesh, h]
  · simp [DataStream.compileMeshName, h]
  · simp [DataStream.compileAllMeshes, h]
  · simp [DataStream.compileActor, h]

/-- C21 at an AREA blend: `compileMesh(topology)` and `compileActor` are refused and
nothing is written. -/
theorem compile_rejects_other_blend_type_witness :
    DataStream.compileMesh { m_parent := true } emptyMeshCtor areaConnAccepted
        HMDLTopology.Triangles 10
      = Outcome.fatal (areaConnAccepted.m_loadedBlend ++ " is not a MESH blend")
          areaConnAccepted ∧
    DataStream.compileActor { m_parent := true } (fun c => Outcome.ok () c) areaConnAccepted
      = Outcome.fatal (areaConnAccepted.m_loadedBlend ++ " is not an ACTOR blend")
          areaConnAccepted :=
  ⟨(compile_rejects_other_blend_type { m_parent := true } emptyMeshCtor
      (fun c => Outcome.ok () c) areaConnAccepted "" "" HMDLTopology.Triangles 10).1
      (by decide),
   (compile_rejects_other_blend_type { m_parent := true } emptyMeshCtor
      (fun c => Outcome.ok () c) areaConnAccepted "" "" HMDLTopology.Triangles 10).2.2.2
      (by decide)⟩

/-- C23 at its failing input: a data stream is opened and closed and a second one is
opened (lock set, three lines written); `close()` on the first object again sends a
second `DATAEND` and clears the lock.  Without a stream opened in between, and on a
moved-from stream, `close()` does nothing. -/
theorem repeated_close_after_reopen_sends_end_token :
    ((Session.fresh BlendType.Mesh staleCloseReplies).run
        [Call.beginData, Call.close 0, Call.beginData]).map
        (fun s => (s.streams.map StreamObj.closeCalled, s.conn.m_lock, s.conn.written))
      = some ([true, false], true,
          [Written.line "DATABEGIN", Written.line "DATAEND", Written.line "DATABEGIN"]) ∧
    ((Session.fresh BlendType.Mesh staleCloseReplies).run
        [Call.beginData, Call.close 0, Call.beginData, Call.close 0]).map
        (fun s => (s.conn.m_lock, s.conn.written))
      = some (false,
          [Written.line "DATABEGIN", Written.line "DATAEND", Written.line "DATABEGIN",
           Written.line "DATAEND"]) ∧
    ((Session.fresh BlendType.Mesh staleCloseReplies).run
        [Call.beginData, Call.close 0, Call.close 0]).map
        (fun s => (s.conn.m_lock, s.conn.written))
      = some (false, [Written.line "DATABEGIN", Written.line "DATAEND"]) ∧
    DataStream.close { m_parent := false } lockedConnGoodReply
      = Outcome.ok () lockedConnGoodReply := by
  decide

/-- C24: `Vert::operator==` is reflexive, symmetric and transitive. -/
theorem vert_operator_eq_equivalence (a b c : Vert) :
    a.operator_eq a = true ∧
    (a.operator_eq b = true → b.operator_eq a = true) ∧
    (a.operator_eq b = true → b.operator_eq c = true → a.operator_eq c = true) := by
  refine ⟨Vert.operator_eq_refl a, fun hab => ?_, fun hab hbc => ?_⟩
  · rw [Vert.operator_eq_congr hab b]
    exact Vert.operator_eq_refl b
  · rw [← Vert.operator_eq_congr hbc a]
    exact hab

/-- C24 at three corners that differ only in `iBankSkin`. -/
theorem vert_operator_eq_equivalence_witness :
    Vert.operator_eq { sampleVert 1 with iBankSkin := 9 } (sampleVert 1) = true ∧
    Vert.operator_eq (sampleVert 1) { sampleVert 1 with iBankSkin := 5 } = true :=
  ⟨(vert_operator_eq_equivalence (sampleVert 1) { sampleVert 1 with iBankSkin := 9 }
      (sampleVert 1)).2.1 (by decide),
   (vert_operator_eq_equivalence (sampleVert 1) { sampleVert 1 with iBankSkin := 9 }
      { sampleVert 1 with iBankSkin := 5 }).2.2 (by decide) (by decide)⟩

/-! ## Path utilities -/

/-- C26: `IsPathYAML` is false when the last component is `!catalog.yaml`,
`!memoryid.yaml` or `!memoryrelays.yaml`; for every other path it is true exactly when
the extension of the last component is `yaml` or `yml`, and so false when the
extension is empty. -/
theorem IsPathYAML_iff (path : ProjectPathView) :
    (path.lastComponent = "!catalog.yaml" ∨ path.lastComponent = "!memoryid.yaml"
        ∨ path.lastComponent = "!memoryrelays.yaml" → IsPathYAML path = false) ∧
    (¬ (path.lastComponent = "!catalog.yaml" ∨ path.lastComponent = "!memoryid.yaml"
        ∨ path.lastComponent = "!memoryrelays.yaml") →
      (IsPathYAML path = true ↔
        path.lastComponentExt = "yaml" ∨ path.lastComponentExt = "yml")) ∧
    (path.lastComponentExt = "" → IsPathYAML path = false) := by
  refine ⟨fun h => ?_, fun h => ?_, fun h => ?_⟩
  · simp only [IsPathYAML, h, if_true]
  · simp only [IsPathYAML, h, if_false]
    by_cases he : path.lastComponentExt.data.isEmpty = true
    · have hempty : path.lastComponentExt = "" := by
        cases hx : path.lastComponentExt with
        | mk data =>
          rw [hx] at he
          cases data with
          | nil => rfl
          | cons x xs => simp at he
      simp only [he, if_true, hempty]
      decide
    · simp only [he, if_false]
      simp
  · by_cases hs : path.lastComponent = "!catalog.yaml" ∨ path.lastComponent = "!memoryid.yaml"
        ∨ path.lastComponent = "!memoryrelays.yaml"
    · simp only [IsPathYAML, hs, if_true]
    · simp only [IsPathYAML, hs, if_false, h]
      rfl

/-- C26 at `!catalog.yaml`, `a.yml` and `a.YAML`. -/
theorem IsPathYAML_iff_witness :
    IsPathYAML { lastComponent := "!catalog.yaml", lastComponentExt := "yaml" } = false ∧
    IsPathYAML { lastComponent := "a.yml", lastComponentExt := "yml" } = true ∧
    IsPathYAML { lastComponent := "a.YAML", lastComponentExt := "YAML" } = false :=
  ⟨(IsPathYAML_iff { lastComponent := "!catalog.yaml", lastComponentExt := "yaml" }).1
      (Or.inl rfl),
   ((IsPathYAML_iff { lastComponent := "a.yml", lastComponentExt := "yml" }).2.1
      (by decide)).mpr (Or.inr rfl),
   by decide⟩

/-! ## Script stream output -/

theorem isTerminator_false_iff (a : Char) :
    isTerminator a = false ↔ (a ≠ '\n' ∧ a ≠ Char.ofNat 0) := by
  simp [isTerminator]

/-- A character that is no terminator is appended to the line buffer; nothing is
sent. -/
theorem PyOutStream.overflow_char (deleteBlend : BlenderConnection → BlenderConnection)
    (s : PyOutStream) (c : BlenderConnection) (a : Char)
    (hp : s.m_parent = true) (hl : c.m_lock = true) (ha : isTerminator a = false) :
    s.overflow deleteBlend c (some a)
      = Outcome.ok { s with m_lineBuf := s.m_lineBuf.push a } c := by
  have h := (isTerminator_false_iff a).mp ha
  simp [PyOutStream.overflow, hp, hl, h]

/-- A terminator sends the line buffer as one line and reads the answer. -/
theorem PyOutStream.overflow_flush (deleteBlend : BlenderConnection → BlenderConnection)
    (s : PyOutStream) (c : BlenderConnection) (ch : Option Char)
    (hp : s.m_parent = true) (hl : c.m_lock = true) (hch : isFlushChar ch = true) :
    s.overflow deleteBlend c ch
      = match (c._writeLine (c_str s.m_lineBuf))._readLine 16 with
        | .fatal msg c2 => Outcome.fatal msg c2
        | .ok readBuf c2 =>
          if readBuf ≠ "OK" then
            Outcome.fatal ("error sending \x27" ++ c_str s.m_lineBuf ++ "\x27 to blender")
              (if s.m_deleteOnError then deleteBlend c2 else c2)
          else
            Outcome.ok { s with m_lineBuf := "" } c2 := by
  cases ch with
  | none => simp [PyOutStream.overflow, hp, hl]
  | some a =>
    have ha : isTerminator a = true := hch
    have hn : ¬ (a ≠ '\n' ∧ a ≠ Char.ofNat 0) := by
      intro h
      rw [(isTerminator_false_iff a).mpr h] at ha
      simp at ha
    simp only [PyOutStream.overflow, hp, hl, Bool.not_true, Bool.or_self, Bool.false_eq_true,
      if_false, if_neg hn]

theorem String.push_data_no_nul (buf : String) (a : Char)
    (hbuf : ∀ ch ∈ buf.data, ch ≠ Char.ofNat 0) (ha : isTerminator a = false) :
    (buf.push a).data = buf.data ++ [a] ∧ ∀ ch ∈ (buf.push a).data, ch ≠ Char.ofNat 0 := by
  have hd : (buf.push a).data = buf.data ++ [a] := rfl
  refine ⟨hd, ?_⟩
  intro ch hch
  rw [hd, List.mem_append, List.mem_singleton] at hch
  rcases hch with e | e
  · exact hbuf ch e
  · rw [e]; exact ((isTerminator_false_iff a).mp ha).2

/-- Every normal return of a write has sent the completed lines and keeps the pending
characters in the line buffer. -/
theorem PyOutStream.write_ok (deleteBlend : BlenderConnection → BlenderConnection)
    (chars : List (Option Char)) : ∀ (s s1 : PyOutStream) (c c1 : BlenderConnection),
    (∀ ch ∈ s.m_lineBuf.data, ch ≠ Char.ofNat 0) →
    PyOutStream.write deleteBlend s c chars = Outcome.ok s1 c1 →
    c1.written = c.written ++ (completedLines s.m_lineBuf.data chars).map Written.line ∧
    s1.m_lineBuf.data = pendingChars s.m_lineBuf.data chars := by
  induction chars with
  | nil =>
    intro s s1 c c1 _ h
    simp only [PyOutStream.write, Outcome.ok.injEq] at h
    rw [← h.1, ← h.2]
    simp [completedLines, pendingChars]
  | cons ch rest ih =>
    intro s s1 c c1 hbuf h
    simp only [PyOutStream.write] at h
    cases ho : s.overflow deleteBlend c ch with
    | fatal msg c2 => simp [ho] at h
    | ok s2 c2 =>
      simp only [ho] at h
      have hopen : s.m_parent = true ∧ c.m_lock = true := by
        by_cases hx : (!s.m_parent || !c.m_lock) = true
        · simp [PyOutStream.overflow, hx] at ho
        · simpa using hx
      obtain ⟨hp, hl⟩ := hopen
      by_cases hf : isFlushChar ch = true
      · rw [PyOutStream.overflow_flush deleteBlend s c ch hp hl hf,
          c_str_of_no_nul s.m_lineBuf hbuf] at ho
        cases hr : (c._writeLine s.m_lineBuf)._readLine 16 with
        | fatal msg c3 => simp [hr] at ho
        | ok readBuf c3 =>
          simp only [hr] at ho
          by_cases hok : readBuf = "OK"
          · simp only [hok, ne_eq, not_true_eq_false, if_false, Outcome.ok.injEq] at ho
            obtain ⟨hs2, hc2⟩ := ho
            have hw : c2.written = c.written ++ [Written.line s.m_lineBuf] := by
              rw [← hc2, BlenderConnection._readLine_ok_written hr, BlenderConnection._writeLine]
            have hb2 : s2.m_lineBuf.data = [] := by rw [← hs2]
            obtain ⟨h1, h2⟩ := ih s2 s1 c2 c1 (by rw [hb2]; simp) h
            have hcl : completedLines s.m_lineBuf.data (ch :: rest)
                = s.m_lineBuf :: completedLines [] rest := by
              cases ch with
              | none => rfl
              | some a =>
                have ha : isTerminator a = true := hf
                simp only [completedLines, ha, if_true]
            have hpc : pendingChars s.m_lineBuf.data (ch :: rest) = pendingChars [] rest := by
              cases ch with
              | none => rfl
              | some a =>
                have ha : isTerminator a = true := hf
                simp only [pendingChars, ha, if_true]
            rw [hcl, hpc, h1, h2, hw, hb2]
            simp
          · simp [hok] at ho
      · cases ch with
        | none => simp [isFlushChar] at hf
        | some a =>
          have ha : isTerminator a = false := by simpa [isFlushChar] using hf
          rw [PyOutStream.overflow_char deleteBlend s c a hp hl ha] at ho
          simp only [Outcome.ok.injEq] at ho
          obtain ⟨hs2, hc2⟩ := ho
          obtain ⟨hd, hn⟩ := String.push_data_no_nul s.m_lineBuf a hbuf ha
          have hb2 : s2.m_lineBuf.data = s.m_lineBuf.data ++ [a] := by rw [← hs2]; exact hd
          obtain ⟨h1, h2⟩ := ih s2 s1 c2 c1 (by rw [← hs2]; exact hn) h
          rw [h1, h2, hb2, ← hc2]
          simp only [completedLines, pendingChars, ha, Bool.false_eq_true, if_false]
          exact ⟨trivial, trivial⟩

/-- With a peer that answers `OK` to every line, a write returns. -/
theorem PyOutStream.write_accepted (deleteBlend : BlenderConnection → BlenderConnection)
    (chars : List (Option Char)) : ∀ (s : PyOutStream) (c : BlenderConnection)
    (rest : List Char), s.m_parent = true → c.m_lock = true →
    (∀ ch ∈ s.m_lineBuf.data, ch ≠ Char.ofNat 0) →
    c.incoming = okReplies (chars.countP isFlushChar) ++ rest →
    PyOutStream.write deleteBlend s c chars
      = Outcome.ok { s with m_lineBuf := String.mk (pendingChars s.m_lineBuf.data chars) }
          { c with written := c.written
                     ++ (completedLines s.m_lineBuf.data chars).map Written.line,
                   incoming := rest } := by
  induction chars with
  | nil =>
    intro s c rest _ _ _ hin
    simp only [List.countP_nil, okReplies, List.nil_append] at hin
    simp only [PyOutStream.write, pendingChars, completedLines, List.map_nil,
      List.append_nil, ← hin]
  | cons ch chars1 ih =>
    intro s c rest hp hl hbuf hin
    simp only [PyOutStream.write]
    by_cases hf : isFlushChar ch = true
    · have hcount : (ch :: chars1).countP isFlushChar = chars1.countP isFlushChar + 1 := by
        simp [List.countP_cons, hf]
      rw [hcount] at hin
      have hin1 : (c._writeLine s.m_lineBuf).incoming
          = ("OK" : String).data ++ '\n' :: (okReplies (chars1.countP isFlushChar) ++ rest) := by
        simp only [BlenderConnection._writeLine, hin, okReplies]
        rfl
      have hread := BlenderConnection._readLine_line (c._writeLine s.m_lineBuf) "OK" _ 16
        (by decide) (by decide) hin1
      rw [PyOutStream.overflow_flush deleteBlend s c ch hp hl hf,
        c_str_of_no_nul s.m_lineBuf hbuf, hread]
      simp only [ne_eq, not_true_eq_false, if_false]
      have hih := ih { s with m_lineBuf := "" }
        { (c._writeLine s.m_lineBuf) with
            incoming := okReplies (chars1.countP isFlushChar) ++ rest }
        rest hp hl (by simp) rfl
      rw [hih]
      have hcl : completedLines s.m_lineBuf.data (ch :: chars1)
          = s.m_lineBuf :: completedLines [] chars1 := by
        cases ch with
        | none => rfl
        | some a =>
          have ha : isTerminator a = true := hf
          simp only [completedLines, ha, if_true]
      have hpc : pendingChars s.m_lineBuf.data (ch :: chars1) = pendingChars [] chars1 := by
        cases ch with
        | none => rfl
        | some a =>
          have ha : isTerminator a = true := hf
          simp only [pendingChars, ha, if_true]
      rw [hcl, hpc]
      simp [BlenderConnection._writeLine]
    · cases ch with
      | none => simp [isFlushChar] at hf
      | some a =>
        have ha : isTerminator a = false := by simpa [isFlushChar] using hf
        have hcount : (some a :: chars1).countP isFlushChar = chars1.countP isFlushChar := by
          simp [List.countP_cons, isFlushChar, ha]
        rw [hcount] at hin
        obtain ⟨hd, hn⟩ := String.push_data_no_nul s.m_lineBuf a hbuf ha
        rw [PyOutStream.overflow_char deleteBlend s c a hp hl ha]
        simp only []
        rw [ih { s with m_lineBuf := s.m_lineBuf.push a } c rest hp hl hn hin]
        simp only [completedLines, pendingChars, ha, Bool.false_eq_true, if_false, hd]

/-- C22: on an open script stream (pointer set, lock held, no NUL in the line buffer): a
character that is no terminator is put in the line buffer and nothing is sent; a
terminator (line feed, NUL or the end-of-file marker) sends the line buffer as one line,
and returns with the line buffer empty when the peer answers exactly `OK`, and stops at
a fatal report for every other answer; every write that returns has sent exactly the
lines completed by a terminator and keeps the characters after the last terminator
unsent in the line buffer; and with a peer that answers `OK` to each line the write
returns. -/
theorem pyout_sends_one_line_per_terminator
    (deleteBlend : BlenderConnection → BlenderConnection) (s : PyOutStream)
    (c : BlenderConnection) (chars : List (Option Char))
    (hp : s.m_parent = true) (hl : c.m_lock = true)
    (hbuf : ∀ ch ∈ s.m_lineBuf.data, ch ≠ Char.ofNat 0) :
    (∀ a, isTerminator a = false →
      s.overflow deleteBlend c (some a)
        = Outcome.ok { s with m_lineBuf := s.m_lineBuf.push a } c) ∧
    (∀ ch reply c2, isFlushChar ch = true →
      (c._writeLine s.m_lineBuf)._readLine 16 = Outcome.ok reply c2 →
      c2.written = c.written ++ [Written.line s.m_lineBuf] ∧
      (reply = "OK" →
        s.overflow deleteBlend c ch = Outcome.ok { s with m_lineBuf := "" } c2) ∧
      (reply ≠ "OK" →
        s.overflow deleteBlend c ch
          = Outcome.fatal ("error sending \x27" ++ s.m_lineBuf ++ "\x27 to blender")
              (if s.m_deleteOnError then deleteBlend c2 else c2))) ∧
    (∀ s1 c1, PyOutStream.write deleteBlend s c chars = Outcome.ok s1 c1 →
      c1.written = c.written ++ (completedLines s.m_lineBuf.data chars).map Written.line ∧
      s1.m_lineBuf.data = pendingChars s.m_lineBuf.data chars) ∧
    (∀ rest, c.incoming = okReplies (chars.countP isFlushChar) ++ rest →
      PyOutStream.write deleteBlend s c chars
        = Outcome.ok { s with m_lineBuf := String.mk (pendingChars s.m_lineBuf.data chars) }
            { c with written := c.written
                       ++ (completedLines s.m_lineBuf.data chars).map Written.line,
                     incoming := rest }) := by
  refine ⟨fun a ha => PyOutStream.overflow_char deleteBlend s c a hp hl ha,
    fun ch reply c2 hf hr => ?_,
    fun s1 c1 h => PyOutStream.write_ok deleteBlend chars s s1 c c1 hbuf h,
    fun rest hin => PyOutStream.write_accepted deleteBlend chars s c rest hp hl hbuf hin⟩
  have hflush := PyOutStream.overflow_flush deleteBlend s c ch hp hl hf
  rw [c_str_of_no_nul s.m_lineBuf hbuf, hr] at hflush
  refine ⟨?_, fun hok => ?_, fun hne => ?_⟩
  · rw [BlenderConnection._readLine_ok_written hr, BlenderConnection._writeLine]
  · rw [hflush]; simp [hok]
  · rw [hflush]; simp [hne]

/-- C22 at the characters `ab`, line feed, `c`, end-of-file marker, `d` and a peer that
answers `OK` twice: the lines `ab` and `c` are sent, `d` stays in the line buffer. -/
theorem pyout_sends_one_line_per_terminator_witness :
    PyOutStream.write id openPyStream pyConnTwoOk sampleChars
      = Outcome.ok { openPyStream with m_lineBuf := "d" }
          { pyConnTwoOk with
              written := [Written.line "PYBEGIN", Written.line "ab", Written.line "c"],
              incoming := "rest".toList } :=
  ((pyout_sends_one_line_per_terminator id openPyStream pyConnTwoOk sampleChars rfl rfl
      (by decide)).2.2.2 "rest".toList (by decide)).trans (by decide)

/-! ## Animation stream -/

theorem ANIMOutStream.run_ok (calls : List ANIMCall) :
    ∀ (a a1 : ANIMOutStream) (c c1 : BlenderConnection),
    a.m_curCount ≤ a.m_totalCount → a.m_totalCount < 2 ^ 32 →
    ANIMOutStream.run a c calls = Outcome.ok a1 c1 →
    a1.m_curCount ≤ a1.m_totalCount ∧ a1.m_totalCount < 2 ^ 32 ∧
    a1.m_curCount = keysSinceChange a.m_curCount calls ∧
    a1.m_totalCount = declaredKeyCount a.m_totalCount calls ∧
    c1.written = c.written ++ sentRecords calls := by
  induction calls with
  | nil =>
    intro a a1 c c1 h1 h2 h
    simp only [ANIMOutStream.run, Outcome.ok.injEq] at h
    rw [← h.1, ← h.2]
    exact ⟨h1, h2, rfl, rfl, by simp [sentRecords]⟩
  | cons k ks ih =>
    intro a a1 c c1 h1 h2 h
    cases k with
    | changeCurve type crvIdx keyCount =>
      simp only [ANIMOutStream.run, ANIMOutStream.call, ANIMOutStream.changeCurve] at h
      by_cases hne : a.m_curCount ≠ a.m_totalCount
      · simp [hne] at h
      · simp only [hne, if_false] at h
        obtain ⟨i1, i2, i3, i4, i5⟩ :=
          ih { m_curCount := 0, m_totalCount := keyCount % 2 ^ 32, m_inCurve := true } a1
            (((c._writeBuf [type.toByte])._writeBuf
              (packLE32 (crvIdx % 2 ^ 32) ++ packLE32 (keyCount % 2 ^ 32)))) c1
            (Nat.zero_le _) (Nat.mod_lt _ (by decide)) h
        refine ⟨i1, i2, i3, i4, ?_⟩
        rw [i5]
        simp [BlenderConnection._writeBuf, sentRecords]
    | write frame val =>
      simp only [ANIMOutStream.run, ANIMOutStream.call, ANIMOutStream.write] at h
      by_cases hin : a.m_inCurve = true
      · by_cases hlt : a.m_curCount < a.m_totalCount
        · have hmod : (a.m_curCount + 1) % 2 ^ 32 = a.m_curCount + 1 :=
            Nat.mod_eq_of_lt (by omega)
          simp only [hin, Bool.not_true, Bool.false_eq_true, if_false, hlt, if_true,
            hmod] at h
          obtain ⟨i1, i2, i3, i4, i5⟩ :=
            ih { m_curCount := a.m_curCount + 1, m_totalCount := a.m_totalCount,
                 m_inCurve := true } a1
              (c._writeBuf (packLE32 (frame % 2 ^ 32) ++ packLE32 (val % 2 ^ 32))) c1
              (by simpa using hlt) h2 h
          refine ⟨i1, i2, i3, i4, ?_⟩
          rw [i5]
          simp [BlenderConnection._writeBuf, sentRecords]
        · simp [hin, hlt] at h
      · simp [hin] at h

/-- C25: every state an animation stream reaches by `changeCurve` and `write` calls
without a fatal report has `m_curCount <= m_totalCount`, `m_curCount` being the number
of keys written since the last `changeCurve`, `m_totalCount` the `keyCount` it declared,
and one 8-byte record sent per `write`; a `write` before any `changeCurve` or with the
declared number of keys already written, and a `changeCurve` with fewer keys written
than declared, stop at a fatal report with nothing sent. -/
theorem anim_stream_keys_within_declared (c : BlenderConnection) (calls : List ANIMCall) :
    (∀ a1 c1, ANIMOutStream.run ANIMOutStream.initial c calls = Outcome.ok a1 c1 →
      a1.m_curCount ≤ a1.m_totalCount ∧
      a1.m_curCount = keysSinceChange 0 calls ∧
      a1.m_totalCount = declaredKeyCount 0 calls ∧
      c1.written = c.written ++ sentRecords calls) ∧
    (∀ (a : ANIMOutStream) (frame val : Nat), a.m_inCurve = false →
      a.write c frame val = Outcome.fatal "changeCurve not called before write" c) ∧
    (∀ (a : ANIMOutStream) (frame val : Nat), a.m_inCurve = true →
      a.m_totalCount ≤ a.m_curCount →
      a.write c frame val = Outcome.fatal "ANIMOutStream keyCount overflow" c) ∧
    (∀ (a : ANIMOutStream) (type : ANIMCurveType) (crvIdx keyCount : Nat),
      a.m_curCount < a.m_totalCount →
      a.changeCurve c type crvIdx keyCount
        = Outcome.fatal "incomplete ANIMOutStream for change" c) := by
  refine ⟨fun a1 c1 h => ?_, fun a frame val hin => ?_, fun a frame val hin hle => ?_,
    fun a type crvIdx keyCount hlt => ?_⟩
  · obtain ⟨i1, _, i3, i4, i5⟩ := ANIMOutStream.run_ok calls ANIMOutStream.initial a1 c c1
      (Nat.le_refl _) (by decide) h
    exact ⟨i1, i3, i4, i5⟩
  · simp [ANIMOutStream.write, hin]
  · have : ¬ a.m_curCount < a.m_totalCount := by omega
    simp [ANIMOutStream.write, hin, this]
  · have : a.m_curCount ≠ a.m_totalCount := by omega
    simp [ANIMOutStream.changeCurve, this]

/-- C25 at a curve of 2 keys: after both keys the counters are 2 and 2, and a third
`write` is refused. -/
theorem anim_stream_keys_within_declared_witness :
    (2 : Nat) ≤ 2 ∧
    ANIMOutStream.write { m_curCount := 2, m_totalCount := 2, m_inCurve := true } animConn 2 7
      = Outcome.fatal "ANIMOutStream keyCount overflow" animConn :=
  ⟨((anim_stream_keys_within_declared animConn sampleAnimCalls).1
      { m_curCount := 2, m_totalCount := 2, m_inCurve := true }
      { animConn with written := sentRecords sampleAnimCalls } (by decide)).1,
   (anim_stream_keys_within_declared animConn sampleAnimCalls).2.2.1
      { m_curCount := 2, m_totalCount := 2, m_inCurve := true } 2 7 rfl (by decide)⟩

/-! ## SanitizePath -/

theorem sanitizeTransform_length (l : List Char) : ∀ ic : Bool,
    (sanitizeTransform ic l).length = l.length := by
  induction l with
  | nil => intro ic; rfl
  | cons a rest ih =>
    intro ic
    simp only [sanitizeTransform]
    split
    · simp [ih]
    · split
      · simp [ih]
      · split <;> simp [ih]

theorem sanitizeTransform_mem (l : List Char) : ∀ (ic : Bool) (ch : Char),
    ch ∈ sanitizeTransform ic l →
      ch = '_' ∨ ch = '/' ∨ (ch ∈ l ∧ Illegals.contains ch = false) := by
  induction l with
  | nil => intro ic ch h; simp [sanitizeTransform] at h
  | cons a rest ih =>
    intro ic ch h
    have hrest : ∀ ic1, ch ∈ sanitizeTransform ic1 rest →
        ch = '_' ∨ ch = '/' ∨ (ch ∈ a :: rest ∧ Illegals.contains ch = false) := by
      intro ic1 h1
      rcases ih ic1 ch h1 with e | e | ⟨e1, e2⟩
      · exact Or.inl e
      · exact Or.inr (Or.inl e)
      · exact Or.inr (Or.inr ⟨List.mem_cons_of_mem _ e1, e2⟩)
    simp only [sanitizeTransform] at h
    have hself : Illegals.contains a = false →
        a = '_' ∨ a = '/' ∨ (a ∈ a :: rest ∧ Illegals.contains a = false) :=
      fun hf => Or.inr (Or.inr ⟨List.mem_cons_self _ _, hf⟩)
    by_cases h1 : Illegals.contains a = true
    · rw [if_pos h1] at h
      rcases List.mem_cons.mp h with e | e
      · exact Or.inl e
      · exact hrest _ e
    · have h1f : Illegals.contains a = false := by simpa using h1
      rw [if_neg h1] at h
      by_cases h2 : ic = true
      · rw [if_pos h2] at h
        rcases List.mem_cons.mp h with e | e
        · rw [e]; exact hself h1f
        · exact hrest _ e
      · rw [if_neg h2] at h
        by_cases h3 : a = '\\' ∧ (rest.isEmpty ∨ rest.head? ≠ some '\\')
        · rw [if_pos h3] at h
          rcases List.mem_cons.mp h with e | e
          · exact Or.inr (Or.inl e)
          · exact hrest _ e
        · rw [if_neg h3] at h
          rcases List.mem_cons.mp h with e | e
          · rw [e]; exact hself h1f
          · exact hrest _ e

theorem stripLoop_some (l r : List Char) (h : stripLoop l = some r) :
    ∃ pre, l = pre ++ r := by
  induction l with
  | nil => simp [stripLoop] at h
  | cons c rest ih =>
    simp only [stripLoop] at h
    by_cases hc : c = '/'
    · simp only [hc, if_true] at h
      obtain ⟨pre, hpre⟩ := ih h
      exact ⟨'/' :: pre, by rw [hc, hpre]; rfl⟩
    · simp only [hc, if_false, Option.some.injEq] at h
      exact ⟨[], by rw [← h]; rfl⟩

theorem stripLoop_isNone (l : List Char) :
    (stripLoop l).isNone = l.all (fun ch => ch == '/') := by
  induction l with
  | nil => rfl
  | cons c rest ih =>
    simp only [stripLoop, List.all_cons]
    by_cases hc : c = '/'
    · simp [hc, ih]
    · simp [hc]

theorem sanitizeChars_clean (path : List Char) (ch : Char) (h : ch ∈ sanitizeChars path) :
    forbiddenChars.contains ch = false := by
  rcases sanitizeTransform_mem _ false ch h with e | e | ⟨e1, e2⟩
  · rw [e]; decide
  · rw [e]; decide
  · simp only [List.mem_filter, bne_iff_ne, ne_eq] at e1
    obtain ⟨⟨_, hn⟩, hr⟩ := e1
    simp only [Illegals, List.contains_cons, List.contains_nil, Bool.or_false,
      Bool.or_eq_false_iff, beq_eq_false_iff_ne, ne_eq] at e2
    simp only [forbiddenChars, List.contains_cons, List.contains_nil, Bool.or_false,
      Bool.or_eq_false_iff, beq_eq_false_iff_ne, ne_eq]
    exact ⟨hn, hr, e2⟩

theorem sanitizeChars_length (path : List Char) : (sanitizeChars path).length ≤ path.length := by
  simp only [sanitizeChars, sanitizeTransform_length]
  exact Nat.le_trans (List.length_filter_le _ _) (List.length_filter_le _ _)

theorem stripLoopLeft_of_some (l r : List Char) (h : stripLoop l = some r) :
    stripLoopLeft l = r := by
  induction l with
  | nil => simp [stripLoop] at h
  | cons c rest ih =>
    simp only [stripLoop] at h
    simp only [stripLoopLeft]
    by_cases hc : c = '/'
    · simp only [hc, if_true] at h ⊢
      exact ih h
    · simp only [hc, if_false, Option.some.injEq] at h ⊢
      exact h

theorem stripLoopLeft_of_none (l : List Char) (h : stripLoop l = none) :
    stripLoopLeft l = [] := by
  induction l with
  | nil => rfl
  | cons c rest ih =>
    simp only [stripLoop] at h
    simp only [stripLoopLeft]
    by_cases hc : c = '/'
    · simp only [hc, if_true] at h ⊢
      exact ih h
    · simp [hc] at h

theorem stripLoopLeft_suffix (l : List Char) : ∃ pre, l = pre ++ stripLoopLeft l := by
  induction l with
  | nil => exact ⟨[], rfl⟩
  | cons c rest ih =>
    simp only [stripLoopLeft]
    by_cases hc : c = '/'
    · simp only [hc, if_true]
      obtain ⟨pre, hpre⟩ := ih
      exact ⟨'/' :: pre, by rw [List.cons_append, ← hpre]⟩
    · simp only [hc, if_false]
      exact ⟨[], rfl⟩

/-- C27: for every input the string left by `SanitizePath` holds none of the characters
line feed, carriage return, `<`, `>`, `?` and double quote and is no longer than the
input.  Where the call is defined the string left is the one `SanitizePath` yields; on the
inputs on which the loop goes on to evaluate `path.back()` on the empty string, the
string left is the empty string. -/
theorem SanitizePath_leaves_clean_string (path : String) :
    (SanitizePathLeft path).data.all (fun ch => !forbiddenChars.contains ch) = true ∧
    (SanitizePathLeft path).length ≤ path.length ∧
    (SanitizePath path = some (SanitizePathLeft path) ∨
      (SanitizePath path = none ∧ SanitizePathLeft path = "")) := by
  unfold SanitizePathLeft SanitizePath
  by_cases he : path.data.isEmpty = true
  · rw [if_pos he, if_pos he]
    refine ⟨?_, Nat.le_refl _, Or.inl rfl⟩
    have : path.data = [] := by simpa using he
    rw [this]; rfl
  · rw [if_neg he, if_neg he]
    obtain ⟨pre, hpre⟩ := stripLoopLeft_suffix (sanitizeChars path.data).reverse
    refine ⟨?_, ?_, ?_⟩
    · rw [List.all_eq_true]
      intro ch hch
      have hmem : ch ∈ sanitizeChars path.data := by
        have : ch ∈ (sanitizeChars path.data).reverse := by
          rw [hpre]; exact List.mem_append_right _ (List.mem_reverse.mp hch)
        exact List.mem_reverse.mp this
      have := sanitizeChars_clean path.data ch hmem
      simpa using this
    · have h1 : (stripLoopLeft (sanitizeChars path.data).reverse).length
          ≤ (sanitizeChars path.data).length := by
        have := congrArg List.length hpre
        simp only [List.length_reverse, List.length_append] at this
        omega
      have h2 := sanitizeChars_length path.data
      simp only [String.length, List.length_reverse]
      omega
    · cases hs : stripLoop (sanitizeChars path.data).reverse with
      | none =>
        right
        refine ⟨rfl, ?_⟩
        rw [stripLoopLeft_of_none _ hs]
        rfl
      | some r =>
        left
        rw [stripLoopLeft_of_some _ _ hs]
        rfl

/-- C28 at its failing inputs: on `/`, on a line feed and on a backslash the loop
evaluates `path.back()` on the empty string; this happens exactly for the non-empty
paths that hold nothing but `/` after the sanitizing pass. -/
theorem SanitizePath_back_on_empty (path : String) :
    SanitizePath "/" = none ∧ SanitizePath "\n" = none ∧ SanitizePath "\\" = none ∧
    SanitizePath "//\r/" = none ∧
    (SanitizePath path).isNone
      = (!path.data.isEmpty && (sanitizeChars path.data).all (fun ch => ch == '/')) := by
  refine ⟨by decide, by decide, by decide, by decide, ?_⟩
  unfold SanitizePath
  by_cases he : path.data.isEmpty = true
  · simp [he]
  · have hmap : ∀ o : Option (List Char),
        (o.map (fun r => String.mk r.reverse)).isNone = o.isNone := by
      intro o; cases o <;> rfl
    have hne : path.data.isEmpty = false := by simpa using he
    simp only [hne, Bool.false_eq_true, if_false, Bool.not_false, Bool.true_and]
    rw [hmap, stripLoop_isNone, List.all_reverse]

/-! ## Resource locks -/

theorem PathsTable.any_thread_iff {Path : Type} (table : PathsTable Path) (thread : Nat) :
    table.any (fun entry => entry.1 == thread) = true ↔ thread ∈ table.map Prod.fst := by
  simp only [List.any_eq_true, beq_iff_eq, List.mem_map]

theorem ResourceLock.any_path_iff {Path : Type} [DecidableEq Path] (table : PathsTable Path)
    (path : Path) :
    table.any (fun entry => decide (entry.2 = path)) = true ↔ ∃ t, (t, path) ∈ table := by
  simp only [List.any_eq_true, decide_eq_true_eq]
  constructor
  · rintro ⟨⟨t, p⟩, he, h⟩
    exact ⟨t, by simpa [← h] using he⟩
  · rintro ⟨t, ht⟩
    exact ⟨(t, path), ht, rfl⟩

/-- What `SetThreadRes` does when it returns. -/
theorem ResourceLock.SetThreadRes_returned {Path : Type} [DecidableEq Path]
    (table table1 : PathsTable Path) (thread : Nat) (path : Path) (ret : Bool)
    (h : ResourceLock.SetThreadRes table thread path = Reported.returned (ret, table1)) :
    thread ∉ table.map Prod.fst ∧
    (ret = false ↔ ∃ t, (t, path) ∈ table) ∧
    (ret = false → table1 = table) ∧
    (ret = true → table1 = table ++ [(thread, path)]) := by
  unfold ResourceLock.SetThreadRes at h
  by_cases ht : table.any (fun entry => entry.1 == thread) = true
  · simp [ht] at h
  · have hnot : thread ∉ table.map Prod.fst :=
      fun hm => ht ((PathsTable.any_thread_iff table thread).mpr hm)
    rw [if_neg ht] at h
    by_cases hp : table.any (fun entry => decide (entry.2 = path)) = true
    · simp only [hp, if_true, Reported.returned.injEq, Prod.mk.injEq] at h
      obtain ⟨h1, h2⟩ := h
      refine ⟨hnot, ?_, fun _ => h2.symm, fun hr => ?_⟩
      · rw [← h1]
        simp only [true_iff]
        exact (ResourceLock.any_path_iff table path).mp hp
      · rw [← h1] at hr; simp at hr
    · simp only [hp, if_false, Bool.false_eq_true, Reported.returned.injEq,
        Prod.mk.injEq] at h
      obtain ⟨h1, h2⟩ := h
      refine ⟨hnot, ?_, fun hr => ?_, fun _ => ?_⟩
      · rw [← h1]
        simp only [Bool.true_eq_false, false_iff]
        exact fun hex => hp ((ResourceLock.any_path_iff table path).mpr hex)
      · rw [← h1] at hr; simp at hr
      · rw [← h2, PathsTable.insert_or_assign, if_neg ht]

theorem ResourceLock.run_unique {Path : Type} [DecidableEq Path]
    (calls : List (LockCall Path)) : ∀ (table final : PathsTable Path),
    (table.map Prod.fst).Nodup → (table.map Prod.snd).Nodup →
    ResourceLock.run table calls = some final →
    (final.map Prod.fst).Nodup ∧ (final.map Prod.snd).Nodup := by
  induction calls with
  | nil =>
    intro table final h1 h2 h
    simp only [ResourceLock.run, Option.some.injEq] at h
    subst h; exact ⟨h1, h2⟩
  | cons k ks ih =>
    intro table final h1 h2 h
    cases k with
    | SetThreadRes thread path =>
      simp only [ResourceLock.run] at h
      cases hs : ResourceLock.SetThreadRes table thread path with
      | fatal msg => simp [hs] at h
      | returned r =>
        obtain ⟨ret, table1⟩ := r
        simp only [hs] at h
        obtain ⟨hnot, hiff, hfalse, htrue⟩ :=
          ResourceLock.SetThreadRes_returned table table1 thread path ret hs
        cases ret with
        | false =>
          rw [hfalse rfl] at h
          exact ih table final h1 h2 h
        | true =>
          have hnp : path ∉ table.map Prod.snd := by
            intro hm
            obtain ⟨e, he, hep⟩ := List.mem_map.mp hm
            have : (false : Bool) = true → False := by simp
            have hx : ∃ t, (t, path) ∈ table := ⟨e.1, by rw [← hep]; exact he⟩
            have := hiff.mpr hx
            simp at this
          refine ih table1 final ?_ ?_ h
          · rw [htrue rfl, List.map_append]
            refine List.Nodup.append h1 (List.nodup_singleton _) ?_
            intro x hx1 hx2
            simp only [List.map_cons, List.map_nil, List.mem_singleton] at hx2
            rw [hx2] at hx1
            exact hnot hx1
          · rw [htrue rfl, List.map_append]
            refine List.Nodup.append h2 (List.nodup_singleton _) ?_
            intro x hx1 hx2
            simp only [List.map_cons, List.map_nil, List.mem_singleton] at hx2
            rw [hx2] at hx1
            exact hnp hx1
    | ClearThreadRes thread =>
      simp only [ResourceLock.run] at h
      refine ih _ final ?_ ?_ h
      · exact h1.sublist ((List.filter_sublist _).map _)
      · exact h2.sublist ((List.filter_sublist _).map _)

/-- C29: in every table reached from the empty table by `SetThreadRes` and
`ClearThreadRes` calls without a fatal report, no thread is registered twice and no two
entries hold the same path; and a `SetThreadRes(path)` that returns, returns false
exactly when some thread holds the path, then with the table unchanged, and otherwise
returns true with the calling thread registered for the path. -/
theorem resource_lock_paths_unique {Path : Type} [DecidableEq Path]
    (calls : List (LockCall Path)) (table : PathsTable Path) (thread : Nat) (path : Path) :
    (∀ final, ResourceLock.run [] calls = some final →
      (final.map Prod.fst).Nodup ∧ (final.map Prod.snd).Nodup) ∧
    (∀ ret table1,
      ResourceLock.SetThreadRes table thread path = Reported.returned (ret, table1) →
      (ret = false ↔ ∃ t, (t, path) ∈ table) ∧
      (ret = false → table1 = table) ∧
      (ret = true → table1 = table ++ [(thread, path)])) := by
  constructor
  · intro final h
    exact ResourceLock.run_unique calls [] final List.nodup_nil List.nodup_nil h
  · intro ret table1 h
    exact (ResourceLock.SetThreadRes_returned table table1 thread path ret h).2

/-- C29 at three threads: the second request for the path `a` is refused while thread 1
holds it and granted to thread 3 after thread 1 cleared. -/
theorem resource_lock_paths_unique_witness :
    ResourceLock.run ([] : PathsTable String)
        [LockCall.SetThreadRes 1 "a", LockCall.SetThreadRes 2 "a",
         LockCall.SetThreadRes 2 "b", LockCall.ClearThreadRes 1, LockCall.SetThreadRes 3 "a"]
      = some [(2, "b"), (3, "a")] ∧
    ([(2, "b"), (3, "a")].map Prod.snd).Nodup ∧
    ResourceLock.SetThreadRes [(1, "a")] 2 "a" = Reported.returned (false, [(1, "a")]) :=
  ⟨by decide,
   ((resource_lock_paths_unique
      [LockCall.SetThreadRes 1 "a", LockCall.SetThreadRes 2 "a",
       LockCall.SetThreadRes 2 "b", LockCall.ClearThreadRes 1, LockCall.SetThreadRes 3 "a"]
      [(1, "a")] 2 "a").1 [(2, "b"), (3, "a")] (by decide)).2,
   by decide⟩

/-! ## Texture coordinate generators -/

/-- C30: `addTexCoordGen` returns an index that is smaller than the length of the list
it leaves and whose entry has the triple asked for; the entries already in the list stay
as they are; the list is unchanged when an entry with the triple exists and grows by
one entry otherwise; and a second call with the same triple returns the same index and
the same list. -/
theorem addTexCoordGen_dedups (m_tcgs : List TexCoordGen) (src : TexGenSrc)
    (uvIdx mtx : Int) (hsize : m_tcgs.length < 2 ^ 32) :
    (GLSL.addTexCoordGen m_tcgs src uvIdx mtx).1
      < (GLSL.addTexCoordGen m_tcgs src uvIdx mtx).2.length ∧
    (∃ tcg, (GLSL.addTexCoordGen m_tcgs src uvIdx mtx).2[
          (GLSL.addTexCoordGen m_tcgs src uvIdx mtx).1]? = some tcg ∧
        tcg.m_src = src ∧ tcg.m_uvIdx = uvIdx ∧ tcg.m_mtx = mtx) ∧
    (∃ ext, (GLSL.addTexCoordGen m_tcgs src uvIdx mtx).2 = m_tcgs ++ ext) ∧
    ((∃ tcg ∈ m_tcgs, tcg.m_src = src ∧ tcg.m_uvIdx = uvIdx ∧ tcg.m_mtx = mtx) →
      (GLSL.addTexCoordGen m_tcgs src uvIdx mtx).2 = m_tcgs) ∧
    ((¬ ∃ tcg ∈ m_tcgs, tcg.m_src = src ∧ tcg.m_uvIdx = uvIdx ∧ tcg.m_mtx = mtx) →
      (GLSL.addTexCoordGen m_tcgs src uvIdx mtx).2.length = m_tcgs.length + 1) ∧
    GLSL.addTexCoordGen (GLSL.addTexCoordGen m_tcgs src uvIdx mtx).2 src uvIdx mtx
      = GLSL.addTexCoordGen m_tcgs src uvIdx mtx := by
  have htriple : ∀ tcg : TexCoordGen, tcg.hasTriple src uvIdx mtx = true ↔
      (tcg.m_src = src ∧ tcg.m_uvIdx = uvIdx ∧ tcg.m_mtx = mtx) := by
    intro tcg
    simp [TexCoordGen.hasTriple, and_assoc]
  have hfound : m_tcgs.findIdx (fun tcg => tcg.hasTriple src uvIdx mtx) < m_tcgs.length ↔
      ∃ tcg ∈ m_tcgs, tcg.m_src = src ∧ tcg.m_uvIdx = uvIdx ∧ tcg.m_mtx = mtx := by
    rw [List.findIdx_lt_length]
    constructor
    · rintro ⟨t, ht, h⟩; exact ⟨t, ht, (htriple t).mp h⟩
    · rintro ⟨t, ht, h⟩; exact ⟨t, ht, (htriple t).mpr h⟩
  by_cases hlt : m_tcgs.findIdx (fun tcg => tcg.hasTriple src uvIdx mtx) < m_tcgs.length
  · have hres : GLSL.addTexCoordGen m_tcgs src uvIdx mtx
        = (m_tcgs.findIdx (fun tcg => tcg.hasTriple src uvIdx mtx), m_tcgs) := by
      simp only [GLSL.addTexCoordGen, hlt, if_true]
    rw [hres]
    refine ⟨hlt, ?_, ⟨[], by simp⟩, fun _ => rfl, fun hno => absurd (hfound.mp hlt) hno, hres⟩
    refine ⟨m_tcgs[m_tcgs.findIdx (fun tcg => tcg.hasTriple src uvIdx mtx)],
      List.getElem?_eq_getElem hlt, ?_⟩
    exact (htriple _).mp (List.findIdx_getElem (p := fun (tcg : TexCoordGen) =>
      tcg.hasTriple src uvIdx mtx))
  · have hmod : (m_tcgs.length + 1 - 1) % 2 ^ 32 = m_tcgs.length := by
      rw [Nat.add_sub_cancel, Nat.mod_eq_of_lt hsize]
    have hres : GLSL.addTexCoordGen m_tcgs src uvIdx mtx
        = (m_tcgs.length,
            m_tcgs ++
              [{ m_src := src, m_uvIdx := uvIdx, m_mtx := mtx, m_gameFunction := "",
                 m_gameArgs := [] }]) := by
      simp only [GLSL.addTexCoordGen, hlt, if_false, List.length_append,
        List.length_singleton, hmod]
    have hidx :
        (m_tcgs ++
          [({ m_src := src, m_uvIdx := uvIdx, m_mtx := mtx, m_gameFunction := "",
              m_gameArgs := [] } : TexCoordGen)]).findIdx
          (fun tcg => tcg.hasTriple src uvIdx mtx) = m_tcgs.length := by
      rw [List.findIdx_append, if_neg hlt]
      simp [List.findIdx_cons, TexCoordGen.hasTriple]
    rw [hres]
    have hget :
        (m_tcgs ++
          [({ m_src := src, m_uvIdx := uvIdx, m_mtx := mtx, m_gameFunction := "",
              m_gameArgs := [] } : TexCoordGen)])[m_tcgs.length]?
          = some { m_src := src, m_uvIdx := uvIdx, m_mtx := mtx, m_gameFunction := "",
                   m_gameArgs := [] } := by
      simp
    refine ⟨by simp, ⟨_, hget, rfl, rfl, rfl⟩, ⟨_, rfl⟩,
      fun hex => absurd (hfound.mpr hex) hlt, fun _ => by simp, ?_⟩
    simp only [GLSL.addTexCoordGen, hidx, List.length_append, List.length_singleton]
    simp

/-- C30 at a list of two generators: the triple of the second is found at index 1, a
new triple is appended at index 2. -/
theorem addTexCoordGen_dedups_witness :
    GLSL.addTexCoordGen sampleTcgs TexGenSrc.TG_POS 0 1 = (1, sampleTcgs) ∧
    (GLSL.addTexCoordGen sampleTcgs TexGenSrc.TG_NRM 0 1).1 = 2 ∧
    (GLSL.addTexCoordGen sampleTcgs TexGenSrc.TG_NRM 0 1).1
      < (GLSL.addTexCoordGen sampleTcgs TexGenSrc.TG_NRM 0 1).2.length :=
  ⟨by decide, by decide, (addTexCoordGen_dedups sampleTcgs TexGenSrc.TG_NRM 0 1 (by decide)).1⟩

end hecl
